import Mathlib

/-!
Traqer admin console: stop-list transactions and the central cache.

A shallow embedding of `src/Traqer/app.js`.

* Stop-list transactions (`addStopBtn` handler, `removeStopBtn` handler,
  `editStopName`, `deleteStop`): the body of each `runTransaction` callback is a
  function from the snapshot that `tx.get` returned (`none` when
  `snap.exists()` is false) to either the thrown error message or the `stops`
  array handed to `tx.update`.
* `CentralCache`: explicit state passing; callbacks are identified by a
  number (JavaScript compares them by reference) and every callback
  invocation is appended to a log; the loop of a delivery ends at the first
  callback that throws.
* Bulk import of parents (`bulkUploadBtn` handler): the loop body is a function
  on the loop variables, extended with the calls made to
  `createUserWithEmailAndPassword` and `setDoc` and the delays awaited; the
  answers of the two collaborators are parameters.
* Reference table (`bulkTemplateBtn` handler), driver assignment
  (`driverForm` and `addBusForm` handlers) and the parent form: functions on
  the cached lists and on the documents written, restricted to the fields
  the handlers read or write.
-/

namespace Traqer

/-! ## JavaScript helpers -/

/-- The characters removed by `String.prototype.trim` and skipped by `parseInt`
(ECMAScript WhiteSpace and LineTerminator). -/
def isJsSpace (c : Char) : Bool :=
  let n := c.toNat
  n = 9 || n = 10 || n = 11 || n = 12 || n = 13 || n = 32 || n = 160 || n = 5760 ||
  (8192 ≤ n && n ≤ 8202) || n = 8232 || n = 8233 || n = 8239 || n = 8287 ||
  n = 12288 || n = 65279

/-- Value of `c` as a digit of the given radix, if it is one. -/
def digitVal (radix : Nat) (c : Char) : Option Nat :=
  let n := c.toNat
  let v : Option Nat :=
    if 48 ≤ n ∧ n ≤ 57 then some (n - 48)
    else if 97 ≤ n ∧ n ≤ 122 then some (n - 87)
    else if 65 ≤ n ∧ n ≤ 90 then some (n - 55)
    else none
  v.filter (fun d => d < radix)

/-- The longest prefix of radix digits, as digit values. -/
def leadingDigits (radix : Nat) : List Char → List Nat
  | [] => []
  | c :: cs =>
    match digitVal radix c with
    | some d => d :: leadingDigits radix cs
    | none => []

/-- Steps 3 to 9 of `parseInt(s)` (no radix argument) on the characters that
follow the leading white space; `none` is `NaN`. -/
def parseIntChars (cs : List Char) : Option Int :=
  let sign : Int := match cs with
    | '-' :: _ => -1
    | _ => 1
  let body : List Char := match cs with
    | '-' :: r => r
    | '+' :: r => r
    | r => r
  let radix : Nat := match body with
    | '0' :: 'x' :: _ => 16
    | '0' :: 'X' :: _ => 16
    | _ => 10
  let digits : List Char := match body with
    | '0' :: 'x' :: r => r
    | '0' :: 'X' :: r => r
    | r => r
  match leadingDigits radix digits with
  | [] => none
  | ds => some (sign * ((ds.foldl (fun acc d => acc * radix + d) 0 : Nat) : Int))

/-- JavaScript `parseInt(s)`: `none` is `NaN`. The result is the exact integer; JavaScript
rounds it to a double, which is exact below `2 ^ 53`, and a rounded value of
that size exceeds every array length, so `insertAt` below is not affected. -/
def parseInt (s : String) : Option Int :=
  parseIntChars (s.data.dropWhile isJsSpace)

/-- Array `xs.splice(start, deleteCount, ...items)` for a non-negative `start`, as the
array it leaves in `xs`: every call site passes `Math.max(0, ..)`, a checked
`idx >= 0`, or a `findIndex` result different from `-1`. -/
def splice {α : Type} (xs : List α) (start deleteCount : Nat) (items : List α) : List α :=
  let actualStart := min start xs.length
  let actualDeleteCount := min deleteCount (xs.length - actualStart)
  xs.take actualStart ++ items ++ xs.drop (actualStart + actualDeleteCount)

/-- Array `xs.findIndex(p)`: `none` is `-1`. -/
def findIndex {α : Type} (p : α → Bool) : List α → Option Nat
  | [] => none
  | x :: xs => if p x then some 0 else (findIndex p xs).map (fun i => i + 1)

/-- Assignment `xs[i] = f(xs[i])`; an index outside the array changes nothing (the
call sites pass a `findIndex` result). -/
def updateAt {α : Type} (f : α → α) : Nat → List α → List α
  | _, [] => []
  | 0, x :: xs => f x :: xs
  | i + 1, x :: xs => x :: updateAt f i xs

/-! ## Data model -/

/-- A coordinate `{ lat, lng }`. The stop-list operations only carry it along;
it is kept as a pair of integers (micro-degrees, the form fills the fields with
`toFixed(6)`). -/
structure Location where
  lat : Int
  lng : Int
deriving DecidableEq, Repr

/-- One element of a bus document's `stops` array, with the fields the console
writes; the operations below assign `order` or `name` and keep the rest. -/
structure Stop where
  id : String
  name : String
  location : Location
  order : Nat
deriving DecidableEq, Repr

/-- A document of the `buses` collection (the fields the admin console writes in
`addBusForm`); `stops = none` is a document without a `stops` field. -/
structure BusDoc where
  busNumber : String
  routeName : String
  driverId : String
  stops : Option (List Stop)
deriving DecidableEq, Repr

/-- The `buses` collection: document id to document. -/
abbrev Store := String → Option BusDoc

/-- Expression `snap.data().stops || []`. -/
def BusDoc.stopsOrEmpty (d : BusDoc) : List Stop := d.stops.getD []

/-- The fields of a stop other than `order`. -/
def Stop.core (s : Stop) : String × String × Location := (s.id, s.name, s.location)

/-! ## Stop-list transactions -/

/-- Loop `stops.forEach((s, i) => s.order = i + 1)`, started at index `i`. -/
def renumberFrom : Nat → List Stop → List Stop
  | _, [] => []
  | i, s :: ss => { s with order := i + 1 } :: renumberFrom (i + 1) ss

/-- Loop `stops.forEach((s, i) => s.order = i + 1)`. -/
def renumber (stops : List Stop) : List Stop := renumberFrom 0 stops

/-- Insertion index
`(pos && !isNaN(parseInt(pos))) ? Math.max(0, parseInt(pos) - 1) : stops.length`
for a stop array of length `len`. -/
def insertAt (pos : String) (len : Nat) : Nat :=
  if pos = "" then len
  else
    match parseInt pos with
    | some n => (max 0 (n - 1)).toNat
    | none => len

/-- Body of the transaction of the `addStopBtn` handler. `newStop` is
`{ id: genId("stop"), name, location: { lat, lng }, order: 0 }`. -/
def addStopTx (pos : String) (newStop : Stop) (snap : Option BusDoc) :
    Except String (List Stop) :=
  match snap with
  | none => .error "Bus not found"
  | some d =>
    let stops := d.stopsOrEmpty
    .ok (renumber (splice stops (insertAt pos stops.length) 0 [newStop]))

/-- Body of the transaction of `deleteStop(busId, stopId)`. -/
def deleteStopTx (stopId : String) (snap : Option BusDoc) : Except String (List Stop) :=
  match snap with
  | none => .error "Bus missing"
  | some d =>
    let stops := d.stopsOrEmpty
    match findIndex (fun s => s.id == stopId) stops with
    | none => .error "Stop not found"
    | some idx => .ok (renumber (splice stops idx 1 []))

/-- Body of the transaction of `editStopName(busId, stopId, newName)`. -/
def editStopNameTx (stopId newName : String) (snap : Option BusDoc) :
    Except String (List Stop) :=
  match snap with
  | none => .error "Bus missing"
  | some d =>
    let stops := d.stopsOrEmpty
    match findIndex (fun s => s.id == stopId) stops with
    | none => .error "Stop not found"
    | some idx => .ok (updateAt (fun s => { s with name := newName }) idx stops)

/-- Body of the transaction of the `removeStopBtn` handler, `idx` being the
index chosen before the transaction. There is no `exists()` test:
`snap.data()` is `undefined` for a missing document and reading `.stops` throws
a `TypeError`. -/
def removeStopAtTx (idx : Nat) (snap : Option BusDoc) : Except String (List Stop) :=
  match snap with
  | none => .error "TypeError"
  | some d => .ok (renumber (splice d.stopsOrEmpty idx 1 []))

/-- Write `tx.update(busRef, { stops })` on the stored collection. -/
def Store.updateStops (st : Store) (busId : String) (stops : List Stop) : Store :=
  fun k => if k = busId then (st k).map (fun d => { d with stops := some stops }) else st k

/-- Firestore `runTransaction(db, async tx => ..)` for a body that reads
`doc(db, "buses", busId)` and then either throws or updates its `stops`: the
write is committed when the body returns and nothing is written when it throws.
The result is the collection afterwards and the error that reaches the caller. -/
def runTransaction (st : Store) (busId : String)
    (body : Option BusDoc → Except String (List Stop)) : Store × Option String :=
  match body (st busId) with
  | .ok stops => (st.updateStops busId stops, none)
  | .error e => (st, some e)

/-- The add-stop transaction on the collection. -/
def insertStop (st : Store) (busId pos : String) (newStop : Stop) : Store × Option String :=
  runTransaction st busId (addStopTx pos newStop)

/-- Function `deleteStop(busId, stopId)` on the collection. -/
def deleteStop (st : Store) (busId stopId : String) : Store × Option String :=
  runTransaction st busId (deleteStopTx stopId)

/-- Function `editStopName(busId, stopId, newName)` on the collection. -/
def editStopName (st : Store) (busId stopId newName : String) : Store × Option String :=
  runTransaction st busId (editStopNameTx stopId newName)

/-- The stop-list operations that change the length of the list. -/
inductive StopOp where
  | insert (pos : String) (newStop : Stop)
  | delete (stopId : String)
  | removeAt (idx : Nat)
deriving DecidableEq, Repr

/-- Transaction body of an operation. -/
def StopOp.body : StopOp → Option BusDoc → Except String (List Stop)
  | .insert pos newStop => addStopTx pos newStop
  | .delete stopId => deleteStopTx stopId
  | .removeAt idx => removeStopAtTx idx

/-- A sequence of operations on one vehicle, each in its own transaction; an
operation that throws leaves the collection as it was and the next one runs. -/
def runOps (st : Store) (busId : String) : List StopOp → Store
  | [] => st
  | op :: ops => runOps (runTransaction st busId op.body).1 busId ops

/-- The stop array stored for a vehicle (`[]` without document or field). -/
def storedStops (st : Store) (busId : String) : List Stop :=
  match st busId with
  | some d => d.stopsOrEmpty
  | none => []

/-- The `order` values, read in list order, are `1, 2, .., N`. -/
def Contiguous (stops : List Stop) : Prop :=
  stops.map (fun s => s.order) = List.range' 1 stops.length

instance (stops : List Stop) : Decidable (Contiguous stops) := by
  unfold Contiguous; infer_instance

/-! ## CentralCache -/

/-- A JavaScript object as its own enumerable properties in insertion order. -/
abbrev JsObj (V : Type) := List (String × V)

/-- Assignment `o[k] = v`: an existing property keeps its place. -/
def JsObj.set {V : Type} : JsObj V → String → V → JsObj V
  | [], k, v => [(k, v)]
  | (k', v') :: r, k, v => if k' = k then (k, v) :: r else (k', v') :: JsObj.set r k v

/-- Spread `{ ...o, ...src }`. -/
def JsObj.assign {V : Type} (o src : JsObj V) : JsObj V :=
  src.foldl (fun acc kv => JsObj.set acc kv.1 kv.2) o

/-- A document of a snapshot: `d.id` and `d.data()`. -/
structure Doc (V : Type) where
  id : String
  data : JsObj V

/-- The mapping `d => ({ id: d.id, ...d.data() })`; `str` makes a field value of
a string. -/
def entityOf {V : Type} (str : String → V) (d : Doc V) : JsObj V :=
  JsObj.assign [("id", str d.id)] d.data

/-- The three buckets of the cache. -/
inductive Kind where
  | buses
  | drivers
  | parents
deriving DecidableEq, Repr

/-- Property name of a bucket. -/
def Kind.name : Kind → String
  | .buses => "buses"
  | .drivers => "drivers"
  | .parents => "parents"

/-- The bucket `this[kind]` names, if any. -/
def Kind.ofString (kind : String) : Option Kind :=
  if kind = "buses" then some .buses
  else if kind = "drivers" then some .drivers
  else if kind = "parents" then some .parents
  else none

/-- A callback, identified by a number: JavaScript compares functions by
reference (`x !== cb`). -/
abbrev Cb := Nat

/-- One bucket `{ data: [], subs: [] }`. -/
structure Bucket (V : Type) where
  data : List (JsObj V)
  subs : List Cb

/-- The fields of `CentralCache`. -/
structure CentralCache (V : Type) where
  initialized : Bool
  buses : Bucket V
  drivers : Bucket V
  parents : Bucket V

/-- The state after `new CentralCache()`. -/
def CentralCache.new (V : Type) : CentralCache V :=
  { initialized := false, buses := ⟨[], []⟩, drivers := ⟨[], []⟩, parents := ⟨[], []⟩ }

/-- Field `this[kind]` for a bucket kind. -/
def CentralCache.bucket {V : Type} (c : CentralCache V) : Kind → Bucket V
  | .buses => c.buses
  | .drivers => c.drivers
  | .parents => c.parents

/-- Replace one bucket. -/
def CentralCache.setBucket {V : Type} (c : CentralCache V) (k : Kind) (b : Bucket V) :
    CentralCache V :=
  match k with
  | .buses => { c with buses := b }
  | .drivers => { c with drivers := b }
  | .parents => { c with parents := b }

/-- The cache together with what it did to its surroundings: the change
subscriptions opened with `onSnapshot`, in the order they were opened, and the
callback invocations, each with the argument it received. An invocation is
logged when the callback is entered, whether it then returns or throws.
Callbacks are taken not to touch the cache. -/
structure Sys (V : Type) where
  cache : CentralCache V
  listeners : List Kind
  calls : List (Cb × List (JsObj V))

/-- A fresh cache with nothing opened and nothing invoked. -/
def Sys.new (V : Type) : Sys V := { cache := CentralCache.new V, listeners := [], calls := [] }

/-- Method `init()`. `accepts k` says whether `onSnapshot(collection(db, k), ..)`
returns normally; when it throws, the `catch` logs and `initialized` stays
false, the subscriptions opened before the throw staying open. -/
def init {V : Type} (accepts : Kind → Bool) (s : Sys V) : Sys V :=
  if s.cache.initialized then s
  else if !accepts .buses then s
  else if !accepts .drivers then { s with listeners := s.listeners ++ [.buses] }
  else if !accepts .parents then { s with listeners := s.listeners ++ [.buses, .drivers] }
  else
    { s with
      listeners := s.listeners ++ [.buses, .drivers, .parents]
      cache := { s.cache with initialized := true } }

/-- The closure `() => { bucket.subs = bucket.subs.filter(x => x !== cb); }`
returned by `subscribe`. -/
def unsubscribe {V : Type} (k : Kind) (cb : Cb) (s : Sys V) : Sys V :=
  let bucket := s.cache.bucket k
  { s with cache := s.cache.setBucket k { bucket with subs := bucket.subs.filter (fun x => x != cb) } }

/-- Method `subscribe(kind, cb)`: the state afterwards and the returned handle, `none`
when the call throws (no bucket of that name). The handle is the closure built
by the `return`; the state is the same whether the replayed `cb` returns or
throws, since `push` and the invocation both precede the `return`. -/
def subscribe {V : Type} (accepts : Kind → Bool) (s : Sys V) (kind : String) (cb : Cb) :
    Sys V × Option (Sys V → Sys V) :=
  let s1 := if !s.cache.initialized then init accepts s else s
  match Kind.ofString kind with
  | none => (s1, none)
  | some k =>
    let bucket := s1.cache.bucket k
    let s2 := { s1 with cache := s1.cache.setBucket k { bucket with subs := bucket.subs ++ [cb] } }
    ({ s2 with calls := s2.calls ++ [(cb, bucket.data)] }, some (unsubscribe k cb))

/-- Method `get(kind)`: `(this[kind] && this[kind].data) || []`; a name that is no
bucket gives `[]`. -/
def get {V : Type} (s : Sys V) (kind : String) : List (JsObj V) :=
  match Kind.ofString kind with
  | some k => (s.cache.bucket k).data
  | none => []

/-- The callbacks entered by `subs.forEach(cb => cb(data))`, first to last:
`throws cb` says whether `cb` throws when invoked; nothing catches inside the
loop, so the first callback that throws ends it and the later ones are not
invoked. -/
def forEachCalls (throws : Cb → Bool) : List Cb → List Cb
  | [] => []
  | cb :: rest => if throws cb then [cb] else cb :: forEachCalls throws rest

/-- The `onSnapshot` callback of kind `k`, run on a snapshot with documents
`docs`: store the entities, then run `subs.forEach(cb => cb(data))`, where
`throws` is the behaviour of the subscribers at this delivery. -/
def deliver {V : Type} (str : String → V) (throws : Cb → Bool) (k : Kind) (docs : List (Doc V))
    (s : Sys V) : Sys V :=
  let data := docs.map (entityOf str)
  let bucket := s.cache.bucket k
  { s with
    cache := s.cache.setBucket k { bucket with data := data }
    calls := s.calls ++ (forEachCalls throws bucket.subs).map (fun cb => (cb, data)) }

/-- Whether the `onSnapshot` callback of kind `k` ends by an exception: some
subscriber entered by the loop throws. -/
def deliverThrows {V : Type} (throws : Cb → Bool) (k : Kind) (s : Sys V) : Bool :=
  (s.cache.bucket k).subs.any throws

/-- Subscribers none of which throws. -/
def noThrow : Cb → Bool := fun _ => false

/-! ## Auxiliary definitions for the statements -/

/-- The specification's `clamp(x, lo, hi)`. -/
def clamp (x lo hi : Int) : Int := max lo (min x hi)

/-- The calls on the cache that the application makes itself; deliveries come
from the store. -/
inductive CacheCall where
  | init
  | subscribe (kind : String) (cb : Cb)
  | unsubscribe (k : Kind) (cb : Cb)
deriving DecidableEq, Repr

/-- Run one call. -/
def CacheCall.run {V : Type} (accepts : Kind → Bool) : CacheCall → Sys V → Sys V
  | .init, s => Traqer.init accepts s
  | .subscribe kind cb, s => (Traqer.subscribe accepts s kind cb).1
  | .unsubscribe k cb, s => Traqer.unsubscribe k cb s

/-- Run a sequence of calls, first to last. -/
def runCalls {V : Type} (accepts : Kind → Bool) (cs : List CacheCall) (s : Sys V) : Sys V :=
  cs.foldl (fun acc c => c.run accepts acc) s

/-- A store that accepts every change subscription. -/
def acceptAll : Kind → Bool := fun _ => true

/-- A stop named like its id, at the origin, with stored order `o`. -/
def sampleStop (i : String) (o : Nat) : Stop := ⟨i, i, ⟨0, 0⟩, o⟩

/-- A bus with three stops whose stored order values are not contiguous. -/
def sampleDoc : BusDoc :=
  ⟨"TN-01", "North", "", some [sampleStop "a" 7, sampleStop "b" 7, sampleStop "c" 0]⟩

/-- A collection holding `sampleDoc` under the id `b1` and nothing else. -/
def sampleStore : Store := fun k => if k = "b1" then some sampleDoc else none

/-! ## Bulk import of parents (`bulkUploadBtn` handler) -/

/-- A cell value of a row returned by `XLSX.utils.sheet_to_json`: text, a
number (kept as an integer) or a boolean. -/
inductive Cell where
  | str (s : String)
  | num (n : Int)
  | bool (b : Bool)
deriving DecidableEq, Repr

/-- Truthiness of a cell value, as `||` tests it. -/
def Cell.truthy : Cell → Bool
  | .str s => s != ""
  | .num n => n != 0
  | .bool b => b

/-- Conversion `String(v)` of a cell value. -/
def Cell.toStr : Cell → String
  | .str s => s
  | .num n => toString n
  | .bool b => if b then "true" else "false"

/-- One parsed row: column header to cell value. -/
abbrev Row := JsObj Cell

/-- Property read `o[k]`: `none` is `undefined`. -/
def JsObj.get? {V : Type} : JsObj V → String → Option V
  | [], _ => none
  | (k', v) :: r, k => if k' = k then some v else JsObj.get? r k

/-- Chain `String(r.A || r.B || .. || "")` over the listed headers. -/
def firstTruthy (r : Row) : List String → String
  | [] => ""
  | k :: ks =>
    match JsObj.get? r k with
    | some v => if v.truthy then v.toStr else firstTruthy r ks
    | none => firstTruthy r ks

/-- Method `s.trim()`. -/
def jsTrim (s : String) : String :=
  String.mk (((s.data.dropWhile isJsSpace).reverse.dropWhile isJsSpace).reverse)

/-- Method `s.toLowerCase()` on the ASCII letters; other characters are kept
(JavaScript also maps letters outside ASCII). -/
def toLowerCase (s : String) : String := String.mk (s.data.map Char.toLower)

/-- Test `/\d/` on one character. -/
def isDigitChar (c : Char) : Bool := 48 ≤ c.toNat && c.toNat ≤ 57

/-- Replacement `.replace(/^(0|91)/, "")` on a character list. -/
def stripPrefix0or91 : List Char → List Char
  | '0' :: r => r
  | '9' :: '1' :: r => r
  | r => r

/-- Function `cleanPhone`:
`String(p || "").replace(/\D/g, "").replace(/^(0|91)/, "")`. -/
def cleanPhone (p : String) : String :=
  String.mk (stripPrefix0or91 (p.data.filter isDigitChar))

/-- Constant `SYNTH_DOMAIN`. -/
def SYNTH_DOMAIN : String := "traqerr.com"

/-- The six canonical fields read from a row (lines 529 to 534). -/
structure Normalised where
  studentName : String
  parentName : String
  phoneRaw : String
  cls : String
  busNumRaw : String
  stopNameRaw : String
deriving DecidableEq, Repr

/-- Header normalisation of one row. -/
def normalise (r : Row) : Normalised :=
  { studentName := jsTrim (firstTruthy r ["StudentName", "studentName", "Student", "student"])
    parentName := jsTrim (firstTruthy r ["ParentName", "parentName", "parent", "name"])
    phoneRaw := jsTrim (firstTruthy r ["Phone", "phone", "parentPhone", "parent_phone"])
    cls := jsTrim (firstTruthy r ["Class", "studentStd", "std", "ClassName"])
    busNumRaw := jsTrim (firstTruthy r ["BusNumber", "BusNumber", "busNumber", "BusNo", "Bus"])
    stopNameRaw :=
      jsTrim (firstTruthy r ["BusStop", "Stop", "Bus_Stop", "StopName", "busStop"]) }

/-- A bus as the cache holds it: the document id and the fields the import
reads; a missing text field is `""`, `stops = none` is a value that is not an
array. -/
structure Bus where
  id : String
  busNumber : String
  busName : String
  routeName : String
  stops : Option (List Stop)
deriving DecidableEq, Repr

/-- Expression `String(b.busNumber || b.busNumber || b.busName || "")`. -/
def Bus.displayNumber (b : Bus) : String :=
  if b.busNumber ≠ "" then b.busNumber else b.busName

/-- The comparison key `String(x).trim().toLowerCase()`. -/
def matchKey (s : String) : String := toLowerCase (jsTrim s)

/-- Bus lookup of lines 545 to 550: by display number, then by document id. -/
def findBus (buses : List Bus) (busNumRaw : String) : Option Bus :=
  if busNumRaw = "" then none
  else
    match buses.find? (fun b => matchKey b.displayNumber == matchKey busNumRaw) with
    | some b => some b
    | none => buses.find? (fun b => b.id == busNumRaw)

/-- Stop lookup of lines 559 to 562. -/
def findStop (bus : Bus) (stopNameRaw : String) : Option Stop :=
  if stopNameRaw = "" then none
  else
    match bus.stops with
    | some stops => stops.find? (fun s => matchKey s.name == matchKey stopNameRaw)
    | none => none

/-- The object written to `parents/<uid>`; `createdAt: serverTimestamp()` is a
sentinel the server fills in and is left out. -/
structure ParentDoc where
  uid : String
  name : String
  phone : String
  authEmail : String
  role : String
  studentName : String
  studentStandard : String
  assignedBus : String
  assignedBusNum : String
  assignedRoute : String
  assignedStop : String
  assignedStopId : String
deriving DecidableEq, Repr

/-- The two collaborators of the commit step, one answer for each row index:
`createUser i email pw` is the uid `createUserWithEmailAndPassword` resolves to
or the text of the error it rejects with, `setDoc i uid doc` likewise for the
write of the parent document. -/
structure Env where
  createUser : Nat → String → String → Except String String
  setDoc : Nat → String → ParentDoc → Except String Unit

/-- The variables of the import loop, with the calls made so far:
`authCalls` the `(email, password)` pairs passed to
`createUserWithEmailAndPassword`, `setDocCalls` the `(key, document)` pairs
passed to `setDoc`, `sleeps` the delays awaited. -/
structure ImportState where
  success : Nat
  failed : Nat
  errors : List Row
  authCalls : List (String × String)
  setDocCalls : List (String × ParentDoc)
  sleeps : List Nat
deriving DecidableEq, Repr

/-- State before the first row. -/
def ImportState.start : ImportState :=
  { success := 0, failed := 0, errors := [], authCalls := [], setDocCalls := [], sleeps := [] }

/-- The error-report entry `Object.assign({}, r, { Error: msg })`. -/
def errorEntry (r : Row) (msg : String) : Row := JsObj.set r "Error" (.str msg)

/-- Statements `failed++; errors.push(Object.assign({}, r, { Error: msg }))`. -/
def fail (st : ImportState) (r : Row) (msg : String) : ImportState :=
  { st with failed := st.failed + 1, errors := st.errors ++ [errorEntry r msg] }

/-- Message of a row that fails validation. -/
def validationMsg : String := "Missing required fields (StudentName/ParentName/Phone)"

/-- The parent document of lines 581 to 595. -/
def parentDoc (n : Normalised) (phone email uid : String) (bus : Bus) (stop : Stop) :
    ParentDoc :=
  { uid := uid
    name := n.parentName
    phone := phone
    authEmail := email
    role := "parent"
    studentName := n.studentName
    studentStandard := n.cls
    assignedBus := bus.id
    assignedBusNum := bus.busNumber
    assignedRoute := bus.routeName
    assignedStop := stop.name
    assignedStopId := stop.id }

/-- The commit step of lines 577 to 606 for a row resolved to `bus` and `stop`,
with the delay that follows it. -/
def commitRow (env : Env) (i : Nat) (st : ImportState) (r : Row) (n : Normalised)
    (phone : String) (bus : Bus) (stop : Stop) : ImportState :=
  let email := phone ++ "@" ++ SYNTH_DOMAIN
  let pw := "Traqer@321"
  let st1 := { st with authCalls := st.authCalls ++ [(email, pw)] }
  let st2 :=
    match env.createUser i email pw with
    | .error e => fail st1 r ("Auth/Create failed: " ++ e)
    | .ok uid =>
      let doc := parentDoc n phone email uid bus stop
      let st3 := { st1 with setDocCalls := st1.setDocCalls ++ [(uid, doc)] }
      match env.setDoc i uid doc with
      | .ok _ => { st3 with success := st3.success + 1 }
      | .error e => fail st3 r ("Auth/Create failed: " ++ e)
  { st2 with sleeps := st2.sleeps ++ [120] }

/-- Stop resolution of lines 558 to 574 for a row resolved to `bus`, followed by
the commit step. -/
def stopStep (env : Env) (i : Nat) (st : ImportState) (r : Row) (n : Normalised)
    (phone : String) (bus : Bus) : ImportState :=
  match findStop bus n.stopNameRaw with
  | none =>
    if n.stopNameRaw = "" then fail st r "Missing BusStop"
    else
      fail st r ("Invalid BusStop \"" ++ n.stopNameRaw ++ "\" for bus " ++
        (if bus.busNumber ≠ "" then bus.busNumber else bus.id))
  | some stop => commitRow env i st r n phone bus stop

/-- One iteration of the loop of lines 525 to 614 on row `r` with index `i`.
The outer `catch (rowErr)` is not reached: nothing outside the inner `try`
throws. -/
def processRow (buses : List Bus) (env : Env) (i : Nat) (st : ImportState) (r : Row) :
    ImportState :=
  let n := normalise r
  let phone := cleanPhone n.phoneRaw
  if n.parentName = "" ∨ phone = "" ∨ phone.length < 10 ∨ n.studentName = "" then
    fail st r validationMsg
  else
    match findBus buses n.busNumRaw with
    | none => fail st r ("Invalid BusNumber: \"" ++ n.busNumRaw ++ "\"")
    | some bus => stopStep env i st r n phone bus

/-- The loop over the rows, from index `i`. -/
def processRows (buses : List Bus) (env : Env) : Nat → ImportState → List Row → ImportState
  | _, st, [] => st
  | i, st, r :: rs => processRows buses env (i + 1) (processRow buses env i st r) rs

/-- The whole loop, from the first row. -/
def importRows (buses : List Bus) (env : Env) (rows : List Row) : ImportState :=
  processRows buses env 0 ImportState.start rows

/-- What the handler shows after the loop (lines 616 to 634): the error
workbook built from `errors`, or the toast with the success count. -/
inductive Report where
  | errorReport (header : List String) (entries : List Row)
  | successToast (text : String)
deriving DecidableEq, Repr

/-- Lines 619 to 634. -/
def finish (st : ImportState) : Report :=
  match st.errors with
  | [] => .successToast (toString st.success ++ " parents added successfully")
  | e :: es => .errorReport (e.map Prod.fst) (e :: es)

/-- The status line of line 617. -/
def summaryStatus (st : ImportState) : String :=
  "✅ Import finished. Success: " ++ toString st.success ++ ", Failed: " ++ toString st.failed

/-- The handler once the file is parsed: `none` is the early return
`No rows found`. -/
def bulkUpload (buses : List Bus) (env : Env) (rows : List Row) :
    Option (ImportState × Report) :=
  if rows.isEmpty then none
  else some (importRows buses env rows, finish (importRows buses env rows))

/-! ## Cache events -/

/-- What can happen to the cache: a call by the application or a snapshot
delivered by the store, with the behaviour of the subscribers at that time. -/
inductive CacheEvent (V : Type) where
  | call (c : CacheCall)
  | delivery (k : Kind) (docs : List (Doc V)) (throws : Cb → Bool)

/-- Run one event. -/
def CacheEvent.run {V : Type} (str : String → V) (accepts : Kind → Bool) :
    CacheEvent V → Sys V → Sys V
  | .call c, s => c.run accepts s
  | .delivery k docs throws, s => deliver str throws k docs s

/-- Run a sequence of events, first to last. -/
def runEvents {V : Type} (str : String → V) (accepts : Kind → Bool)
    (evs : List (CacheEvent V)) (s : Sys V) : Sys V :=
  evs.foldl (fun acc e => e.run str accepts acc) s

/-- Whether the event is a delivery for kind `k`. -/
def CacheEvent.isDeliveryFor {V : Type} (k : Kind) : CacheEvent V → Bool
  | .call _ => false
  | .delivery k' _ _ => k' == k

/-! ## Auxiliary definitions for the import statements -/

/-- Sum of two states of the loop: counters added, lists appended. -/
def ImportState.add (a b : ImportState) : ImportState :=
  { success := a.success + b.success
    failed := a.failed + b.failed
    errors := a.errors ++ b.errors
    authCalls := a.authCalls ++ b.authCalls
    setDocCalls := a.setDocCalls ++ b.setDocCalls
    sleeps := a.sleeps ++ b.sleeps }

/-- What one row contributes to the loop variables. -/
def rowDelta (buses : List Bus) (env : Env) (i : Nat) (r : Row) : ImportState :=
  processRow buses env i ImportState.start r

/-- Negation `!r[k]` of a row field. -/
def isFalsy (r : Row) (k : String) : Bool :=
  match JsObj.get? r k with
  | some v => !v.truthy
  | none => true

/-- Equality of two texts ignoring letter case. -/
def eqIgnoreCase (a b : String) : Prop := toLowerCase a = toLowerCase b

instance (a b : String) : Decidable (eqIgnoreCase a b) := by
  unfold eqIgnoreCase; infer_instance

/-- The failure entries the rows contribute, in input order, the first row
having index `i`. -/
def failureEntries (buses : List Bus) (env : Env) : Nat → List Row → List Row
  | _, [] => []
  | i, r :: rs => (rowDelta buses env i r).errors ++ failureEntries buses env (i + 1) rs

/-- The row of the specification's import example, guardian under `Parent`. -/
def sampleRowParent : Row :=
  [("Student", .str "A"), ("Parent", .str "P"), ("Phone", .str "9876543210"),
    ("BusNumber", .str "B1"), ("BusStop", .str "Gate")]

/-- The same row with the guardian under `ParentName`. -/
def sampleRowParentName : Row :=
  [("Student", .str "A"), ("ParentName", .str "P"), ("Phone", .str "9876543210"),
    ("BusNumber", .str "B1"), ("BusStop", .str "Gate")]

/-- The row of the specification's unknown-vehicle example, guardian under
`Parent`. -/
def sampleRowZZ : Row :=
  [("Student", .str "A"), ("Parent", .str "P"), ("Phone", .str "9876543210"),
    ("BusNumber", .str "ZZ"), ("BusStop", .str "Gate")]

/-- The same row with the guardian under `ParentName`. -/
def sampleRowZZParentName : Row :=
  [("Student", .str "A"), ("ParentName", .str "P"), ("Phone", .str "9876543210"),
    ("BusNumber", .str "ZZ"), ("BusStop", .str "Gate")]

/-- A row with the guardian under the header `Name` of the comment in line 516. -/
def sampleRowName : Row :=
  [("StudentName", .str "A"), ("Name", .str "P"), ("Phone", .str "9876543210"),
    ("BusNumber", .str "B1"), ("BusStop", .str "Gate")]

/-- A row without student name that already has a column `Error`. -/
def sampleRowWithError : Row :=
  [("StudentName", .str ""), ("ParentName", .str "P"), ("Error", .str "old")]

/-- A cache whose only bus has white space around the stored number. -/
def paddedNumberBuses : List Bus :=
  [⟨"bus1", " B1 ", "", "North", some [⟨"s1", "Gate", ⟨0, 0⟩, 1⟩]⟩]

/-- A cache whose only bus has a stop with white space around the stored name. -/
def paddedStopBuses : List Bus :=
  [⟨"bus1", "B1", "", "North", some [⟨"s1", " Gate ", ⟨0, 0⟩, 1⟩]⟩]

/-- A collaborator pair that accepts everything, the uid being `u` followed by
the login key. -/
def sampleEnv : Env :=
  { createUser := fun _ email _ => .ok ("u:" ++ email), setDoc := fun _ _ _ => .ok () }

/-- A cache with one bus `B1` that has the stop `Gate`. -/
def sampleBuses : List Bus :=
  [⟨"bus1", "B1", "", "North", some [⟨"s1", "Gate", ⟨0, 0⟩, 1⟩]⟩]

/-! ## Reference table (`bulkTemplateBtn` handler) -/

/-- One row of the sheet `Bus_Stop_Reference`. -/
structure RefRow where
  BusDocId : String
  BusNumber : String
  RouteName : String
  StopId : String
  StopName : String
deriving DecidableEq, Repr

/-- The rows pushed for one bus (lines 661 to 666);
`Array.isArray(b.stops) ? b.stops : []` is `b.stops.getD []`. -/
def busRows (b : Bus) : List RefRow :=
  let stops := b.stops.getD []
  if stops.length ≠ 0 then
    stops.map (fun s => ⟨b.id, b.busNumber, b.routeName, s.id, s.name⟩)
  else [⟨b.id, b.busNumber, b.routeName, "", ""⟩]

/-- The array `mapping` after `buses.forEach` (lines 659 to 667). -/
def referenceRows : List Bus → List RefRow
  | [] => []
  | b :: bs => busRows b ++ referenceRows bs

/-! ## Driver assignment (`driverForm` and `addBusForm` handlers) -/

/-- A bus document as the assignment code reads and writes it. -/
structure BusRec where
  id : String
  driverId : String
  driverName : String
  driverPhone : String
deriving DecidableEq, Repr

/-- A document of the `drivers` collection. -/
structure DriverRec where
  id : String
  name : String
  phone : String
  assignedBus : String
deriving DecidableEq, Repr

/-- The two collections. The cached bus list the handlers read is taken to be
the stored one. -/
structure Fleet where
  buses : List BusRec
  drivers : List DriverRec
deriving DecidableEq, Repr

/-- The body of `buses.forEach` in lines 809 to 814 for one cached bus: the
document of that bus after the batch. -/
def enforceOne (selected busId name phone : String) (b : BusRec) : BusRec :=
  let b1 : BusRec :=
    if b.driverId = selected ∧ b.id ≠ busId then
      { b with driverId := "", driverName := "", driverPhone := "" }
    else b
  if b.id = busId then
    { b1 with driverId := selected, driverName := name, driverPhone := phone }
  else b1

/-- The batch of lines 807 to 815, applied to the bus list. -/
def enforceBatch (buses : List BusRec) (selected busId name phone : String) : List BusRec :=
  buses.map (enforceOne selected busId name phone)

/-- The update branch of the `driverForm` handler (lines 797 to 816);
`updateDoc` throws when the driver document does not exist. -/
def updateDriver (f : Fleet) (selected name phone busId : String) : Except String Fleet :=
  if f.drivers.any (fun d => d.id == selected) then
    .ok
      { drivers := f.drivers.map (fun d =>
          if d.id = selected then { d with name := name, phone := phone, assignedBus := busId }
          else d)
        buses := enforceBatch f.buses selected busId name phone }
  else .error "No document to update"

/-- The create branch of the `driverForm` handler (lines 823 to 843), `uid` being
the identity that `createUserWithEmailAndPassword` returned. -/
def createDriver (f : Fleet) (uid name phone busId : String) : Fleet :=
  { drivers := f.drivers.filter (fun d => d.id != uid) ++ [⟨uid, name, phone, busId⟩]
    buses :=
      if busId ≠ "" then
        f.buses.map (fun b =>
          if b.id = busId then { b with driverId := uid, driverName := name, driverPhone := phone }
          else b)
      else f.buses }

/-- The `driverForm` submit handler; `selected` is `dataset.selected` (`""` when
unset) and `created` the answer of `createUserWithEmailAndPassword`. -/
def driverFormSubmit (f : Fleet) (nameRaw phoneRaw busId selected : String)
    (created : Except String String) : Except String Fleet :=
  let name := jsTrim nameRaw
  let phone := cleanPhone (jsTrim phoneRaw)
  if name = "" ∨ phone = "" ∨ phone.length < 10 then .error "Invalid details"
  else if selected ≠ "" then updateDriver f selected name phone busId
  else
    match created with
    | .error e => .error e
    | .ok uid => .ok (createDriver f uid name phone busId)

/-- The writes of the `addBusForm` handler (lines 1069 to 1084), `newId` being
the id `addDoc` gave the new bus. -/
def addBus (f : Fleet) (newId driverId : String) : Fleet :=
  let buses1 := f.buses ++ [⟨newId, driverId, "", ""⟩]
  if driverId ≠ "" then
    { drivers := f.drivers.map (fun d =>
        if d.id = driverId then { d with assignedBus := newId } else d)
      buses := buses1.map (fun b => if b.id = newId then { b with driverId := driverId } else b) }
  else { f with buses := buses1 }

/-- The `addBusForm` submit handler. -/
def addBusFormSubmit (f : Fleet) (busNoRaw driverId newId : String) : Except String Fleet :=
  if jsTrim busNoRaw = "" then .error "Bus Number required"
  else .ok (addBus f newId driverId)

/-- Every operator is referenced by at most one vehicle: two buses that name
the same driver are the same bus. -/
def OneVehiclePerOperator (buses : List BusRec) : Prop :=
  ∀ a ∈ buses, ∀ b ∈ buses, a.driverId ≠ "" → a.driverId = b.driverId → a.id = b.id

instance (buses : List BusRec) : Decidable (OneVehiclePerOperator buses) := by
  unfold OneVehiclePerOperator; infer_instance

/-- At most one operator record is assigned to a vehicle: two drivers that name
the same bus are the same driver. -/
def OneOperatorPerVehicle (drivers : List DriverRec) : Prop :=
  ∀ a ∈ drivers, ∀ b ∈ drivers, a.assignedBus ≠ "" → a.assignedBus = b.assignedBus → a.id = b.id

instance (drivers : List DriverRec) : Decidable (OneOperatorPerVehicle drivers) := by
  unfold OneOperatorPerVehicle; infer_instance

/-! ## Remove stop by order number (`removeStopBtn` handler) -/

/-- Lines 1029 to 1034: the index chosen from the prompt for a stop list of
length `len` read before it; `.ok none` is the silent return on an empty or
cancelled prompt. -/
def removeChoiceIndex (len : Nat) (choice : String) : Except String (Option Nat) :=
  if len = 0 then .error "No stops to remove"
  else if choice = "" then .ok none
  else
    match parseInt choice with
    | none => .error "Invalid selection"
    | some n =>
      if n - 1 < 0 ∨ n - 1 ≥ len then .error "Invalid selection"
      else .ok (some (n - 1).toNat)

/-- The `removeStopBtn` handler: `before` is the stop list read before the
prompt, `snap` the snapshot read inside the transaction; the result is the
list committed, if any. -/
def removeStopByOrder (before : List Stop) (choice : String) (snap : Option BusDoc) :
    Except String (Option (List Stop)) :=
  match removeChoiceIndex before.length choice with
  | .error e => .error e
  | .ok none => .ok none
  | .ok (some idx) =>
    match removeStopAtTx idx snap with
    | .error e => .error e
    | .ok out => .ok (some out)

/-! ## Parent form -/

/-- The phone of the `parentForm` submit handler:
`cleanPhone(getEl("p_phone").value.trim())`. -/
def parentFormPhone (value : String) : String := cleanPhone (jsTrim value)

/-- The phone part of the guard of line 438: false is `Provide valid details`. -/
def parentFormPhoneOk (value : String) : Bool :=
  !(parentFormPhone value == "" || decide ((parentFormPhone value).length < 10))

/-! ## Auxiliary definitions for the later statements -/

/-- Whether a row passes validation, vehicle resolution and stop resolution. -/
def reachesCommit (buses : List Bus) (r : Row) : Bool :=
  if (normalise r).parentName = "" ∨ (normalise r).studentName = "" ∨
      (cleanPhone (normalise r).phoneRaw).length < 10 then false
  else
    match findBus buses (normalise r).busNumRaw with
    | none => false
    | some bus => (findStop bus (normalise r).stopNameRaw).isSome

/-- The lookup `snapshot.find(x => x.id === id)`. -/
def findById {V : Type} [DecidableEq V] (str : String → V) (snapshot : List (JsObj V))
    (id : String) : Option (JsObj V) :=
  snapshot.find? (fun e => decide (JsObj.get? e "id" = some (str id)))

/-- A fleet in which bus `V` is driven by `Y` and driver `X` has no bus. -/
def sampleFleet : Fleet :=
  { buses := [⟨"V", "Y", "Yan", "9000000001"⟩, ⟨"W", "", "", ""⟩]
    drivers := [⟨"Y", "Yan", "9000000001", "V"⟩, ⟨"X", "Xi", "9000000002", ""⟩] }

/-- Three stops with contiguous orders. -/
def sampleStops : List Stop := [sampleStop "a" 1, sampleStop "b" 2, sampleStop "c" 3]

/-- Three observers of the drivers kind, registered in the order 1, 2, 3 on a
fresh cache. -/
def sampleObservers : Sys String :=
  runCalls acceptAll [CacheCall.subscribe "drivers" 1, CacheCall.subscribe "drivers" 2,
    CacheCall.subscribe "drivers" 3] (Sys.new String)

/-! ## Stop-list lemmas -/

theorem renumberFrom_length (i : Nat) (l : List Stop) : (renumberFrom i l).length = l.length := by
  induction l generalizing i with
  | nil => rfl
  | cons s ss ih => simp [renumberFrom, ih]

theorem renumberFrom_order (i : Nat) (l : List Stop) :
    (renumberFrom i l).map (fun s => s.order) = List.range' (i + 1) l.length := by
  induction l generalizing i with
  | nil => rfl
  | cons s ss ih => simp [renumberFrom, ih, List.range'_succ]

theorem renumberFrom_core (i : Nat) (l : List Stop) :
    (renumberFrom i l).map Stop.core = l.map Stop.core := by
  induction l generalizing i with
  | nil => rfl
  | cons s ss ih => simp [renumberFrom, ih, Stop.core]

theorem renumber_contiguous (l : List Stop) : Contiguous (renumber l) := by
  unfold Contiguous renumber
  rw [renumberFrom_order, renumberFrom_length]

theorem body_ok_contiguous (op : StopOp) (snap : Option BusDoc) (out : List Stop)
    (h : op.body snap = .ok out) : Contiguous out := by
  cases op with
  | insert pos newStop =>
    cases snap with
    | none => simp [StopOp.body, addStopTx] at h
    | some d =>
      simp only [StopOp.body, addStopTx, Except.ok.injEq] at h
      subst h; exact renumber_contiguous _
  | delete stopId =>
    cases snap with
    | none => simp [StopOp.body, deleteStopTx] at h
    | some d =>
      simp only [StopOp.body, deleteStopTx] at h
      split at h
      · simp at h
      · simp only [Except.ok.injEq] at h
        subst h; exact renumber_contiguous _
  | removeAt idx =>
    cases snap with
    | none => simp [StopOp.body, removeStopAtTx] at h
    | some d =>
      simp only [StopOp.body, removeStopAtTx, Except.ok.injEq] at h
      subst h; exact renumber_contiguous _

theorem body_ok_exists (op : StopOp) (snap : Option BusDoc) (out : List Stop)
    (h : op.body snap = .ok out) : ∃ d, snap = some d := by
  cases snap with
  | some d => exact ⟨d, rfl⟩
  | none => cases op <;> simp [StopOp.body, addStopTx, deleteStopTx, removeStopAtTx] at h

theorem storedStops_updateStops (st : Store) (busId : String) (d : BusDoc) (out : List Stop)
    (h : st busId = some d) : storedStops (st.updateStops busId out) busId = out := by
  simp [storedStops, Store.updateStops, h, BusDoc.stopsOrEmpty]

theorem runOps_contiguous (st : Store) (busId : String) (ops : List StopOp)
    (h : Contiguous (storedStops st busId)) :
    Contiguous (storedStops (runOps st busId ops) busId) := by
  induction ops generalizing st with
  | nil => exact h
  | cons op ops ih =>
    simp only [runOps]
    apply ih
    unfold runTransaction
    cases hb : op.body (st busId) with
    | error e => exact h
    | ok out =>
      obtain ⟨d, hd⟩ := body_ok_exists op _ out hb
      simp only
      rw [storedStops_updateStops st busId d out hd]
      exact body_ok_contiguous op _ out hb

theorem renumberFrom_getElem? (i j : Nat) (l : List Stop) :
    (renumberFrom i l)[j]? = l[j]?.map (fun s => { s with order := i + j + 1 }) := by
  induction l generalizing i j with
  | nil => simp [renumberFrom]
  | cons s ss ih =>
    cases j with
    | zero => simp [renumberFrom]
    | succ j =>
      simp only [renumberFrom, List.getElem?_cons_succ, ih]
      congr 1; funext s; congr 1; omega

theorem renumberFrom_eraseIdx_core (i j : Nat) (l : List Stop) :
    ((renumberFrom i l).eraseIdx j).map Stop.core = (l.eraseIdx j).map Stop.core := by
  induction l generalizing i j with
  | nil => simp [renumberFrom]
  | cons s ss ih =>
    cases j with
    | zero => simp [renumberFrom, renumberFrom_core]
    | succ j => simp [renumberFrom, ih, Stop.core]

theorem splice_insert (l : List Stop) (k : Nat) (x : Stop) :
    splice l k 0 [x] = l.take (min k l.length) ++ x :: l.drop (min k l.length) := by
  simp [splice]

theorem splice_remove (l : List Stop) (k : Nat) : splice l k 1 [] = l.eraseIdx k := by
  unfold splice
  by_cases h : k < l.length
  · have h1 : min k l.length = k := by omega
    have h2 : min 1 (l.length - k) = 1 := by omega
    simp only [h1, h2, List.append_nil]
    exact (List.eraseIdx_eq_take_drop_succ l k).symm
  · have h1 : min k l.length = l.length := by omega
    rw [List.eraseIdx_of_length_le (by omega)]
    simp [h1]

theorem take_insert_drop_getElem? (l : List Stop) (m : Nat) (x : Stop) (hm : m ≤ l.length) :
    (l.take m ++ x :: l.drop m)[m]? = some x := by
  have : (l.take m).length = m := by simp [hm]
  rw [List.getElem?_append_right (by omega)]
  simp [this]

theorem take_insert_drop_eraseIdx (l : List Stop) (m : Nat) (x : Stop) (hm : m ≤ l.length) :
    (l.take m ++ x :: l.drop m).eraseIdx m = l := by
  have : (l.take m).length = m := by simp [hm]
  rw [List.eraseIdx_append_of_length_le (by omega)]
  simp [this]

theorem findIndex_some {α : Type} (p : α → Bool) (l : List α) (i : Nat)
    (h : findIndex p l = some i) :
    ∃ x, l[i]? = some x ∧ p x = true ∧ ∀ j y, j < i → l[j]? = some y → p y = false := by
  induction l generalizing i with
  | nil => simp [findIndex] at h
  | cons a as ih =>
    unfold findIndex at h
    by_cases hp : p a = true
    · simp only [hp, if_true, Option.some.injEq] at h
      subst h
      exact ⟨a, by simp, hp, fun j y hj => by omega⟩
    · simp only [hp] at h
      cases hf : findIndex p as with
      | none => simp [hf] at h
      | some k =>
        simp only [hf, Option.map_some', Bool.false_eq_true, if_false, Option.some.injEq] at h
        subst h
        obtain ⟨x, hx, hpx, hlt⟩ := ih k hf
        refine ⟨x, by simpa using hx, hpx, ?_⟩
        intro j y hj hy
        cases j with
        | zero => simp at hy; subst hy; simpa using hp
        | succ j => exact hlt j y (by omega) (by simpa using hy)

theorem findIndex_none {α : Type} (p : α → Bool) (l : List α) :
    findIndex p l = none ↔ ∀ x ∈ l, p x = false := by
  induction l with
  | nil => simp [findIndex]
  | cons a as ih =>
    unfold findIndex
    by_cases hp : p a = true
    · simp [hp]
    · simp only [hp, Bool.false_eq_true, if_false, Option.map_eq_none', ih, List.mem_cons,
        forall_eq_or_imp, true_and]

theorem findIndex_renumberFrom (stopId : String) (i : Nat) (l : List Stop) :
    findIndex (fun s => s.id == stopId) (renumberFrom i l) =
      findIndex (fun s => s.id == stopId) l := by
  induction l generalizing i with
  | nil => rfl
  | cons s ss ih => simp [renumberFrom, findIndex, ih]

theorem findIndex_of_mem (stopId : String) (l : List Stop) (h : ∃ s ∈ l, s.id = stopId) :
    ∃ i, findIndex (fun s => s.id == stopId) l = some i := by
  cases hf : findIndex (fun s => s.id == stopId) l with
  | some i => exact ⟨i, rfl⟩
  | none =>
    obtain ⟨s, hs, hid⟩ := h
    have := (findIndex_none _ l).1 hf s hs
    simp [hid] at this

theorem findIndex_first (stopId : String) (l : List Stop) (i : Nat)
    (h : findIndex (fun s => s.id == stopId) l = some i) :
    ∃ x, l[i]? = some x ∧ x.id = stopId ∧
      ∀ j y, j < i → l[j]? = some y → y.id ≠ stopId := by
  obtain ⟨x, hx, hpx, hlt⟩ := findIndex_some _ l i h
  refine ⟨x, hx, by simpa using hpx, ?_⟩
  intro j y hj hy
  simpa using hlt j y hj hy

theorem eraseIdx_first_no_match (stopId : String) (l : List Stop) (i : Nat)
    (h : findIndex (fun s => s.id == stopId) l = some i)
    (nd : (l.map (fun s => s.id)).Nodup) :
    ∀ x ∈ l.eraseIdx i, x.id ≠ stopId := by
  induction l generalizing i with
  | nil => simp [findIndex] at h
  | cons a as ih =>
    simp only [List.map_cons, List.nodup_cons, List.mem_map, not_exists, not_and] at nd
    unfold findIndex at h
    by_cases hp : a.id = stopId
    · simp only [hp, beq_self_eq_true, if_true, Option.some.injEq] at h
      subst h
      intro x hx hxid
      exact nd.1 x (by simpa using hx) (by rw [hxid, hp])
    · have hp' : (a.id == stopId) = false := by simpa using hp
      simp only [hp', Bool.false_eq_true, if_false] at h
      cases hf : findIndex (fun s => s.id == stopId) as with
      | none => simp [hf] at h
      | some k =>
        simp only [hf, Option.map_some', Option.some.injEq] at h
        subst h
        intro x hx
        simp only [List.eraseIdx_cons_succ, List.mem_cons] at hx
        rcases hx with hx | hx
        · subst hx; exact hp
        · exact ih k hf nd.2 x hx

theorem updateAt_length {α : Type} (f : α → α) (i : Nat) (l : List α) :
    (updateAt f i l).length = l.length := by
  induction l generalizing i with
  | nil => cases i <;> rfl
  | cons a as ih => cases i <;> simp [updateAt, ih]

theorem updateAt_getElem?_same {α : Type} (f : α → α) (i : Nat) (l : List α) :
    (updateAt f i l)[i]? = l[i]?.map f := by
  induction l generalizing i with
  | nil => cases i <;> simp [updateAt]
  | cons a as ih => cases i <;> simp [updateAt, ih]

theorem updateAt_getElem?_ne {α : Type} (f : α → α) (i j : Nat) (l : List α) (h : j ≠ i) :
    (updateAt f i l)[j]? = l[j]? := by
  induction l generalizing i j with
  | nil => cases i <;> simp [updateAt]
  | cons a as ih =>
    cases i with
    | zero =>
      cases j with
      | zero => exact absurd rfl h
      | succ j => simp [updateAt]
    | succ i =>
      cases j with
      | zero => simp [updateAt]
      | succ j => simp only [updateAt, List.getElem?_cons_succ]; exact ih i j (by omega)

theorem deleteStopTx_ok (d : BusDoc) (stopId : String) (i : Nat)
    (h : findIndex (fun s => s.id == stopId) d.stopsOrEmpty = some i) :
    deleteStopTx stopId (some d) = .ok (renumber (d.stopsOrEmpty.eraseIdx i)) := by
  simp only [deleteStopTx, h, splice_remove]

/-- C3 (removeStop result). When the stored list of length `N` has a stop
with id `stopId`, `deleteStop` commits the list without the first such stop
(index `i`): length `N - 1`, the ids, names and locations of the remaining
stops in their original order, and `order` values `1, .., N - 1`. -/
theorem deleteStop_result (st : Store) (busId stopId : String) (d : BusDoc)
    (hd : st busId = some d) (hmem : ∃ s ∈ d.stopsOrEmpty, s.id = stopId) :
    ∃ (i : Nat) (removed : Stop) (out : List Stop),
      deleteStop st busId stopId = (st.updateStops busId out, none) ∧
      storedStops (deleteStop st busId stopId).1 busId = out ∧
      d.stopsOrEmpty[i]? = some removed ∧ removed.id = stopId ∧
      (∀ j s, j < i → d.stopsOrEmpty[j]? = some s → s.id ≠ stopId) ∧
      out.length = d.stopsOrEmpty.length - 1 ∧
      out.map Stop.core = (d.stopsOrEmpty.eraseIdx i).map Stop.core ∧
      out.map (fun s => s.order) = List.range' 1 (d.stopsOrEmpty.length - 1) := by
  obtain ⟨i, hi⟩ := findIndex_of_mem stopId _ hmem
  obtain ⟨x, hx, hxid, hlt⟩ := findIndex_first stopId _ i hi
  have hlen : (renumber (d.stopsOrEmpty.eraseIdx i)).length = d.stopsOrEmpty.length - 1 := by
    simp [renumber, renumberFrom_length, List.length_eraseIdx, (List.getElem?_eq_some.1 hx).1]
  have hrun : deleteStop st busId stopId =
      (st.updateStops busId (renumber (d.stopsOrEmpty.eraseIdx i)), none) := by
    simp only [deleteStop, runTransaction, hd, deleteStopTx_ok d stopId i hi]
  refine ⟨i, x, renumber (d.stopsOrEmpty.eraseIdx i), hrun, ?_, hx, hxid, hlt, hlen, ?_, ?_⟩
  · rw [hrun]; exact storedStops_updateStops st busId d _ hd
  · exact renumberFrom_core 0 _
  · have := renumber_contiguous (d.stopsOrEmpty.eraseIdx i)
    unfold Contiguous at this
    rw [this, hlen]

/-! ## Stop-list properties -/

theorem runOps_append (st : Store) (busId : String) (xs ys : List StopOp) :
    runOps st busId (xs ++ ys) = runOps (runOps st busId xs) busId ys := by
  induction xs generalizing st with
  | nil => rfl
  | cons x xs ih => exact ih _

theorem runTransaction_commit_contiguous (st : Store) (busId : String) (op : StopOp)
    (h : (runTransaction st busId op.body).2 = none) :
    Contiguous (storedStops (runTransaction st busId op.body).1 busId) := by
  unfold runTransaction at h ⊢
  cases hb : op.body (st busId) with
  | error e => simp [hb] at h
  | ok out =>
    obtain ⟨d, hd⟩ := body_ok_exists op _ out hb
    simp only
    rw [storedStops_updateStops st busId d out hd]
    exact body_ok_contiguous op _ out hb

/-- C1 (contiguous-order invariant). From any stored stop list, the list
committed by a successful add-stop transaction, `deleteStop` or remove-by-order
transaction has `order` values `1, 2, .., N` in list order, `N` its length:
for the transaction body, for the collection after the commit, and for every
finite sequence of such operations on one vehicle, whether the list was
contiguous at the start or some operation of the sequence committed. -/
theorem contiguous_order_invariant :
    (∀ (op : StopOp) (snap : Option BusDoc) (out : List Stop),
        op.body snap = .ok out → Contiguous out) ∧
    (∀ (st : Store) (busId : String) (op : StopOp),
        (runTransaction st busId op.body).2 = none →
        Contiguous (storedStops (runTransaction st busId op.body).1 busId)) ∧
    (∀ (st : Store) (busId : String) (ops : List StopOp),
        Contiguous (storedStops st busId) →
        Contiguous (storedStops (runOps st busId ops) busId)) ∧
    (∀ (st : Store) (busId : String) (before after : List StopOp) (op : StopOp),
        (runTransaction (runOps st busId before) busId op.body).2 = none →
        Contiguous (storedStops (runOps st busId (before ++ op :: after)) busId)) := by
  refine ⟨body_ok_contiguous, runTransaction_commit_contiguous, runOps_contiguous, ?_⟩
  intro st busId before after op h
  rw [runOps_append]
  simp only [runOps]
  exact runOps_contiguous _ busId after (runTransaction_commit_contiguous _ busId op h)


theorem contiguous_order_invariant_witness :
    (runTransaction (runOps sampleStore "b1" [StopOp.delete "zz"]) "b1"
        (StopOp.insert "2" (sampleStop "n" 0)).body).2 = none ∧
    Contiguous (storedStops (runOps sampleStore "b1"
        ([StopOp.delete "zz"] ++ StopOp.insert "2" (sampleStop "n" 0) :: [StopOp.removeAt 0])) "b1") :=
  ⟨by decide, contiguous_order_invariant.2.2.2 sampleStore "b1" [StopOp.delete "zz"]
      [StopOp.removeAt 0] (StopOp.insert "2" (sampleStop "n" 0)) (by decide)⟩


theorem insert_placed (stops : List Stop) (k m : Nat) (x : Stop) (hm : min k stops.length = m) :
    (renumber (splice stops k 0 [x])).length = stops.length + 1 ∧
    (renumber (splice stops k 0 [x]))[m]? = some { x with order := m + 1 } ∧
    ((renumber (splice stops k 0 [x])).eraseIdx m).map Stop.core = stops.map Stop.core := by
  have hle : m ≤ stops.length := by omega
  rw [splice_insert, hm]
  refine ⟨?_, ?_, ?_⟩
  · simp [renumber, renumberFrom_length]; omega
  · simp only [renumber, renumberFrom_getElem?, take_insert_drop_getElem? stops m x hle,
      Option.map_some', Nat.zero_add]
  · simp only [renumber, renumberFrom_eraseIdx_core, take_insert_drop_eraseIdx stops m x hle]

theorem insertAt_parsed (pos : String) (p : Int) (L : Nat) (h0 : pos ≠ "")
    (hp : parseInt pos = some p) :
    min (insertAt pos L) L = (clamp (p - 1) 0 L).toNat := by
  simp only [insertAt, h0, if_false, hp, clamp]
  omega

theorem insertAt_absent (pos : String) (L : Nat) (h : pos = "" ∨ parseInt pos = none) :
    min (insertAt pos L) L = L := by
  unfold insertAt
  rcases h with h | h
  · simp [h]
  · by_cases h0 : pos = ""
    · simp [h0]
    · simp [h0, h]

/-- C2 (insertStop placement). On an existing bus with stop list of length `L`
the add-stop transaction commits a list of length `L + 1`. When the position
text is non-empty and `parseInt` reads the integer `p` from it, the new stop is
at 0-based index `clamp(p - 1, 0, L)`; when the text is empty or not a number
it is at index `L`. In both cases the list without that element has the ids,
names and locations of the original list in the original order. -/
theorem insertStop_placement (d : BusDoc) (pos : String) (newStop : Stop) :
    ∃ out : List Stop,
      addStopTx pos newStop (some d) = .ok out ∧
      out.length = d.stopsOrEmpty.length + 1 ∧
      (∀ p : Int, pos ≠ "" → parseInt pos = some p →
        out[(clamp (p - 1) 0 d.stopsOrEmpty.length).toNat]? =
            some { newStop with order := (clamp (p - 1) 0 d.stopsOrEmpty.length).toNat + 1 } ∧
        (out.eraseIdx (clamp (p - 1) 0 d.stopsOrEmpty.length).toNat).map Stop.core =
            d.stopsOrEmpty.map Stop.core) ∧
      ((pos = "" ∨ parseInt pos = none) →
        out[d.stopsOrEmpty.length]? = some { newStop with order := d.stopsOrEmpty.length + 1 } ∧
        (out.eraseIdx d.stopsOrEmpty.length).map Stop.core = d.stopsOrEmpty.map Stop.core) := by
  refine ⟨_, rfl, ?_, ?_, ?_⟩
  · exact (insert_placed d.stopsOrEmpty _ _ newStop rfl).1
  · intro p h0 hp
    exact (insert_placed d.stopsOrEmpty _ _ newStop (insertAt_parsed pos p _ h0 hp)).2
  · intro h
    exact (insert_placed d.stopsOrEmpty _ _ newStop (insertAt_absent pos _ h)).2


theorem insertStop_placement_witness :
    ∃ out : List Stop,
      addStopTx "2" (sampleStop "n" 0) (some sampleDoc) = .ok out ∧
      out[1]? = some (sampleStop "n" 2) ∧
      (out.eraseIdx 1).map Stop.core = sampleDoc.stopsOrEmpty.map Stop.core := by
  obtain ⟨out, h1, _, h3, _⟩ := insertStop_placement sampleDoc "2" (sampleStop "n" 0)
  exact ⟨out, h1, h3 2 (by decide) (by decide)⟩


theorem deleteStop_result_witness :
    ∃ (i : Nat) (removed : Stop) (out : List Stop),
      deleteStop sampleStore "b1" "b" = (sampleStore.updateStops "b1" out, none) ∧
      storedStops (deleteStop sampleStore "b1" "b").1 "b1" = out ∧
      sampleDoc.stopsOrEmpty[i]? = some removed ∧ removed.id = "b" ∧
      (∀ j s, j < i → sampleDoc.stopsOrEmpty[j]? = some s → s.id ≠ "b") ∧
      out.length = sampleDoc.stopsOrEmpty.length - 1 ∧
      out.map Stop.core = (sampleDoc.stopsOrEmpty.eraseIdx i).map Stop.core ∧
      out.map (fun s => s.order) = List.range' 1 (sampleDoc.stopsOrEmpty.length - 1) :=
  deleteStop_result sampleStore "b1" "b" sampleDoc rfl ⟨sampleStop "b" 7, by decide, rfl⟩

theorem editStopNameTx_ok (d : BusDoc) (stopId newName : String) (i : Nat)
    (h : findIndex (fun s => s.id == stopId) d.stopsOrEmpty = some i) :
    editStopNameTx stopId newName (some d) =
      .ok (updateAt (fun s => { s with name := newName }) i d.stopsOrEmpty) := by
  simp only [editStopNameTx, h]

theorem findIndex_absent (stopId : String) (l : List Stop) (h : ∀ s ∈ l, s.id ≠ stopId) :
    findIndex (fun s => s.id == stopId) l = none := by
  rw [findIndex_none]
  intro x hx
  simpa using h x hx

/-- C4 (removeStop twice). When the stop ids of the stored list are pairwise
distinct and one of them is `stopId`, the first `deleteStop` succeeds and a
second one on the resulting collection fails with `Stop not found` and leaves
that collection as it is. -/
theorem deleteStop_twice (st : Store) (busId stopId : String) (d : BusDoc)
    (hd : st busId = some d)
    (huniq : (d.stopsOrEmpty.map (fun s => s.id)).Nodup)
    (hmem : ∃ s ∈ d.stopsOrEmpty, s.id = stopId) :
    (deleteStop st busId stopId).2 = none ∧
    deleteStop (deleteStop st busId stopId).1 busId stopId =
      ((deleteStop st busId stopId).1, some "Stop not found") := by
  obtain ⟨i, hi⟩ := findIndex_of_mem stopId _ hmem
  have hnone : findIndex (fun s => s.id == stopId) (renumber (d.stopsOrEmpty.eraseIdx i)) = none := by
    unfold renumber
    rw [findIndex_renumberFrom]
    exact findIndex_absent stopId _ (eraseIdx_first_no_match stopId _ i hi huniq)
  have hrun : deleteStop st busId stopId =
      (st.updateStops busId (renumber (d.stopsOrEmpty.eraseIdx i)), none) := by
    simp only [deleteStop, runTransaction, hd, deleteStopTx_ok d stopId i hi]
  generalize renumber (d.stopsOrEmpty.eraseIdx i) = out at hnone hrun
  have hsnap : (st.updateStops busId out) busId = some { d with stops := some out } := by
    simp [Store.updateStops, hd]
  have htx : deleteStopTx stopId (some { d with stops := some out }) =
      .error "Stop not found" := by
    simp only [deleteStopTx, BusDoc.stopsOrEmpty, Option.getD_some, hnone]
  refine ⟨by rw [hrun], ?_⟩
  rw [hrun]
  simp only [deleteStop, runTransaction, hsnap, htx]

theorem deleteStop_twice_witness :
    (deleteStop sampleStore "b1" "b").2 = none ∧
    deleteStop (deleteStop sampleStore "b1" "b").1 "b1" "b" =
      ((deleteStop sampleStore "b1" "b").1, some "Stop not found") :=
  deleteStop_twice sampleStore "b1" "b" sampleDoc rfl (by decide) ⟨sampleStop "b" 7, by decide, rfl⟩

/-- C5 (not-found, no write). Without a bus document the add-stop
transaction fails with `Bus not found`, and `deleteStop` and `editStopName`
fail with `Bus missing`; with a document none of whose stops has the id,
`deleteStop` and `editStopName` fail with `Stop not found`. In each case the
collection afterwards is the collection before. -/
theorem not_found_no_write (st : Store) (busId : String) :
    (st busId = none →
      ∀ (pos : String) (newStop : Stop) (stopId newName : String),
        insertStop st busId pos newStop = (st, some "Bus not found") ∧
        deleteStop st busId stopId = (st, some "Bus missing") ∧
        editStopName st busId stopId newName = (st, some "Bus missing")) ∧
    (∀ (d : BusDoc) (stopId newName : String),
      st busId = some d → (∀ s ∈ d.stopsOrEmpty, s.id ≠ stopId) →
        deleteStop st busId stopId = (st, some "Stop not found") ∧
        editStopName st busId stopId newName = (st, some "Stop not found")) := by
  constructor
  · intro h pos newStop stopId newName
    simp [insertStop, deleteStop, editStopName, runTransaction, h, addStopTx, deleteStopTx,
      editStopNameTx]
  · intro d stopId newName hd habs
    have hnone := findIndex_absent stopId _ habs
    simp [deleteStop, editStopName, runTransaction, hd, deleteStopTx, editStopNameTx, hnone]

theorem not_found_no_write_witness :
    (insertStop sampleStore "nope" "2" (sampleStop "n" 0) = (sampleStore, some "Bus not found") ∧
     deleteStop sampleStore "nope" "a" = (sampleStore, some "Bus missing") ∧
     editStopName sampleStore "nope" "a" "A" = (sampleStore, some "Bus missing")) ∧
    (deleteStop sampleStore "b1" "zz" = (sampleStore, some "Stop not found") ∧
     editStopName sampleStore "b1" "zz" "Z" = (sampleStore, some "Stop not found")) :=
  ⟨(not_found_no_write sampleStore "nope").1 rfl "2" (sampleStop "n" 0) "a" "A",
   (not_found_no_write sampleStore "b1").2 sampleDoc "zz" "Z" rfl (by decide)⟩

/-- C6 (renameStop frame). When the stored list has a stop with id
`stopId`, `editStopName` commits a list of the same length in which the first
such stop (index `i`) has name `newName` and its other fields unchanged, and
every other position holds the stop it held before. -/
theorem editStopName_frame (st : Store) (busId stopId newName : String) (d : BusDoc)
    (hd : st busId = some d) (hmem : ∃ s ∈ d.stopsOrEmpty, s.id = stopId) :
    ∃ (i : Nat) (target : Stop) (out : List Stop),
      editStopName st busId stopId newName = (st.updateStops busId out, none) ∧
      storedStops (editStopName st busId stopId newName).1 busId = out ∧
      d.stopsOrEmpty[i]? = some target ∧ target.id = stopId ∧
      (∀ j s, j < i → d.stopsOrEmpty[j]? = some s → s.id ≠ stopId) ∧
      out.length = d.stopsOrEmpty.length ∧
      out[i]? = some { target with name := newName } ∧
      (∀ j, j ≠ i → out[j]? = d.stopsOrEmpty[j]?) := by
  obtain ⟨i, hi⟩ := findIndex_of_mem stopId _ hmem
  obtain ⟨x, hx, hxid, hlt⟩ := findIndex_first stopId _ i hi
  have hrun : editStopName st busId stopId newName =
      (st.updateStops busId (updateAt (fun s => { s with name := newName }) i d.stopsOrEmpty),
        none) := by
    simp only [editStopName, runTransaction, hd, editStopNameTx_ok d stopId newName i hi]
  refine ⟨i, x, _, hrun, ?_, hx, hxid, hlt, updateAt_length _ _ _, ?_, ?_⟩
  · rw [hrun]; exact storedStops_updateStops st busId d _ hd
  · rw [updateAt_getElem?_same, hx]; rfl
  · intro j hj
    exact updateAt_getElem?_ne _ i j _ hj

theorem editStopName_frame_witness :
    ∃ (i : Nat) (target : Stop) (out : List Stop),
      editStopName sampleStore "b1" "b" "Bridge" = (sampleStore.updateStops "b1" out, none) ∧
      storedStops (editStopName sampleStore "b1" "b" "Bridge").1 "b1" = out ∧
      sampleDoc.stopsOrEmpty[i]? = some target ∧ target.id = "b" ∧
      (∀ j s, j < i → sampleDoc.stopsOrEmpty[j]? = some s → s.id ≠ "b") ∧
      out.length = sampleDoc.stopsOrEmpty.length ∧
      out[i]? = some { target with name := "Bridge" } ∧
      (∀ j, j ≠ i → out[j]? = sampleDoc.stopsOrEmpty[j]?) :=
  editStopName_frame sampleStore "b1" "b" "Bridge" sampleDoc rfl ⟨sampleStop "b" 7, by decide, rfl⟩

/-! ## Cache lemmas and properties -/

theorem Kind.ofString_name (k : Kind) : Kind.ofString k.name = some k := by
  cases k <;> decide

theorem bucket_setBucket_same {V : Type} (c : CentralCache V) (k : Kind) (b : Bucket V) :
    (c.setBucket k b).bucket k = b := by
  cases k <;> rfl

theorem bucket_setBucket_ne {V : Type} (c : CentralCache V) (k k' : Kind) (b : Bucket V)
    (h : k' ≠ k) : (c.setBucket k b).bucket k' = c.bucket k' := by
  cases k <;> cases k' <;> first | rfl | exact absurd rfl h

theorem initialized_setBucket {V : Type} (c : CentralCache V) (k : Kind) (b : Bucket V) :
    (c.setBucket k b).initialized = c.initialized := by
  cases k <;> rfl

theorem init_bucket {V : Type} (accepts : Kind → Bool) (s : Sys V) (k : Kind) :
    (init accepts s).cache.bucket k = s.cache.bucket k := by
  unfold init
  split
  · rfl
  · split
    · rfl
    · split
      · rfl
      · split
        · rfl
        · cases k <;> rfl

theorem init_calls {V : Type} (accepts : Kind → Bool) (s : Sys V) :
    (init accepts s).calls = s.calls := by
  unfold init
  split
  · rfl
  · split
    · rfl
    · split
      · rfl
      · split <;> rfl

theorem subscribe_known {V : Type} (accepts : Kind → Bool) (s : Sys V) (k : Kind) (cb : Cb) :
    ∃ s' : Sys V, subscribe accepts s k.name cb = (s', some (unsubscribe k cb)) ∧
      s'.calls = s.calls ++ [(cb, (s.cache.bucket k).data)] ∧
      (s'.cache.bucket k).subs = (s.cache.bucket k).subs ++ [cb] ∧
      (s'.cache.bucket k).data = (s.cache.bucket k).data ∧
      (∀ k', k' ≠ k → s'.cache.bucket k' = s.cache.bucket k') := by
  unfold subscribe
  simp only [Kind.ofString_name]
  refine ⟨_, rfl, ?_, ?_, ?_, ?_⟩
  · by_cases hi : s.cache.initialized = true
    · simp [hi]
    · simp [hi, init_calls, init_bucket]
  · by_cases hi : s.cache.initialized = true
    · simp [hi, bucket_setBucket_same]
    · simp [hi, bucket_setBucket_same, init_bucket]
  · by_cases hi : s.cache.initialized = true
    · simp [hi, bucket_setBucket_same]
    · simp [hi, bucket_setBucket_same, init_bucket]
  · intro k' hk
    by_cases hi : s.cache.initialized = true
    · simp [hi, bucket_setBucket_ne _ _ _ _ hk]
    · simp [hi, bucket_setBucket_ne _ _ _ _ hk, init_bucket]

theorem run_data {V : Type} (accepts : Kind → Bool) (c : CacheCall) (s : Sys V) (k : Kind) :
    ((c.run accepts s).cache.bucket k).data = (s.cache.bucket k).data := by
  cases c with
  | init => simp [CacheCall.run, init_bucket]
  | subscribe kind cb =>
    simp only [CacheCall.run, subscribe]
    cases hk : Kind.ofString kind with
    | none =>
      by_cases hi : s.cache.initialized = true
      · simp [hi]
      · simp [hi, init_bucket]
    | some k0 =>
      by_cases hkk : k = k0
      · subst hkk
        by_cases hi : s.cache.initialized = true
        · simp [hi, bucket_setBucket_same]
        · simp [hi, bucket_setBucket_same, init_bucket]
      · by_cases hi : s.cache.initialized = true
        · simp [hi, bucket_setBucket_ne _ _ _ _ hkk]
        · simp [hi, bucket_setBucket_ne _ _ _ _ hkk, init_bucket]
  | unsubscribe k0 cb =>
    simp only [CacheCall.run, unsubscribe]
    by_cases hkk : k = k0
    · subst hkk; simp [bucket_setBucket_same]
    · simp [bucket_setBucket_ne _ _ _ _ hkk]

theorem runCalls_data {V : Type} (accepts : Kind → Bool) (cs : List CacheCall) (s : Sys V)
    (k : Kind) : ((runCalls accepts cs s).cache.bucket k).data = (s.cache.bucket k).data := by
  induction cs generalizing s with
  | nil => rfl
  | cons c cs ih =>
    simp only [runCalls, List.foldl_cons] at ih ⊢
    rw [ih, run_data]

theorem get_name {V : Type} (s : Sys V) (k : Kind) : get s k.name = (s.cache.bucket k).data := by
  simp [get, Kind.ofString_name]

theorem forEachCalls_noThrow (throws : Cb → Bool) (subs : List Cb)
    (h : ∀ c ∈ subs, throws c = false) : forEachCalls throws subs = subs := by
  induction subs with
  | nil => rfl
  | cons a as ih =>
    have ha : throws a = false := h a (List.mem_cons_self _ _)
    simp only [forEachCalls, ha, Bool.false_eq_true, if_false,
      ih (fun c hc => h c (List.mem_cons_of_mem _ hc))]

theorem forEachCalls_split (throws : Cb → Bool) (pre post : List Cb) (cb : Cb)
    (hpre : ∀ c ∈ pre, throws c = false) (hcb : throws cb = true) :
    forEachCalls throws (pre ++ cb :: post) = pre ++ [cb] := by
  induction pre with
  | nil => simp only [List.nil_append, forEachCalls, hcb, if_true]
  | cons a as ih =>
    have ha : throws a = false := hpre a (List.mem_cons_self _ _)
    show forEachCalls throws (a :: (as ++ cb :: post)) = a :: (as ++ [cb])
    rw [forEachCalls, ha, ← ih (fun c hc => hpre c (List.mem_cons_of_mem _ hc))]
    rfl

theorem forEachCalls_append_last (throws : Cb → Bool) (subs : List Cb) (cb : Cb)
    (h : ∀ c ∈ subs, throws c = false) : forEachCalls throws (subs ++ [cb]) = subs ++ [cb] := by
  by_cases hcb : throws cb = true
  · exact forEachCalls_split throws subs [] cb h hcb
  · apply forEachCalls_noThrow
    intro c hc
    rw [List.mem_append, List.mem_singleton] at hc
    rcases hc with hc | hc
    · exact h c hc
    · rw [hc]; simpa using hcb

theorem forEachCalls_mem (throws : Cb → Bool) (subs : List Cb) (c : Cb)
    (h : c ∈ forEachCalls throws subs) : c ∈ subs := by
  induction subs with
  | nil => simp [forEachCalls] at h
  | cons a as ih =>
    by_cases ha : throws a = true
    · rw [forEachCalls, if_pos ha, List.mem_singleton] at h
      rw [h]; exact List.mem_cons_self _ _
    · rw [forEachCalls, if_neg ha, List.mem_cons] at h
      rw [List.mem_cons]
      exact h.imp id ih

/-- C8 (replay-then-stream). For every state of the cache, every behaviour of
the store on registration and every bucket kind, `subscribe(kind, cb)` returns
a handle after exactly one callback invocation, that of `cb` with the current
snapshot `get(kind)`; `cb` is appended to the observers of the kind, the
snapshot is unchanged, and the next delivery for the kind runs its loop over
the earlier observers followed by `cb` with the delivered entities, so that
`cb` is invoked after every earlier observer whenever none of these throws. In
a state reached from a fresh cache without any delivery the snapshot passed is
the empty list. -/
theorem subscribe_replay_then_stream {V : Type} (accepts : Kind → Bool) (s : Sys V) (k : Kind)
    (cb : Cb) :
    ∃ (s' : Sys V) (handle : Sys V → Sys V),
      subscribe accepts s k.name cb = (s', some handle) ∧
      s'.calls = s.calls ++ [(cb, get s k.name)] ∧
      (s'.cache.bucket k).subs = (s.cache.bucket k).subs ++ [cb] ∧
      get s' k.name = get s k.name ∧
      (∀ (str : String → V) (throws : Cb → Bool) (docs : List (Doc V)),
        (deliver str throws k docs s').calls =
          s'.calls ++ (forEachCalls throws ((s.cache.bucket k).subs ++ [cb])).map
            (fun c => (c, docs.map (entityOf str)))) ∧
      (∀ (str : String → V) (throws : Cb → Bool) (docs : List (Doc V)),
        (∀ c ∈ (s.cache.bucket k).subs, throws c = false) →
        (deliver str throws k docs s').calls =
          s'.calls ++ ((s.cache.bucket k).subs ++ [cb]).map
            (fun c => (c, docs.map (entityOf str)))) ∧
      (∀ (cs : List CacheCall),
        (subscribe accepts (runCalls accepts cs (Sys.new V)) k.name cb).1.calls =
          (runCalls accepts cs (Sys.new V)).calls ++ [(cb, [])]) := by
  obtain ⟨s', hs, hcalls, hsubs, hdata, _⟩ := subscribe_known accepts s k cb
  refine ⟨s', unsubscribe k cb, hs, ?_, hsubs, ?_, ?_, ?_, ?_⟩
  · rw [get_name, hcalls]
  · rw [get_name, get_name, hdata]
  · intro str throws docs
    simp only [deliver, hsubs]
  · intro str throws docs hno
    simp only [deliver, hsubs, forEachCalls_append_last throws _ cb hno]
  · intro cs
    obtain ⟨t', ht, htcalls, _⟩ := subscribe_known accepts (runCalls accepts cs (Sys.new V)) k cb
    rw [ht, htcalls, runCalls_data]
    cases k <;> rfl

theorem subscribe_replay_then_stream_witness :
    ∃ (s' : Sys String) (handle : Sys String → Sys String),
      subscribe acceptAll sampleObservers "drivers" 4 = (s', some handle) ∧
      (deliver id (fun c => c == 4) Kind.drivers [⟨"d1", []⟩] s').calls =
        s'.calls ++ [(1, [[("id", "d1")]]), (2, [[("id", "d1")]]), (3, [[("id", "d1")]]),
          (4, [[("id", "d1")]])] := by
  obtain ⟨s', handle, hs, _, _, _, _, h, _⟩ :=
    subscribe_replay_then_stream acceptAll sampleObservers Kind.drivers 4
  exact ⟨s', handle, hs, h id (fun c => c == 4) [⟨"d1", []⟩] (by decide)⟩

/-- C9 (init idempotence). On an uninitialised cache, when the store accepts
the three registrations, `init()` sets `initialized`, opens the subscriptions
for buses, drivers and parents, one of each, and changes neither a bucket nor
the invocation log; a second `init()` then changes nothing. On every
initialised cache `init()` returns the state it was given. -/
theorem init_idempotent {V : Type} (accepts : Kind → Bool) (s : Sys V) :
    (s.cache.initialized = false → (∀ k, accepts k = true) →
      (init accepts s).cache.initialized = true ∧
      (init accepts s).listeners = s.listeners ++ [Kind.buses, Kind.drivers, Kind.parents] ∧
      (∀ k, (init accepts s).listeners.count k = s.listeners.count k + 1) ∧
      (∀ k, (init accepts s).cache.bucket k = s.cache.bucket k) ∧
      (init accepts s).calls = s.calls ∧
      init accepts (init accepts s) = init accepts s) ∧
    (s.cache.initialized = true → init accepts s = s) := by
  constructor
  · intro h0 hacc
    have hinit : init accepts s =
        { s with
          listeners := s.listeners ++ [Kind.buses, Kind.drivers, Kind.parents]
          cache := { s.cache with initialized := true } } := by
      simp [init, h0, hacc]
    refine ⟨by rw [hinit], by rw [hinit], ?_, init_bucket accepts s, init_calls accepts s, ?_⟩
    · intro k
      rw [hinit]
      cases k <;> simp [List.count_cons]
    · rw [hinit]; simp [init]
  · intro h1
    simp [init, h1]

theorem init_idempotent_witness :
    ((init acceptAll (Sys.new String)).cache.initialized = true ∧
      (init acceptAll (Sys.new String)).listeners =
        (Sys.new String).listeners ++ [Kind.buses, Kind.drivers, Kind.parents] ∧
      (∀ k, (init acceptAll (Sys.new String)).listeners.count k =
        (Sys.new String).listeners.count k + 1) ∧
      (∀ k, (init acceptAll (Sys.new String)).cache.bucket k = (Sys.new String).cache.bucket k) ∧
      (init acceptAll (Sys.new String)).calls = (Sys.new String).calls ∧
      init acceptAll (init acceptAll (Sys.new String)) = init acceptAll (Sys.new String)) ∧
    init acceptAll (init acceptAll (Sys.new String)) = init acceptAll (Sys.new String) :=
  ⟨(init_idempotent acceptAll (Sys.new String)).1 rfl (fun _ => rfl),
   (init_idempotent acceptAll (init acceptAll (Sys.new String))).2 rfl⟩

theorem unsubscribe_twice {V : Type} (k : Kind) (cb : Cb) (t : Sys V) :
    unsubscribe k cb (unsubscribe k cb t) = unsubscribe k cb t := by
  cases k <;> simp [unsubscribe, CentralCache.setBucket, CentralCache.bucket, List.filter_filter]

theorem unsubscribe_absent {V : Type} (k : Kind) (cb : Cb) (t : Sys V)
    (h : cb ∉ (t.cache.bucket k).subs) : unsubscribe k cb t = t := by
  have hf : (t.cache.bucket k).subs.filter (fun x => x != cb) = (t.cache.bucket k).subs := by
    rw [List.filter_eq_self]
    intro x hx
    have : x ≠ cb := fun hxc => h (hxc ▸ hx)
    simpa using this
  unfold unsubscribe
  simp only [hf]
  cases k <;> rfl

/-- C10 (unsubscribe is idempotent). The handle returned by
`subscribe(kind, cb)`, called in any state `t`, leaves as observers of the kind
those of `t` other than `cb` in their order, so the next delivery for the kind
runs its loop over exactly these, never invokes `cb`, and invokes all of them
when none throws; calling it again changes nothing, as does
calling it in a state where `cb` is not registered; the snapshot of the kind,
the buckets of the other kinds, the `initialized` flag, the open subscriptions
and the invocation log are untouched. -/
theorem unsubscribe_idempotent {V : Type} (accepts : Kind → Bool) (s : Sys V) (k : Kind)
    (cb : Cb) :
    ∃ (s' : Sys V) (handle : Sys V → Sys V),
      subscribe accepts s k.name cb = (s', some handle) ∧
      ∀ t : Sys V,
        ((handle t).cache.bucket k).subs = (t.cache.bucket k).subs.filter (fun x => x != cb) ∧
        cb ∉ ((handle t).cache.bucket k).subs ∧
        (∀ (str : String → V) (throws : Cb → Bool) (docs : List (Doc V)),
          (deliver str throws k docs (handle t)).calls =
            t.calls ++ (forEachCalls throws
              ((t.cache.bucket k).subs.filter (fun x => x != cb))).map
              (fun c => (c, docs.map (entityOf str)))) ∧
        (∀ throws : Cb → Bool,
          cb ∉ forEachCalls throws ((t.cache.bucket k).subs.filter (fun x => x != cb))) ∧
        (∀ (str : String → V) (throws : Cb → Bool) (docs : List (Doc V)),
          (∀ c ∈ (t.cache.bucket k).subs, c ≠ cb → throws c = false) →
          (deliver str throws k docs (handle t)).calls =
            t.calls ++ ((t.cache.bucket k).subs.filter (fun x => x != cb)).map
              (fun c => (c, docs.map (entityOf str)))) ∧
        handle (handle t) = handle t ∧
        (cb ∉ (t.cache.bucket k).subs → handle t = t) ∧
        ((handle t).cache.bucket k).data = (t.cache.bucket k).data ∧
        (∀ k', k' ≠ k → (handle t).cache.bucket k' = t.cache.bucket k') ∧
        (handle t).cache.initialized = t.cache.initialized ∧
        (handle t).listeners = t.listeners ∧
        (handle t).calls = t.calls := by
  obtain ⟨s', hs, _⟩ := subscribe_known accepts s k cb
  refine ⟨s', unsubscribe k cb, hs, ?_⟩
  intro t
  have hsubs : ((unsubscribe k cb t).cache.bucket k).subs =
      (t.cache.bucket k).subs.filter (fun x => x != cb) := by
    simp only [unsubscribe, bucket_setBucket_same]
  refine ⟨hsubs, ?_, ?_, ?_, ?_, unsubscribe_twice k cb t, unsubscribe_absent k cb t, ?_, ?_, ?_,
    rfl, rfl⟩
  · rw [hsubs]; simp
  · intro str throws docs
    simp only [deliver, hsubs]
    rfl
  · intro throws hmem
    have := forEachCalls_mem throws _ cb hmem
    simp at this
  · intro str throws docs hno
    have hall : ∀ c ∈ (t.cache.bucket k).subs.filter (fun x => x != cb), throws c = false := by
      intro c hc
      rw [List.mem_filter] at hc
      exact hno c hc.1 (by simpa using hc.2)
    simp only [deliver, hsubs, forEachCalls_noThrow throws _ hall]
    rfl
  · simp only [unsubscribe, bucket_setBucket_same]
  · intro k' hk
    simp only [unsubscribe, bucket_setBucket_ne _ _ _ _ hk]
  · simp only [unsubscribe, initialized_setBucket]

theorem unsubscribe_idempotent_witness :
    ∃ (s' : Sys String) (handle : Sys String → Sys String),
      subscribe acceptAll (runCalls acceptAll [CacheCall.subscribe "buses" 2,
        CacheCall.subscribe "drivers" 1] (Sys.new String)) "buses" 1 = (s', some handle) ∧
      ((handle s').cache.bucket Kind.buses).subs = [2] ∧
      (handle s').cache.bucket Kind.drivers = s'.cache.bucket Kind.drivers ∧
      handle (handle s') = handle s' := by
  obtain ⟨s', handle, hs, hall⟩ := unsubscribe_idempotent acceptAll
    (runCalls acceptAll [CacheCall.subscribe "buses" 2, CacheCall.subscribe "drivers" 1]
      (Sys.new String)) Kind.buses 1
  obtain ⟨h1, _, _, _, _, h4, _, _, h7, _⟩ := hall s'
  have hs' : s' = (subscribe acceptAll (runCalls acceptAll [CacheCall.subscribe "buses" 2,
      CacheCall.subscribe "drivers" 1] (Sys.new String)) "buses" 1).1 := by
    have := congrArg Prod.fst hs
    exact this.symm
  refine ⟨s', handle, hs, ?_, h7 Kind.drivers (by decide), h4⟩
  rw [h1, hs']
  decide

/-! ## Delivery of snapshots -/

theorem deliver_bucket_ne {V : Type} (str : String → V) (throws : Cb → Bool) (k k' : Kind)
    (docs : List (Doc V)) (s : Sys V) (h : k' ≠ k) :
    (deliver str throws k docs s).cache.bucket k' = s.cache.bucket k' := by
  simp only [deliver, bucket_setBucket_ne _ _ _ _ h]

theorem event_data {V : Type} (str : String → V) (accepts : Kind → Bool) (k : Kind)
    (e : CacheEvent V) (s : Sys V) (h : e.isDeliveryFor k = false) :
    ((e.run str accepts s).cache.bucket k).data = (s.cache.bucket k).data := by
  cases e with
  | call c => exact run_data accepts c s k
  | delivery k' docs throws =>
    have hk : k ≠ k' := by
      intro hkk
      subst hkk
      simp [CacheEvent.isDeliveryFor] at h
    simp only [CacheEvent.run, deliver_bucket_ne str throws k' k docs s hk]

theorem runEvents_data {V : Type} (str : String → V) (accepts : Kind → Bool) (k : Kind)
    (evs : List (CacheEvent V)) (s : Sys V) (h : ∀ e ∈ evs, e.isDeliveryFor k = false) :
    ((runEvents str accepts evs s).cache.bucket k).data = (s.cache.bucket k).data := by
  induction evs generalizing s with
  | nil => rfl
  | cons e es ih =>
    simp only [runEvents, List.foldl_cons] at ih ⊢
    rw [ih _ (fun x hx => h x (List.mem_cons_of_mem _ hx)),
      event_data str accepts k e s (h e (List.mem_cons_self _ _))]

theorem filter_map_fst_length {α : Type} (subs : List Cb) (data : α) (cb : Cb) :
    ((subs.map (fun c => (c, data))).filter (fun c => c.1 == cb)).length = subs.count cb := by
  induction subs with
  | nil => rfl
  | cons a as ih =>
    by_cases h : a = cb
    · subst h; simp [ih]
    · have h1 : (a == cb) = false := by simpa using h
      simp [List.filter_cons, h1, ih, List.count_cons, h]

/-- C11: the delivery loop ends at the first observer that throws. With the
observers 1, 2, 3 registered for drivers and observer 2 throwing, a delivery
invokes 1 and 2 only, so the registered observer 3 is not invoked. In general
a delivery for kind `k` makes the entities of `docs` the snapshot of `k`,
which `get(k)` returns until the next delivery for `k`; it invokes, in
registration order and with that sequence, the observers of `k` up to and
including the first that throws, hence every one of them exactly as often as
it is registered when none throws; observers of other kinds are not invoked,
and the observers of `k` and the buckets of the other kinds are unchanged.
`get` of a name that is no bucket is the empty list. -/
theorem delivery_stops_at_throwing_observer {V : Type} (str : String → V)
    (accepts : Kind → Bool) (throws : Cb → Bool) (k : Kind) (docs : List (Doc V)) (s : Sys V) :
    ((sampleObservers.cache.bucket Kind.drivers).subs = [1, 2, 3] ∧
      (deliver id (fun c => c == 2) Kind.drivers [⟨"d1", [("name", "N")]⟩]
          sampleObservers).calls =
        sampleObservers.calls ++
          [(1, [[("id", "d1"), ("name", "N")]]), (2, [[("id", "d1"), ("name", "N")]])] ∧
      (3, [[("id", "d1"), ("name", "N")]]) ∉
        (deliver id (fun c => c == 2) Kind.drivers [⟨"d1", [("name", "N")]⟩]
          sampleObservers).calls ∧
      deliverThrows (fun c => c == 2) Kind.drivers sampleObservers = true) ∧
    ((deliver str throws k docs s).cache.bucket k).data = docs.map (entityOf str) ∧
    get (deliver str throws k docs s) k.name = docs.map (entityOf str) ∧
    (∀ evs : List (CacheEvent V), (∀ e ∈ evs, e.isDeliveryFor k = false) →
      get (runEvents str accepts evs (deliver str throws k docs s)) k.name =
        docs.map (entityOf str)) ∧
    (deliver str throws k docs s).calls =
      s.calls ++ (forEachCalls throws (s.cache.bucket k).subs).map
        (fun cb => (cb, docs.map (entityOf str))) ∧
    (∀ (pre post : List Cb) (cb : Cb), (s.cache.bucket k).subs = pre ++ cb :: post →
      (∀ c ∈ pre, throws c = false) → throws cb = true →
      (deliver str throws k docs s).calls =
        s.calls ++ (pre ++ [cb]).map (fun c => (c, docs.map (entityOf str)))) ∧
    ((∀ c ∈ (s.cache.bucket k).subs, throws c = false) →
      (deliver str throws k docs s).calls =
        s.calls ++ (s.cache.bucket k).subs.map (fun cb => (cb, docs.map (entityOf str)))) ∧
    (deliverThrows throws k s = true ↔ ∃ c ∈ (s.cache.bucket k).subs, throws c = true) ∧
    (∀ cb : Cb,
      (((s.cache.bucket k).subs.map (fun c => (c, docs.map (entityOf str)))).filter
        (fun c => c.1 == cb)).length = (s.cache.bucket k).subs.count cb) ∧
    (∀ cb : Cb, cb ∉ (s.cache.bucket k).subs →
      ∀ c ∈ forEachCalls throws (s.cache.bucket k).subs, c ≠ cb) ∧
    ((deliver str throws k docs s).cache.bucket k).subs = (s.cache.bucket k).subs ∧
    (∀ k', k' ≠ k → (deliver str throws k docs s).cache.bucket k' = s.cache.bucket k') ∧
    (deliver str throws k docs s).listeners = s.listeners ∧
    (∀ kind : String, Kind.ofString kind = none → get s kind = []) := by
  have hdata : ((deliver str throws k docs s).cache.bucket k).data = docs.map (entityOf str) := by
    simp only [deliver, bucket_setBucket_same]
  refine ⟨⟨by decide, by decide, by decide, by decide⟩, hdata, by rw [get_name, hdata], ?_, rfl,
    ?_, ?_, ?_, ?_, ?_, ?_, ?_, rfl, ?_⟩
  · intro evs h
    rw [get_name, runEvents_data str accepts k evs _ h, hdata]
  · intro pre post cb hsubs hpre hcb
    simp only [deliver, hsubs, forEachCalls_split throws pre post cb hpre hcb]
  · intro hno
    simp only [deliver, forEachCalls_noThrow throws _ hno]
  · simp only [deliverThrows, List.any_eq_true]
  · intro cb
    exact filter_map_fst_length _ _ cb
  · intro cb hcb c hc hcc
    exact hcb (hcc ▸ forEachCalls_mem throws _ c hc)
  · simp only [deliver, bucket_setBucket_same]
  · intro k' hk
    exact deliver_bucket_ne str throws k k' docs s hk
  · intro kind h
    simp only [get, h]

theorem delivery_stops_at_throwing_observer_witness :
    get (runEvents id acceptAll
        [CacheEvent.call (CacheCall.subscribe "buses" 3),
         CacheEvent.delivery Kind.drivers [⟨"d9", []⟩] noThrow]
        (deliver id noThrow Kind.buses [⟨"b1", [("busNumber", "B1")]⟩] (Sys.new String)))
        "buses" =
      [[("id", "b1"), ("busNumber", "B1")]] ∧
    (deliver id noThrow Kind.drivers [⟨"d1", []⟩] sampleObservers).calls =
      sampleObservers.calls ++
        [(1, [[("id", "d1")]]), (2, [[("id", "d1")]]), (3, [[("id", "d1")]])] ∧
    (deliver id (fun c => c == 3) Kind.drivers [⟨"d1", []⟩] sampleObservers).calls =
      sampleObservers.calls ++
        [(1, [[("id", "d1")]]), (2, [[("id", "d1")]]), (3, [[("id", "d1")]])] ∧
    get (Sys.new String) "routes" = [] :=
  ⟨(delivery_stops_at_throwing_observer id acceptAll noThrow Kind.buses
      [⟨"b1", [("busNumber", "B1")]⟩] (Sys.new String)).2.2.2.1 _ (by decide),
   (delivery_stops_at_throwing_observer id acceptAll noThrow Kind.drivers [⟨"d1", []⟩]
      sampleObservers).2.2.2.2.2.2.1 (by decide),
   (delivery_stops_at_throwing_observer id acceptAll (fun c => c == 3) Kind.drivers [⟨"d1", []⟩]
      sampleObservers).2.2.2.2.2.1 [1, 2] [] 3 (by decide) (by decide) (by decide),
   (delivery_stops_at_throwing_observer id acceptAll noThrow Kind.buses [] (Sys.new String)
      ).2.2.2.2.2.2.2.2.2.2.2.2.2 "routes" (by decide)⟩

/-! ## Bulk import: lemmas -/

theorem get?_set_same {V : Type} (o : JsObj V) (k : String) (v : V) :
    JsObj.get? (JsObj.set o k v) k = some v := by
  induction o with
  | nil => simp [JsObj.set, JsObj.get?]
  | cons p r ih =>
    obtain ⟨k', v'⟩ := p
    by_cases h : k' = k
    · simp [JsObj.set, JsObj.get?, h]
    · simp [JsObj.set, JsObj.get?, h, ih]

theorem get?_set_ne {V : Type} (o : JsObj V) (k k0 : String) (v : V) (h : k0 ≠ k) :
    JsObj.get? (JsObj.set o k v) k0 = JsObj.get? o k0 := by
  induction o with
  | nil => simp [JsObj.set, JsObj.get?, Ne.symm h]
  | cons p r ih =>
    obtain ⟨k', v'⟩ := p
    by_cases h1 : k' = k
    · subst h1
      simp [JsObj.set, JsObj.get?, Ne.symm h]
    · by_cases h2 : k' = k0
      · subst h2
        simp [JsObj.set, JsObj.get?, h1]
      · simp [JsObj.set, JsObj.get?, h1, h2, ih]

theorem set_of_absent {V : Type} (o : JsObj V) (k : String) (v : V)
    (h : JsObj.get? o k = none) : JsObj.set o k v = o ++ [(k, v)] := by
  induction o with
  | nil => rfl
  | cons p r ih =>
    obtain ⟨k', v'⟩ := p
    by_cases h1 : k' = k
    · simp [JsObj.get?, h1] at h
    · simp only [JsObj.get?, h1, if_false] at h
      simp [JsObj.set, h1, ih h]

theorem set_length_of_present {V : Type} (o : JsObj V) (k : String) (v w : V)
    (h : JsObj.get? o k = some w) : (JsObj.set o k v).length = o.length := by
  induction o with
  | nil => simp [JsObj.get?] at h
  | cons p r ih =>
    obtain ⟨k', v'⟩ := p
    by_cases h1 : k' = k
    · simp [JsObj.set, h1]
    · simp only [JsObj.get?, h1, if_false] at h
      simp [JsObj.set, h1, ih h]

theorem errorEntry_msg (r : Row) (m m' : String) (h : errorEntry r m = errorEntry r m') :
    m = m' := by
  have h1 := get?_set_same r "Error" (Cell.str m)
  have h2 := get?_set_same r "Error" (Cell.str m')
  unfold errorEntry at h
  rw [h, h2] at h1
  simpa using h1.symm

theorem stripPrefix0or91_all (l : List Char) (h : l.all isDigitChar = true) :
    (stripPrefix0or91 l).all isDigitChar = true := by
  unfold stripPrefix0or91
  split
  · simp only [List.all_cons, Bool.and_eq_true] at h; exact h.2
  · simp only [List.all_cons, Bool.and_eq_true] at h; exact h.2.2
  · exact h

theorem cleanPhone_digits (p : String) : (cleanPhone p).data.all isDigitChar = true := by
  unfold cleanPhone
  apply stripPrefix0or91_all
  simp [List.all_filter]

theorem append_data_ne (pre rest other : String) (c d : Char) (cs ds : List Char)
    (hp : pre.data = c :: cs) (ho : other.data = d :: ds) (hcd : c ≠ d) :
    pre ++ rest ≠ other := by
  intro h
  have h1 := congrArg String.data h
  rw [String.data_append, hp, ho] at h1
  simp only [List.cons_append, List.cons.injEq] at h1
  exact hcd h1.1

theorem fail_ne_of_msg (st : ImportState) (r : Row) (m m' : String) (h : m ≠ m') :
    fail st r m ≠ fail st r m' := by
  intro heq
  have h1 := congrArg ImportState.errors heq
  simp only [fail, List.append_cancel_left_eq, List.cons.injEq, and_true] at h1
  exact h (errorEntry_msg r m m' h1)

theorem commitRow_sleeps (env : Env) (i : Nat) (st : ImportState) (r : Row) (n : Normalised)
    (phone : String) (bus : Bus) (stop : Stop) :
    (commitRow env i st r n phone bus stop).sleeps = st.sleeps ++ [120] := by
  unfold commitRow
  simp only
  split
  · rfl
  · split <;> rfl

theorem commitRow_ne_fail (env : Env) (i : Nat) (st : ImportState) (r : Row) (n : Normalised)
    (phone : String) (bus : Bus) (stop : Stop) (m : String) :
    commitRow env i st r n phone bus stop ≠ fail st r m := by
  intro h
  have h1 := congrArg ImportState.sleeps h
  rw [commitRow_sleeps] at h1
  simp [fail] at h1

theorem invalid_phone_iff (phone : String) :
    (phone = "" ∨ phone.length < 10) ↔ phone.length < 10 := by
  constructor
  · rintro (h | h)
    · subst h; decide
    · exact h
  · exact Or.inr

theorem processRow_invalid (buses : List Bus) (env : Env) (i : Nat) (st : ImportState) (r : Row)
    (h : (normalise r).parentName = "" ∨ (normalise r).studentName = "" ∨
      (cleanPhone (normalise r).phoneRaw).length < 10) :
    processRow buses env i st r = fail st r validationMsg := by
  have hcond : (normalise r).parentName = "" ∨ cleanPhone (normalise r).phoneRaw = "" ∨
      (cleanPhone (normalise r).phoneRaw).length < 10 ∨ (normalise r).studentName = "" := by
    rcases h with h1 | h2 | h3
    · exact Or.inl h1
    · exact Or.inr (Or.inr (Or.inr h2))
    · exact Or.inr (Or.inr (Or.inl h3))
  unfold processRow
  simp only [hcond, if_true]

/-- C12 (row validation). The cleaned phone consists of digits only, and a row
is handled as a validation failure, that is `processRow` is
`failed++; errors.push(row with Error = validationMsg)` with no identity call
and no write, exactly when the normalised guardian name is empty, or the
student name is empty, or the cleaned phone has fewer than 10 digits; the loop
then goes on with the next row. -/
theorem row_validation (buses : List Bus) (env : Env) (i : Nat) (st : ImportState) (r : Row) :
    (cleanPhone (normalise r).phoneRaw).data.all isDigitChar = true ∧
    (processRow buses env i st r = fail st r validationMsg ↔
      ((normalise r).parentName = "" ∨ (normalise r).studentName = "" ∨
        (cleanPhone (normalise r).phoneRaw).length < 10)) ∧
    (fail st r validationMsg).failed = st.failed + 1 ∧
    (fail st r validationMsg).success = st.success ∧
    (fail st r validationMsg).errors = st.errors ++ [JsObj.set r "Error" (Cell.str validationMsg)] ∧
    (fail st r validationMsg).authCalls = st.authCalls ∧
    (fail st r validationMsg).setDocCalls = st.setDocCalls ∧
    (∀ rs : List Row,
      processRows buses env i st (r :: rs) =
        processRows buses env (i + 1) (processRow buses env i st r) rs) := by
  refine ⟨cleanPhone_digits _, ?_, rfl, rfl, rfl, rfl, rfl, fun _ => rfl⟩
  constructor
  · intro h
    by_contra hc
    have hcond : ¬((normalise r).parentName = "" ∨ cleanPhone (normalise r).phoneRaw = "" ∨
        (cleanPhone (normalise r).phoneRaw).length < 10 ∨ (normalise r).studentName = "") := by
      intro hh
      apply hc
      rcases hh with h1 | h2 | h3 | h4
      · exact Or.inl h1
      · exact Or.inr (Or.inr (by rw [h2]; decide))
      · exact Or.inr (Or.inr h3)
      · exact Or.inr (Or.inl h4)
    unfold processRow at h
    simp only [hcond, if_false] at h
    split at h
    · exact fail_ne_of_msg st r _ _
        (append_data_ne _ _ validationMsg 'I' 'M' _ _ rfl rfl (by decide)) h
    · unfold stopStep at h
      split at h
      · split at h
        · exact fail_ne_of_msg st r "Missing BusStop" validationMsg (by decide) h
        · exact fail_ne_of_msg st r _ _
            (append_data_ne _ _ validationMsg 'I' 'M' _ _ rfl rfl (by decide)) h
      · exact commitRow_ne_fail _ _ _ _ _ _ _ _ _ h
  · exact processRow_invalid buses env i st r

theorem get_zero_eq_head {α : Type} (x : List α) (hl : 0 < x.length) (hb : x ≠ []) :
    x.get ⟨0, hl⟩ = x.head hb := by
  cases x with
  | nil => exact absurd rfl hb
  | cons c cs => rfl

theorem trimChars_dropWhile (l : List Char) :
    List.dropWhile isJsSpace (List.rdropWhile isJsSpace (List.dropWhile isJsSpace l)) =
      List.rdropWhile isJsSpace (List.dropWhile isJsSpace l) := by
  by_cases hb : List.rdropWhile isJsSpace (List.dropWhile isJsSpace l) = []
  · rw [hb]; rfl
  · rw [List.dropWhile_eq_self_iff]
    intro hl
    have hpre : List.rdropWhile isJsSpace (List.dropWhile isJsSpace l) <+:
        List.dropWhile isJsSpace l := List.rdropWhile_prefix _ _
    have ha : List.dropWhile isJsSpace l ≠ [] := by
      intro h0
      rw [h0] at hb
      exact hb rfl
    have hhead := hpre.head hb
    have hnot := List.head_dropWhile_not isJsSpace l ha
    rw [get_zero_eq_head _ hl hb, hhead, hnot]
    simp

theorem jsTrim_eq (s : String) :
    jsTrim s = String.mk (List.rdropWhile isJsSpace (List.dropWhile isJsSpace s.data)) := rfl

theorem jsTrim_idem (s : String) : jsTrim (jsTrim s) = jsTrim s := by
  rw [jsTrim_eq (jsTrim s), jsTrim_eq s]
  simp only [trimChars_dropWhile, List.rdropWhile_idempotent]

theorem matchKey_iff (d t : String) (ht : jsTrim t = t) :
    matchKey d = matchKey t ↔ eqIgnoreCase (jsTrim d) t := by
  unfold matchKey eqIgnoreCase
  rw [ht]

theorem matchKey_ne_iff (d t : String) (ht : jsTrim t = t) :
    matchKey d ≠ matchKey t ↔ ¬eqIgnoreCase (jsTrim d) t :=
  not_congr (matchKey_iff d t ht)

theorem normalise_busNumRaw_trimmed (r : Row) :
    jsTrim (normalise r).busNumRaw = (normalise r).busNumRaw := jsTrim_idem _

theorem normalise_stopNameRaw_trimmed (r : Row) :
    jsTrim (normalise r).stopNameRaw = (normalise r).stopNameRaw := jsTrim_idem _

theorem find?_first {α : Type} (p : α → Bool) (pre post : List α) (b : α)
    (hb : p b = true) (hpre : ∀ x ∈ pre, p x = false) :
    (pre ++ b :: post).find? p = some b := by
  induction pre with
  | nil => simp [hb]
  | cons a as ih =>
    have ha : p a = false := hpre a (List.mem_cons_self _ _)
    simp only [List.cons_append, List.find?_cons, ha]
    exact ih (fun x hx => hpre x (List.mem_cons_of_mem _ hx))

theorem find?_none_of {α : Type} (p : α → Bool) (l : List α) (h : ∀ x ∈ l, p x = false) :
    l.find? p = none := by
  rw [List.find?_eq_none]
  intro x hx
  simp [h x hx]

theorem processRow_valid (buses : List Bus) (env : Env) (i : Nat) (st : ImportState) (r : Row)
    (hvalid : ¬((normalise r).parentName = "" ∨ (normalise r).studentName = "" ∨
      (cleanPhone (normalise r).phoneRaw).length < 10)) :
    processRow buses env i st r =
      match findBus buses (normalise r).busNumRaw with
      | none => fail st r ("Invalid BusNumber: \"" ++ (normalise r).busNumRaw ++ "\"")
      | some bus => stopStep env i st r (normalise r) (cleanPhone (normalise r).phoneRaw) bus := by
  have hcond : ¬((normalise r).parentName = "" ∨ cleanPhone (normalise r).phoneRaw = "" ∨
      (cleanPhone (normalise r).phoneRaw).length < 10 ∨ (normalise r).studentName = "") := by
    intro hh
    apply hvalid
    rcases hh with h1 | h2 | h3 | h4
    · exact Or.inl h1
    · exact Or.inr (Or.inr (by rw [h2]; decide))
    · exact Or.inr (Or.inr h3)
    · exact Or.inr (Or.inl h4)
  unfold processRow
  simp only [hcond, if_false]

theorem findBus_display (buses pre post : List Bus) (b : Bus) (t : String)
    (hb : buses = pre ++ b :: post) (ht : t ≠ "")
    (hm : matchKey b.displayNumber = matchKey t)
    (hpre : ∀ x ∈ pre, matchKey x.displayNumber ≠ matchKey t) :
    findBus buses t = some b := by
  unfold findBus
  simp only [ht, if_false]
  rw [hb, find?_first _ pre post b (by simpa using hm) (fun x hx => by simpa using hpre x hx)]

theorem findBus_id (buses pre post : List Bus) (b : Bus) (t : String)
    (hb : buses = pre ++ b :: post) (ht : t ≠ "")
    (hno : ∀ x ∈ buses, matchKey x.displayNumber ≠ matchKey t)
    (hid : b.id = t) (hpre : ∀ x ∈ pre, x.id ≠ t) :
    findBus buses t = some b := by
  unfold findBus
  simp only [ht, if_false]
  rw [find?_none_of _ buses (fun x hx => by simpa using hno x hx)]
  simp only
  rw [hb, find?_first _ pre post b (by simpa using hid) (fun x hx => by simpa using hpre x hx)]

theorem findBus_none (buses : List Bus) (t : String)
    (h : t = "" ∨ ((∀ x ∈ buses, matchKey x.displayNumber ≠ matchKey t) ∧
      (∀ x ∈ buses, x.id ≠ t))) :
    findBus buses t = none := by
  unfold findBus
  by_cases ht : t = ""
  · simp [ht]
  · rcases h with h | ⟨h1, h2⟩
    · exact absurd h ht
    · simp only [ht, if_false]
      rw [find?_none_of _ buses (fun x hx => by simpa using h1 x hx)]
      simp only
      exact find?_none_of _ buses (fun x hx => by simpa using h2 x hx)

/-- C16 (vehicle resolution, as amended). For a row that passed validation, with
trimmed vehicle reference `t`: if `t` is not empty and `b` is the first cached
bus whose display number, trimmed, equals `t` ignoring letter case, the row
goes on to stop resolution with `b`; otherwise, if `t` is not empty and `b` is
the first bus whose id is exactly `t`, it goes on with `b`; otherwise (also for
empty `t`) the row fails with `Invalid BusNumber`, nothing is provisioned and
the next row is processed. For a display number stored without surrounding
white space the trimming changes nothing. -/
theorem vehicle_resolution (buses : List Bus) (env : Env) (i : Nat) (st : ImportState) (r : Row)
    (hvalid : ¬((normalise r).parentName = "" ∨ (normalise r).studentName = "" ∨
      (cleanPhone (normalise r).phoneRaw).length < 10)) :
    (∀ (pre post : List Bus) (b : Bus), buses = pre ++ b :: post →
      (normalise r).busNumRaw ≠ "" →
      eqIgnoreCase (jsTrim b.displayNumber) (normalise r).busNumRaw →
      (∀ x ∈ pre, ¬eqIgnoreCase (jsTrim x.displayNumber) (normalise r).busNumRaw) →
        processRow buses env i st r =
          stopStep env i st r (normalise r) (cleanPhone (normalise r).phoneRaw) b) ∧
    (∀ (pre post : List Bus) (b : Bus), buses = pre ++ b :: post →
      (normalise r).busNumRaw ≠ "" →
      (∀ x ∈ buses, ¬eqIgnoreCase (jsTrim x.displayNumber) (normalise r).busNumRaw) →
      b.id = (normalise r).busNumRaw → (∀ x ∈ pre, x.id ≠ (normalise r).busNumRaw) →
        processRow buses env i st r =
          stopStep env i st r (normalise r) (cleanPhone (normalise r).phoneRaw) b) ∧
    (((normalise r).busNumRaw = "" ∨
        ((∀ x ∈ buses, ¬eqIgnoreCase (jsTrim x.displayNumber) (normalise r).busNumRaw) ∧
          (∀ x ∈ buses, x.id ≠ (normalise r).busNumRaw))) →
      processRow buses env i st r =
          fail st r ("Invalid BusNumber: \"" ++ (normalise r).busNumRaw ++ "\"") ∧
      (processRow buses env i st r).failed = st.failed + 1 ∧
      (processRow buses env i st r).success = st.success ∧
      (processRow buses env i st r).authCalls = st.authCalls ∧
      (processRow buses env i st r).setDocCalls = st.setDocCalls ∧
      ∀ rs : List Row, processRows buses env i st (r :: rs) =
        processRows buses env (i + 1)
          (fail st r ("Invalid BusNumber: \"" ++ (normalise r).busNumRaw ++ "\"")) rs) ∧
    jsTrim (normalise r).busNumRaw = (normalise r).busNumRaw ∧
    (∀ d : String, jsTrim d = d →
      (eqIgnoreCase (jsTrim d) (normalise r).busNumRaw ↔
        eqIgnoreCase d (normalise r).busNumRaw)) := by
  have ht := normalise_busNumRaw_trimmed r
  refine ⟨?_, ?_, ?_, ht, ?_⟩
  · intro pre post b hb hne hm hpre
    rw [processRow_valid buses env i st r hvalid,
      findBus_display buses pre post b _ hb hne ((matchKey_iff _ _ ht).2 hm)
        (fun x hx => (matchKey_ne_iff _ _ ht).2 (hpre x hx))]
  · intro pre post b hb hne hno hid hpre
    rw [processRow_valid buses env i st r hvalid,
      findBus_id buses pre post b _ hb hne
        (fun x hx => (matchKey_ne_iff _ _ ht).2 (hno x hx)) hid hpre]
  · intro h
    have h' : (normalise r).busNumRaw = "" ∨
        ((∀ x ∈ buses, matchKey x.displayNumber ≠ matchKey (normalise r).busNumRaw) ∧
          (∀ x ∈ buses, x.id ≠ (normalise r).busNumRaw)) := by
      rcases h with h | ⟨h1, h2⟩
      · exact Or.inl h
      · exact Or.inr ⟨fun x hx => (matchKey_ne_iff _ _ ht).2 (h1 x hx), h2⟩
    have hp : processRow buses env i st r =
        fail st r ("Invalid BusNumber: \"" ++ (normalise r).busNumRaw ++ "\"") := by
      rw [processRow_valid buses env i st r hvalid, findBus_none buses _ h']
    refine ⟨hp, by rw [hp]; rfl, by rw [hp]; rfl, by rw [hp]; rfl, by rw [hp]; rfl, ?_⟩
    intro rs
    simp only [processRows, hp]
  · intro d hd
    rw [hd]

theorem processRow_bus (buses : List Bus) (env : Env) (i : Nat) (st : ImportState) (r : Row)
    (bus : Bus)
    (hvalid : ¬((normalise r).parentName = "" ∨ (normalise r).studentName = "" ∨
      (cleanPhone (normalise r).phoneRaw).length < 10))
    (hbus : findBus buses (normalise r).busNumRaw = some bus) :
    processRow buses env i st r =
      stopStep env i st r (normalise r) (cleanPhone (normalise r).phoneRaw) bus := by
  rw [processRow_valid buses env i st r hvalid, hbus]

theorem findStop_first (bus : Bus) (stops pre post : List Stop) (s : Stop) (u : String)
    (hs : bus.stops = some stops) (hd : stops = pre ++ s :: post) (hu : u ≠ "")
    (hm : matchKey s.name = matchKey u) (hpre : ∀ x ∈ pre, matchKey x.name ≠ matchKey u) :
    findStop bus u = some s := by
  unfold findStop
  simp only [hu, if_false, hs]
  rw [hd, find?_first _ pre post s (by simpa using hm) (fun x hx => by simpa using hpre x hx)]

theorem findStop_none (bus : Bus) (u : String)
    (h : u = "" ∨ bus.stops = none ∨
      ∃ stops, bus.stops = some stops ∧ ∀ x ∈ stops, matchKey x.name ≠ matchKey u) :
    findStop bus u = none := by
  unfold findStop
  by_cases hu : u = ""
  · simp [hu]
  · simp only [hu, if_false]
    rcases h with h | h | ⟨stops, hs, hno⟩
    · exact absurd h hu
    · rw [h]
    · rw [hs]
      exact find?_none_of _ stops (fun x hx => by simpa using hno x hx)

/-- C17 (stop resolution, as amended). For a row that passed validation and
resolved to `bus`, with trimmed stop reference `u`: if `u` is not empty and `s`
is the first stop of the bus whose name, trimmed, equals `u` ignoring letter
case, the row goes on to the commit step with `s`; if `u` is empty the row
fails with `Missing BusStop`; if `u` is not empty and the bus has no stop list
or no such stop (also with zero stops) it fails with `Invalid BusStop`. A
failed row counts as failed, provisions nothing and the next row is processed.
For a stop name stored without surrounding white space the trimming changes
nothing. -/
theorem stop_resolution (buses : List Bus) (env : Env) (i : Nat) (st : ImportState) (r : Row)
    (bus : Bus)
    (hvalid : ¬((normalise r).parentName = "" ∨ (normalise r).studentName = "" ∨
      (cleanPhone (normalise r).phoneRaw).length < 10))
    (hbus : findBus buses (normalise r).busNumRaw = some bus) :
    (∀ (stops pre post : List Stop) (s : Stop), bus.stops = some stops →
      stops = pre ++ s :: post → (normalise r).stopNameRaw ≠ "" →
      eqIgnoreCase (jsTrim s.name) (normalise r).stopNameRaw →
      (∀ x ∈ pre, ¬eqIgnoreCase (jsTrim x.name) (normalise r).stopNameRaw) →
        processRow buses env i st r =
          commitRow env i st r (normalise r) (cleanPhone (normalise r).phoneRaw) bus s) ∧
    ((normalise r).stopNameRaw = "" →
      processRow buses env i st r = fail st r "Missing BusStop") ∧
    ((normalise r).stopNameRaw ≠ "" →
      (bus.stops = none ∨ ∃ stops, bus.stops = some stops ∧
        ∀ x ∈ stops, ¬eqIgnoreCase (jsTrim x.name) (normalise r).stopNameRaw) →
      processRow buses env i st r =
        fail st r ("Invalid BusStop \"" ++ (normalise r).stopNameRaw ++ "\" for bus " ++
          (if bus.busNumber ≠ "" then bus.busNumber else bus.id))) ∧
    (∀ msg : String, processRow buses env i st r = fail st r msg →
      (processRow buses env i st r).failed = st.failed + 1 ∧
      (processRow buses env i st r).success = st.success ∧
      (processRow buses env i st r).authCalls = st.authCalls ∧
      (processRow buses env i st r).setDocCalls = st.setDocCalls ∧
      ∀ rs : List Row, processRows buses env i st (r :: rs) =
        processRows buses env (i + 1) (fail st r msg) rs) ∧
    jsTrim (normalise r).stopNameRaw = (normalise r).stopNameRaw ∧
    (∀ d : String, jsTrim d = d →
      (eqIgnoreCase (jsTrim d) (normalise r).stopNameRaw ↔
        eqIgnoreCase d (normalise r).stopNameRaw)) := by
  have hp := processRow_bus buses env i st r bus hvalid hbus
  have ht := normalise_stopNameRaw_trimmed r
  refine ⟨?_, ?_, ?_, ?_, ht, ?_⟩
  · intro stops pre post s hs hd hu hm hpre
    rw [hp]
    unfold stopStep
    rw [findStop_first bus stops pre post s _ hs hd hu ((matchKey_iff _ _ ht).2 hm)
      (fun x hx => (matchKey_ne_iff _ _ ht).2 (hpre x hx))]
  · intro hu
    rw [hp]
    unfold stopStep
    rw [findStop_none bus _ (Or.inl hu)]
    simp only [hu, if_true]
  · intro hu hno
    have hno' : bus.stops = none ∨ ∃ stops, bus.stops = some stops ∧
        ∀ x ∈ stops, matchKey x.name ≠ matchKey (normalise r).stopNameRaw := by
      rcases hno with h | ⟨stops, hs, h⟩
      · exact Or.inl h
      · exact Or.inr ⟨stops, hs, fun x hx => (matchKey_ne_iff _ _ ht).2 (h x hx)⟩
    rw [hp]
    unfold stopStep
    rw [findStop_none bus _ (Or.inr hno')]
    simp only [hu, if_false]
  · intro msg hmsg
    refine ⟨by rw [hmsg]; rfl, by rw [hmsg]; rfl, by rw [hmsg]; rfl, by rw [hmsg]; rfl, ?_⟩
    intro rs
    simp only [processRows, hmsg]
  · intro d hd
    rw [hd]

/-- C18 (commit payload). For a row that passed validation and resolved to
`bus` and `stop`, with cleaned phone `p`: the identity collaborator is called
once, with `p@traqerr.com` and `Traqer@321`; when it returns `u`, `setDoc` is
called once, under key `u`, with `uid = u`, `phone = p`, `authEmail` the login
key, role `parent`, the normalised names and class, `assignedBus = bus.id`,
`assignedStopId = stop.id` and the copies of bus number, route and stop name;
when it fails, `setDoc` is not called. -/
theorem commit_payload (buses : List Bus) (env : Env) (i : Nat) (st : ImportState) (r : Row)
    (bus : Bus) (stop : Stop)
    (hvalid : ¬((normalise r).parentName = "" ∨ (normalise r).studentName = "" ∨
      (cleanPhone (normalise r).phoneRaw).length < 10))
    (hbus : findBus buses (normalise r).busNumRaw = some bus)
    (hstop : findStop bus (normalise r).stopNameRaw = some stop) :
    (processRow buses env i st r).authCalls =
      st.authCalls ++ [(cleanPhone (normalise r).phoneRaw ++ "@traqerr.com", "Traqer@321")] ∧
    (∀ u : String,
      env.createUser i (cleanPhone (normalise r).phoneRaw ++ "@traqerr.com") "Traqer@321" =
        .ok u →
      (processRow buses env i st r).setDocCalls = st.setDocCalls ++
        [(u, { uid := u
               name := (normalise r).parentName
               phone := cleanPhone (normalise r).phoneRaw
               authEmail := cleanPhone (normalise r).phoneRaw ++ "@traqerr.com"
               role := "parent"
               studentName := (normalise r).studentName
               studentStandard := (normalise r).cls
               assignedBus := bus.id
               assignedBusNum := bus.busNumber
               assignedRoute := bus.routeName
               assignedStop := stop.name
               assignedStopId := stop.id })]) ∧
    (∀ e : String,
      env.createUser i (cleanPhone (normalise r).phoneRaw ++ "@traqerr.com") "Traqer@321" =
        .error e →
      (processRow buses env i st r).setDocCalls = st.setDocCalls) := by
  have hp : processRow buses env i st r =
      commitRow env i st r (normalise r) (cleanPhone (normalise r).phoneRaw) bus stop := by
    rw [processRow_bus buses env i st r bus hvalid hbus]
    unfold stopStep
    rw [hstop]
  have hdom : cleanPhone (normalise r).phoneRaw ++ "@" ++ SYNTH_DOMAIN =
      cleanPhone (normalise r).phoneRaw ++ "@traqerr.com" := by
    rw [String.append_assoc]; rfl
  rw [hp]
  unfold commitRow
  simp only [hdom]
  refine ⟨?_, ?_, ?_⟩
  · split
    · rfl
    · split <;> rfl
  · intro u hu
    rw [hu]
    simp only
    split <;> rfl
  · intro e he
    rw [he]
    rfl

theorem importState_add_start (st : ImportState) : st.add ImportState.start = st := by
  simp [ImportState.add, ImportState.start]

theorem importState_start_add (st : ImportState) : ImportState.start.add st = st := by
  simp [ImportState.add, ImportState.start]

theorem importState_add_assoc (a b c : ImportState) : (a.add b).add c = a.add (b.add c) := by
  simp [ImportState.add, Nat.add_assoc, List.append_assoc]

theorem fail_add (st : ImportState) (r : Row) (m : String) :
    fail st r m = st.add (fail ImportState.start r m) := by
  simp [fail, ImportState.add, ImportState.start]

theorem commitRow_add (env : Env) (i : Nat) (st : ImportState) (r : Row) (n : Normalised)
    (phone : String) (bus : Bus) (stop : Stop) :
    commitRow env i st r n phone bus stop =
      st.add (commitRow env i ImportState.start r n phone bus stop) := by
  unfold commitRow
  simp only
  split
  · simp [fail, ImportState.add, ImportState.start]
  · split <;> simp [fail, ImportState.add, ImportState.start]

theorem processRow_add (buses : List Bus) (env : Env) (i : Nat) (st : ImportState) (r : Row) :
    processRow buses env i st r = st.add (rowDelta buses env i r) := by
  unfold rowDelta processRow
  simp only
  split
  · exact fail_add st r _
  · split
    · exact fail_add st r _
    · unfold stopStep
      split
      · split
        · exact fail_add st r _
        · exact fail_add st r _
      · exact commitRow_add _ _ _ _ _ _ _ _

theorem processRows_add (buses : List Bus) (env : Env) (i : Nat) (st : ImportState)
    (rows : List Row) :
    processRows buses env i st rows =
      st.add (processRows buses env i ImportState.start rows) := by
  induction rows generalizing i st with
  | nil => simp [processRows, importState_add_start]
  | cons r rs ih =>
    simp only [processRows]
    rw [ih (i + 1) (processRow buses env i st r),
      ih (i + 1) (processRow buses env i ImportState.start r), processRow_add buses env i st r,
      importState_add_assoc]
    rfl

theorem processRows_append (buses : List Bus) (env : Env) (i : Nat) (st : ImportState)
    (pre post : List Row) :
    processRows buses env i st (pre ++ post) =
      processRows buses env (i + pre.length) (processRows buses env i st pre) post := by
  induction pre generalizing i st with
  | nil => rfl
  | cons r rs ih =>
    simp only [List.cons_append, processRows, List.length_cons]
    have h := ih (i + 1) (processRow buses env i st r)
    have hi : i + 1 + rs.length = i + (rs.length + 1) := by omega
    rw [hi] at h
    exact h

theorem commitRow_cases (env : Env) (i : Nat) (r : Row) (n : Normalised) (phone : String)
    (bus : Bus) (stop : Stop) :
    ((commitRow env i ImportState.start r n phone bus stop).success = 1 ∧
      (commitRow env i ImportState.start r n phone bus stop).failed = 0 ∧
      (commitRow env i ImportState.start r n phone bus stop).errors = []) ∨
    ((commitRow env i ImportState.start r n phone bus stop).success = 0 ∧
      (commitRow env i ImportState.start r n phone bus stop).failed = 1 ∧
      ∃ msg, (commitRow env i ImportState.start r n phone bus stop).errors =
        [errorEntry r msg]) := by
  unfold commitRow
  simp only
  split
  · exact Or.inr ⟨rfl, rfl, _, rfl⟩
  · split
    · exact Or.inl ⟨rfl, rfl, rfl⟩
    · exact Or.inr ⟨rfl, rfl, _, rfl⟩

theorem rowDelta_cases (buses : List Bus) (env : Env) (i : Nat) (r : Row) :
    ((rowDelta buses env i r).success = 1 ∧ (rowDelta buses env i r).failed = 0 ∧
      (rowDelta buses env i r).errors = []) ∨
    ((rowDelta buses env i r).success = 0 ∧ (rowDelta buses env i r).failed = 1 ∧
      ∃ msg, (rowDelta buses env i r).errors = [errorEntry r msg]) := by
  unfold rowDelta processRow
  simp only
  split
  · exact Or.inr ⟨rfl, rfl, _, rfl⟩
  · split
    · exact Or.inr ⟨rfl, rfl, _, rfl⟩
    · unfold stopStep
      split
      · split
        · exact Or.inr ⟨rfl, rfl, _, rfl⟩
        · exact Or.inr ⟨rfl, rfl, _, rfl⟩
      · exact commitRow_cases _ _ _ _ _ _ _

theorem processRows_counts (buses : List Bus) (env : Env) (i : Nat) (rows : List Row) :
    (processRows buses env i ImportState.start rows).success +
        (processRows buses env i ImportState.start rows).failed = rows.length ∧
    (processRows buses env i ImportState.start rows).errors.length =
        (processRows buses env i ImportState.start rows).failed := by
  induction rows generalizing i with
  | nil => exact ⟨rfl, rfl⟩
  | cons r rs ih =>
    simp only [processRows]
    rw [processRows_add]
    obtain ⟨h1, h2⟩ := ih (i + 1)
    have hc := rowDelta_cases buses env i r
    simp only [rowDelta] at hc
    simp only [ImportState.add, List.length_append, List.length_cons]
    rcases hc with ⟨a, b, c⟩ | ⟨a, b, msg, c⟩
    · rw [a, b, c]; constructor <;> simp <;> omega
    · rw [a, b, c]; constructor <;> simp <;> omega

/-- C19 (per-row isolation). For every cache, every behaviour of the two
collaborators and every input of `n` rows the loop ends with
`success + failed = n` and as many error entries as `failed`; each row adds
either one success or one failure with one entry; what a row adds to the loop
variables does not depend on their values, and the run over
`pre ++ r :: post` is the run over `pre`, plus what `r` adds at its index, plus
what the rows of `post` add at theirs. -/
theorem per_row_isolation (buses : List Bus) (env : Env) (rows : List Row) :
    (importRows buses env rows).success + (importRows buses env rows).failed = rows.length ∧
    (importRows buses env rows).errors.length = (importRows buses env rows).failed ∧
    (∀ (i : Nat) (r : Row),
      ((rowDelta buses env i r).success = 1 ∧ (rowDelta buses env i r).failed = 0 ∧
        (rowDelta buses env i r).errors = []) ∨
      ((rowDelta buses env i r).success = 0 ∧ (rowDelta buses env i r).failed = 1 ∧
        ∃ msg, (rowDelta buses env i r).errors = [errorEntry r msg])) ∧
    (∀ (i : Nat) (st : ImportState) (r : Row),
      processRow buses env i st r = st.add (rowDelta buses env i r)) ∧
    (∀ (pre post : List Row) (r : Row),
      importRows buses env (pre ++ r :: post) =
        ((importRows buses env pre).add (rowDelta buses env pre.length r)).add
          (processRows buses env (pre.length + 1) ImportState.start post)) := by
  refine ⟨(processRows_counts buses env 0 rows).1, (processRows_counts buses env 0 rows).2,
    rowDelta_cases buses env, processRow_add buses env, ?_⟩
  intro pre post r
  unfold importRows
  rw [processRows_append, processRows, processRows_add, processRow_add, Nat.zero_add]

theorem failureEntries_eq (buses : List Bus) (env : Env) (i : Nat) (rows : List Row) :
    (processRows buses env i ImportState.start rows).errors = failureEntries buses env i rows := by
  induction rows generalizing i with
  | nil => rfl
  | cons r rs ih =>
    simp only [processRows, failureEntries]
    rw [processRows_add, ← ih (i + 1)]
    rfl

/-- C20 (failure set and report, as amended). The accumulated errors are the
entries the rows contribute in input order, none for a row that succeeded and
one for a row that failed; an entry has the reason under `Error`, agrees with
the row on every other field, and is the row followed by the reason when the
row has no field `Error`; the error report is built from exactly these entries
and is produced if and only if there is one, and otherwise the toast with the
success count is shown. -/
theorem failure_set_and_report (buses : List Bus) (env : Env) (rows : List Row) :
    (importRows buses env rows).errors = failureEntries buses env 0 rows ∧
    (∀ (i : Nat) (r : Row),
      ((rowDelta buses env i r).failed = 0 ∧ (rowDelta buses env i r).errors = []) ∨
      ((rowDelta buses env i r).failed = 1 ∧
        ∃ msg, (rowDelta buses env i r).errors = [errorEntry r msg])) ∧
    (∀ (r : Row) (msg : String),
      JsObj.get? (errorEntry r msg) "Error" = some (Cell.str msg) ∧
      (∀ k : String, k ≠ "Error" → JsObj.get? (errorEntry r msg) k = JsObj.get? r k) ∧
      (JsObj.get? r "Error" = none → errorEntry r msg = r ++ [("Error", Cell.str msg)])) ∧
    ((∃ header, finish (importRows buses env rows) =
        Report.errorReport header (importRows buses env rows).errors) ↔
      (importRows buses env rows).errors ≠ []) ∧
    ((importRows buses env rows).errors = [] →
      finish (importRows buses env rows) =
        Report.successToast
          (toString (importRows buses env rows).success ++ " parents added successfully")) := by
  refine ⟨failureEntries_eq buses env 0 rows, ?_, ?_, ?_, ?_⟩
  · intro i r
    rcases rowDelta_cases buses env i r with ⟨_, b, c⟩ | ⟨_, b, c⟩
    · exact Or.inl ⟨b, c⟩
    · exact Or.inr ⟨b, c⟩
  · intro r msg
    exact ⟨get?_set_same r "Error" _, fun k hk => get?_set_ne r "Error" k _ hk,
      fun h => set_of_absent r "Error" _ h⟩
  · unfold finish
    cases h : (importRows buses env rows).errors with
    | nil => simp
    | cons e es => simp
  · intro h
    unfold finish
    rw [h]

theorem firstTruthy_hit (r : Row) (k : String) (ks : List String) (s : String)
    (h : JsObj.get? r k = some (Cell.str s)) (hs : s ≠ "") :
    firstTruthy r (k :: ks) = s := by
  simp [firstTruthy, h, Cell.truthy, Cell.toStr, hs]

theorem firstTruthy_skip (r : Row) (k : String) (ks : List String)
    (h : isFalsy r k = true) : firstTruthy r (k :: ks) = firstTruthy r ks := by
  unfold isFalsy at h
  rw [firstTruthy]
  cases hg : JsObj.get? r k with
  | none => rfl
  | some v =>
    rw [hg] at h
    simp only [Bool.not_eq_true'] at h
    simp [h]

/-- C13 (successful import, the specification's example row). The guardian
name is read from `ParentName`, `parentName`, `parent` and `name` only, so the
row with the guardian under `Parent` has an empty guardian name and fails
validation for every cache and every collaborator: `success = 0`,
`failed = 1`, nothing written. The same row with the header `ParentName`
gives `success = 1`, `failed = 0` and a parent document that references the
bus id and the stop id. -/
theorem spec_example_row_fails_validation :
    (normalise sampleRowParent).parentName = "" ∧
    (∀ (buses : List Bus) (env : Env),
      importRows buses env [sampleRowParent] =
        fail ImportState.start sampleRowParent validationMsg) ∧
    (importRows sampleBuses sampleEnv [sampleRowParent]).success = 0 ∧
    (importRows sampleBuses sampleEnv [sampleRowParent]).failed = 1 ∧
    (importRows sampleBuses sampleEnv [sampleRowParent]).setDocCalls = [] ∧
    (importRows sampleBuses sampleEnv [sampleRowParentName]).success = 1 ∧
    (importRows sampleBuses sampleEnv [sampleRowParentName]).failed = 0 ∧
    (importRows sampleBuses sampleEnv [sampleRowParentName]).setDocCalls.map
      (fun w => (w.2.assignedBus, w.2.assignedStopId)) = [("bus1", "s1")] := by
  refine ⟨by decide, ?_, by decide, by decide, by decide, by decide, by decide, by decide⟩
  intro buses env
  exact processRow_invalid buses env 0 ImportState.start sampleRowParent (Or.inl (by decide))

/-- C14 (unresolvable vehicle, the specification's example row). The row with
the guardian under `Parent` fails validation for every cache: `failed = 1`,
`success = 0`, and the entry is the row followed by the validation message,
not the vehicle message. The same row with the header `ParentName`, for every
cache in which `ZZ` resolves to no bus, fails with `Invalid BusNumber: "ZZ"`,
the entry being the row followed by that reason. -/
theorem spec_example_unknown_bus_reason :
    (∀ (buses : List Bus) (env : Env),
      importRows buses env [sampleRowZZ] =
        fail ImportState.start sampleRowZZ validationMsg) ∧
    (fail ImportState.start sampleRowZZ validationMsg).failed = 1 ∧
    (fail ImportState.start sampleRowZZ validationMsg).success = 0 ∧
    (fail ImportState.start sampleRowZZ validationMsg).errors =
      [sampleRowZZ ++ [("Error", Cell.str validationMsg)]] ∧
    (∀ (buses : List Bus) (env : Env), findBus buses "ZZ" = none →
      importRows buses env [sampleRowZZParentName] =
        fail ImportState.start sampleRowZZParentName "Invalid BusNumber: \"ZZ\"") ∧
    (fail ImportState.start sampleRowZZParentName "Invalid BusNumber: \"ZZ\"").errors =
      [sampleRowZZParentName ++ [("Error", Cell.str "Invalid BusNumber: \"ZZ\"")]] := by
  refine ⟨?_, rfl, rfl, by decide, ?_, by decide⟩
  · intro buses env
    exact processRow_invalid buses env 0 ImportState.start sampleRowZZ (Or.inl (by decide))
  · intro buses env h
    show processRow buses env 0 ImportState.start sampleRowZZParentName = _
    rw [processRow_valid buses env 0 ImportState.start sampleRowZZParentName (by decide)]
    have hn : (normalise sampleRowZZParentName).busNumRaw = "ZZ" := by decide
    rw [hn, h]
    rfl

theorem spec_example_unknown_bus_reason_witness :
    importRows sampleBuses sampleEnv [sampleRowZZParentName] =
      fail ImportState.start sampleRowZZParentName "Invalid BusNumber: \"ZZ\"" :=
  spec_example_unknown_bus_reason.2.2.2.2.1 sampleBuses sampleEnv (by decide)

/-- C15 (documented column aliases). The header `Name` of the comment in line
516 is not read: a row whose guardian name stands under `Name` only has an
empty canonical guardian name and fails validation. For the other documented
headers (`StudentName`, `Student`, `ParentName`, `Phone`, `parentPhone`,
`Class`, `studentStd`, `BusNumber`, `BusStop`) a non-empty text under the
header gives the canonical field that text trimmed, provided the aliases read
before it are empty. -/
theorem documented_header_name_ignored :
    (normalise sampleRowName).parentName = "" ∧
    (∀ (buses : List Bus) (env : Env),
      importRows buses env [sampleRowName] =
        fail ImportState.start sampleRowName validationMsg) ∧
    (∀ (r : Row) (s : String), JsObj.get? r "Name" = some (Cell.str s) →
      isFalsy r "ParentName" = true → isFalsy r "parentName" = true →
      isFalsy r "parent" = true → isFalsy r "name" = true →
        (normalise r).parentName = "") ∧
    (∀ (r : Row) (s : String), s ≠ "" →
      (JsObj.get? r "StudentName" = some (Cell.str s) →
        (normalise r).studentName = jsTrim s) ∧
      (JsObj.get? r "Student" = some (Cell.str s) → isFalsy r "StudentName" = true →
        isFalsy r "studentName" = true → (normalise r).studentName = jsTrim s) ∧
      (JsObj.get? r "ParentName" = some (Cell.str s) →
        (normalise r).parentName = jsTrim s) ∧
      (JsObj.get? r "Phone" = some (Cell.str s) → (normalise r).phoneRaw = jsTrim s) ∧
      (JsObj.get? r "parentPhone" = some (Cell.str s) → isFalsy r "Phone" = true →
        isFalsy r "phone" = true → (normalise r).phoneRaw = jsTrim s) ∧
      (JsObj.get? r "Class" = some (Cell.str s) → (normalise r).cls = jsTrim s) ∧
      (JsObj.get? r "studentStd" = some (Cell.str s) → isFalsy r "Class" = true →
        (normalise r).cls = jsTrim s) ∧
      (JsObj.get? r "BusNumber" = some (Cell.str s) → (normalise r).busNumRaw = jsTrim s) ∧
      (JsObj.get? r "BusStop" = some (Cell.str s) → (normalise r).stopNameRaw = jsTrim s)) := by
  refine ⟨by decide, ?_, ?_, ?_⟩
  · intro buses env
    exact processRow_invalid buses env 0 ImportState.start sampleRowName (Or.inl (by decide))
  · intro r s _ h1 h2 h3 h4
    show jsTrim (firstTruthy r ["ParentName", "parentName", "parent", "name"]) = ""
    rw [firstTruthy_skip r _ _ h1, firstTruthy_skip r _ _ h2, firstTruthy_skip r _ _ h3,
      firstTruthy_skip r _ _ h4]
    rfl
  · intro r s hs
    refine ⟨?_, ?_, ?_, ?_, ?_, ?_, ?_, ?_, ?_⟩
    · intro h; simp only [normalise, firstTruthy_hit r _ _ s h hs]
    · intro h h1 h2
      simp only [normalise, firstTruthy_skip r _ _ h1, firstTruthy_skip r _ _ h2,
        firstTruthy_hit r _ _ s h hs]
    · intro h; simp only [normalise, firstTruthy_hit r _ _ s h hs]
    · intro h; simp only [normalise, firstTruthy_hit r _ _ s h hs]
    · intro h h1 h2
      simp only [normalise, firstTruthy_skip r _ _ h1, firstTruthy_skip r _ _ h2,
        firstTruthy_hit r _ _ s h hs]
    · intro h; simp only [normalise, firstTruthy_hit r _ _ s h hs]
    · intro h h1
      simp only [normalise, firstTruthy_skip r _ _ h1, firstTruthy_hit r _ _ s h hs]
    · intro h; simp only [normalise, firstTruthy_hit r _ _ s h hs]
    · intro h; simp only [normalise, firstTruthy_hit r _ _ s h hs]

theorem documented_header_name_ignored_witness :
    (normalise [("Student", Cell.str " A "), ("studentName", Cell.num 0)]).studentName =
      jsTrim " A " ∧
    (normalise [("Name", Cell.str "P")]).parentName = "" :=
  ⟨((documented_header_name_ignored.2.2.2
      [("Student", Cell.str " A "), ("studentName", Cell.num 0)] " A " (by decide)).2.1)
      (by decide) (by decide) (by decide),
   documented_header_name_ignored.2.2.1 [("Name", Cell.str "P")] "P" (by decide) (by decide)
      (by decide) (by decide) (by decide)⟩

theorem row_validation_witness :
    processRow sampleBuses sampleEnv 0 ImportState.start
        [("StudentName", Cell.str "A"), ("ParentName", Cell.str "P"),
          ("Phone", Cell.str "+91 12345")] =
      fail ImportState.start
        [("StudentName", Cell.str "A"), ("ParentName", Cell.str "P"),
          ("Phone", Cell.str "+91 12345")] validationMsg :=
  (row_validation sampleBuses sampleEnv 0 ImportState.start
    [("StudentName", Cell.str "A"), ("ParentName", Cell.str "P"),
      ("Phone", Cell.str "+91 12345")]).2.1.2 (Or.inr (Or.inr (by decide)))

theorem vehicle_resolution_witness :
    processRow sampleBuses sampleEnv 0 ImportState.start sampleRowParentName =
      stopStep sampleEnv 0 ImportState.start sampleRowParentName (normalise sampleRowParentName)
        (cleanPhone (normalise sampleRowParentName).phoneRaw)
        ⟨"bus1", "B1", "", "North", some [⟨"s1", "Gate", ⟨0, 0⟩, 1⟩]⟩ :=
  (vehicle_resolution sampleBuses sampleEnv 0 ImportState.start sampleRowParentName
    (by decide)).1 [] [] _ rfl (by decide) (by decide) (by simp)

theorem stop_resolution_witness :
    processRow sampleBuses sampleEnv 0 ImportState.start sampleRowParentName =
      commitRow sampleEnv 0 ImportState.start sampleRowParentName
        (normalise sampleRowParentName) (cleanPhone (normalise sampleRowParentName).phoneRaw)
        ⟨"bus1", "B1", "", "North", some [⟨"s1", "Gate", ⟨0, 0⟩, 1⟩]⟩
        ⟨"s1", "Gate", ⟨0, 0⟩, 1⟩ :=
  (stop_resolution sampleBuses sampleEnv 0 ImportState.start sampleRowParentName
    ⟨"bus1", "B1", "", "North", some [⟨"s1", "Gate", ⟨0, 0⟩, 1⟩]⟩ (by decide) (by decide)).1
    [⟨"s1", "Gate", ⟨0, 0⟩, 1⟩] [] [] _ rfl rfl (by decide) (by decide) (by simp)

theorem commit_payload_witness :
    (processRow sampleBuses sampleEnv 0 ImportState.start sampleRowParentName).authCalls =
      [("9876543210@traqerr.com", "Traqer@321")] ∧
    (processRow sampleBuses sampleEnv 0 ImportState.start sampleRowParentName).setDocCalls =
      [("u:9876543210@traqerr.com",
        { uid := "u:9876543210@traqerr.com", name := "P", phone := "9876543210",
          authEmail := "9876543210@traqerr.com", role := "parent", studentName := "A",
          studentStandard := "", assignedBus := "bus1", assignedBusNum := "B1",
          assignedRoute := "North", assignedStop := "Gate", assignedStopId := "s1" })] :=
  ⟨(commit_payload sampleBuses sampleEnv 0 ImportState.start sampleRowParentName
      ⟨"bus1", "B1", "", "North", some [⟨"s1", "Gate", ⟨0, 0⟩, 1⟩]⟩ ⟨"s1", "Gate", ⟨0, 0⟩, 1⟩
      (by decide) (by decide) (by decide)).1,
   (commit_payload sampleBuses sampleEnv 0 ImportState.start sampleRowParentName
      ⟨"bus1", "B1", "", "North", some [⟨"s1", "Gate", ⟨0, 0⟩, 1⟩]⟩ ⟨"s1", "Gate", ⟨0, 0⟩, 1⟩
      (by decide) (by decide) (by decide)).2.1 "u:9876543210@traqerr.com" rfl⟩

theorem failure_entry_replaces_error_column :
    (importRows sampleBuses sampleEnv [sampleRowWithError]).errors =
      [[("StudentName", Cell.str ""), ("ParentName", Cell.str "P"),
        ("Error", Cell.str validationMsg)]] ∧
    JsObj.get? sampleRowWithError "Error" = some (Cell.str "old") ∧
    ¬(∀ e ∈ (importRows sampleBuses sampleEnv [sampleRowWithError]).errors,
        ∀ (k : String) (v : Cell), JsObj.get? sampleRowWithError k = some v →
          JsObj.get? e k = some v) := by
  refine ⟨by decide, by decide, ?_⟩
  intro h
  have h1 := h [("StudentName", Cell.str ""), ("ParentName", Cell.str "P"),
    ("Error", Cell.str validationMsg)] (by decide) "Error" (Cell.str "old") (by decide)
  revert h1
  decide

theorem failure_set_and_report_witness :
    JsObj.get? (errorEntry sampleRowWithError "x") "ParentName" =
      JsObj.get? sampleRowWithError "ParentName" ∧
    errorEntry sampleRowZZ "x" = sampleRowZZ ++ [("Error", Cell.str "x")] ∧
    finish (importRows sampleBuses sampleEnv [sampleRowParentName]) =
      Report.successToast
        (toString (importRows sampleBuses sampleEnv [sampleRowParentName]).success ++
          " parents added successfully") ∧
    ∃ header, finish (importRows sampleBuses sampleEnv [sampleRowZZ]) =
      Report.errorReport header (importRows sampleBuses sampleEnv [sampleRowZZ]).errors :=
  ⟨((failure_set_and_report sampleBuses sampleEnv []).2.2.1 sampleRowWithError "x").2.1
      "ParentName" (by decide),
   ((failure_set_and_report sampleBuses sampleEnv []).2.2.1 sampleRowZZ "x").2.2 (by decide),
   (failure_set_and_report sampleBuses sampleEnv [sampleRowParentName]).2.2.2.2 (by decide),
   (failure_set_and_report sampleBuses sampleEnv [sampleRowZZ]).2.2.2.1.2 (by decide)⟩

theorem vehicle_match_trims_stored_number :
    (∀ b ∈ paddedNumberBuses,
      ¬eqIgnoreCase b.displayNumber (normalise sampleRowParentName).busNumRaw) ∧
    (∀ b ∈ paddedNumberBuses, b.id ≠ (normalise sampleRowParentName).busNumRaw) ∧
    findBus paddedNumberBuses (normalise sampleRowParentName).busNumRaw =
      some ⟨"bus1", " B1 ", "", "North", some [⟨"s1", "Gate", ⟨0, 0⟩, 1⟩]⟩ ∧
    (importRows paddedNumberBuses sampleEnv [sampleRowParentName]).success = 1 ∧
    (importRows paddedNumberBuses sampleEnv [sampleRowParentName]).failed = 0 := by
  refine ⟨by decide, by decide, by decide, by decide, by decide⟩

theorem stop_match_trims_stored_name :
    findBus paddedStopBuses (normalise sampleRowParentName).busNumRaw =
      some ⟨"bus1", "B1", "", "North", some [⟨"s1", " Gate ", ⟨0, 0⟩, 1⟩]⟩ ∧
    (∀ s ∈ [(⟨"s1", " Gate ", ⟨0, 0⟩, 1⟩ : Stop)],
      ¬eqIgnoreCase s.name (normalise sampleRowParentName).stopNameRaw) ∧
    (importRows paddedStopBuses sampleEnv [sampleRowParentName]).success = 1 ∧
    (importRows paddedStopBuses sampleEnv [sampleRowParentName]).failed = 0 ∧
    (importRows paddedStopBuses sampleEnv [sampleRowParentName]).setDocCalls.map
      (fun w => w.2.assignedStopId) = ["s1"] := by
  refine ⟨by decide, by decide, by decide, by decide, by decide⟩

/-! ## Bulk import: calls and delays -/

theorem rowDelta_commit (buses : List Bus) (env : Env) (i : Nat) (r : Row)
    (h : reachesCommit buses r = true) :
    ∃ bus stop, rowDelta buses env i r =
      commitRow env i ImportState.start r (normalise r) (cleanPhone (normalise r).phoneRaw)
        bus stop := by
  unfold reachesCommit at h
  split at h
  · exact absurd h (by simp)
  · rename_i hvalid
    cases hb : findBus buses (normalise r).busNumRaw with
    | none => rw [hb] at h; exact absurd h (by simp)
    | some bus =>
      rw [hb] at h
      simp only at h
      cases hs : findStop bus (normalise r).stopNameRaw with
      | none => rw [hs] at h; exact absurd h (by simp)
      | some stop =>
        refine ⟨bus, stop, ?_⟩
        unfold rowDelta
        rw [processRow_bus buses env i _ r bus hvalid hb]
        unfold stopStep
        rw [hs]

theorem rowDelta_nocommit (buses : List Bus) (env : Env) (i : Nat) (r : Row)
    (h : reachesCommit buses r = false) :
    ∃ msg, rowDelta buses env i r = fail ImportState.start r msg := by
  unfold reachesCommit at h
  split at h
  · rename_i hinv
    exact ⟨_, processRow_invalid buses env i _ r hinv⟩
  · rename_i hvalid
    cases hb : findBus buses (normalise r).busNumRaw with
    | none =>
      refine ⟨"Invalid BusNumber: \"" ++ (normalise r).busNumRaw ++ "\"", ?_⟩
      unfold rowDelta
      rw [processRow_valid buses env i _ r hvalid, hb]
    | some bus =>
      rw [hb] at h
      simp only at h
      cases hs : findStop bus (normalise r).stopNameRaw with
      | some stop => rw [hs] at h; exact absurd h (by simp)
      | none =>
        unfold rowDelta
        rw [processRow_bus buses env i _ r bus hvalid hb]
        unfold stopStep
        rw [hs]
        simp only
        split
        · exact ⟨_, rfl⟩
        · exact ⟨_, rfl⟩

theorem commitRow_authCalls (env : Env) (i : Nat) (st : ImportState) (r : Row) (n : Normalised)
    (phone : String) (bus : Bus) (stop : Stop) :
    (commitRow env i st r n phone bus stop).authCalls =
      st.authCalls ++ [(phone ++ "@" ++ SYNTH_DOMAIN, "Traqer@321")] := by
  unfold commitRow
  simp only
  split
  · rfl
  · split <;> rfl

theorem commitRow_setDoc (env : Env) (i : Nat) (r : Row) (n : Normalised)
    (phone : String) (bus : Bus) (stop : Stop)
    (h : (commitRow env i ImportState.start r n phone bus stop).setDocCalls ≠ []) :
    ∃ u, env.createUser i (phone ++ "@" ++ SYNTH_DOMAIN) "Traqer@321" = .ok u ∧
      (commitRow env i ImportState.start r n phone bus stop).setDocCalls =
        [(u, parentDoc n phone (phone ++ "@" ++ SYNTH_DOMAIN) u bus stop)] := by
  cases hc : env.createUser i (phone ++ "@" ++ SYNTH_DOMAIN) "Traqer@321" with
  | error e =>
    exfalso
    apply h
    simp only [commitRow, hc]
    rfl
  | ok u =>
    refine ⟨u, rfl, ?_⟩
    simp only [commitRow, hc]
    split <;> rfl

theorem commitRow_success (env : Env) (i : Nat) (r : Row) (n : Normalised)
    (phone : String) (bus : Bus) (stop : Stop)
    (h : (commitRow env i ImportState.start r n phone bus stop).success = 1) :
    ∃ u, env.createUser i (phone ++ "@" ++ SYNTH_DOMAIN) "Traqer@321" = .ok u ∧
      env.setDoc i u (parentDoc n phone (phone ++ "@" ++ SYNTH_DOMAIN) u bus stop) = .ok () := by
  cases hc : env.createUser i (phone ++ "@" ++ SYNTH_DOMAIN) "Traqer@321" with
  | error e =>
    simp only [commitRow, hc] at h
    simp [fail, ImportState.start] at h
  | ok u =>
    refine ⟨u, rfl, ?_⟩
    cases hs : env.setDoc i u (parentDoc n phone (phone ++ "@" ++ SYNTH_DOMAIN) u bus stop) with
    | ok _ => rfl
    | error e =>
      simp only [commitRow, hc, hs] at h
      simp [fail, ImportState.start] at h

theorem rowDelta_authCalls (buses : List Bus) (env : Env) (i : Nat) (r : Row) :
    (rowDelta buses env i r).authCalls =
      if reachesCommit buses r = true then
        [(cleanPhone (normalise r).phoneRaw ++ "@" ++ SYNTH_DOMAIN, "Traqer@321")]
      else [] := by
  cases h : reachesCommit buses r with
  | true =>
    obtain ⟨bus, stop, hd⟩ := rowDelta_commit buses env i r h
    rw [hd, commitRow_authCalls]
    rfl
  | false =>
    obtain ⟨msg, hd⟩ := rowDelta_nocommit buses env i r h
    rw [hd]
    rfl

theorem rowDelta_sleeps (buses : List Bus) (env : Env) (i : Nat) (r : Row) :
    (rowDelta buses env i r).sleeps = if reachesCommit buses r = true then [120] else [] := by
  cases h : reachesCommit buses r with
  | true =>
    obtain ⟨bus, stop, hd⟩ := rowDelta_commit buses env i r h
    rw [hd, commitRow_sleeps]
    rfl
  | false =>
    obtain ⟨msg, hd⟩ := rowDelta_nocommit buses env i r h
    rw [hd]
    rfl

theorem processRows_calls (buses : List Bus) (env : Env) (i : Nat) (rows : List Row) :
    (processRows buses env i ImportState.start rows).authCalls.length =
        (rows.filter (reachesCommit buses)).length ∧
    (processRows buses env i ImportState.start rows).sleeps =
        List.replicate (rows.filter (reachesCommit buses)).length 120 := by
  induction rows generalizing i with
  | nil => exact ⟨rfl, rfl⟩
  | cons r rs ih =>
    simp only [processRows]
    rw [processRows_add]
    obtain ⟨h1, h2⟩ := ih (i + 1)
    have ha := rowDelta_authCalls buses env i r
    have hs := rowDelta_sleeps buses env i r
    simp only [rowDelta] at ha hs
    simp only [ImportState.add, List.length_append, h1, h2, ha, hs]
    cases h : reachesCommit buses r with
    | true => simp [List.filter_cons, h, List.replicate_succ]; omega
    | false => simp [List.filter_cons, h]

theorem processRows_setDocCalls_le (buses : List Bus) (env : Env) (i : Nat) (rows : List Row) :
    (processRows buses env i ImportState.start rows).setDocCalls.length ≤
      (processRows buses env i ImportState.start rows).authCalls.length := by
  induction rows generalizing i with
  | nil => exact Nat.le_refl _
  | cons r rs ih =>
    simp only [processRows]
    rw [processRows_add]
    have h1 := ih (i + 1)
    simp only [ImportState.add, List.length_append]
    have hr : (processRow buses env i ImportState.start r).setDocCalls.length ≤
        (processRow buses env i ImportState.start r).authCalls.length := by
      cases h : reachesCommit buses r with
      | true =>
        obtain ⟨bus, stop, hd⟩ := rowDelta_commit buses env i r h
        simp only [rowDelta] at hd
        rw [hd, commitRow_authCalls]
        unfold commitRow
        simp only
        split
        · simp [fail, ImportState.start]
        · split <;> simp [fail, ImportState.start]
      | false =>
        obtain ⟨msg, hd⟩ := rowDelta_nocommit buses env i r h
        simp only [rowDelta] at hd
        rw [hd]
        simp [fail, ImportState.start]
    omega

/-- C21 (as amended): the fixed 120 ms delay is applied once after each row
that reached the commit step (identity provisioning was attempted), whether
that attempt succeeded or failed, and not at all after a row that failed
validation, vehicle resolution or stop resolution: the delays of a run are
one `120` per committing row, as many as the identity calls and at most the
number of rows. -/
theorem throttle_delay (buses : List Bus) (env : Env) (rows : List Row) :
    (importRows buses env rows).sleeps =
      List.replicate (rows.filter (reachesCommit buses)).length 120 ∧
    (importRows buses env rows).sleeps.length = (importRows buses env rows).authCalls.length ∧
    (importRows buses env rows).sleeps.length ≤ rows.length ∧
    (∀ (i : Nat) (r : Row), reachesCommit buses r = true →
      (rowDelta buses env i r).sleeps = [120]) ∧
    (∀ (i : Nat) (r : Row), reachesCommit buses r = false →
      (rowDelta buses env i r).sleeps = [] ∧ (rowDelta buses env i r).failed = 1 ∧
      (rowDelta buses env i r).authCalls = []) := by
  obtain ⟨h1, h2⟩ := processRows_calls buses env 0 rows
  refine ⟨h2, ?_, ?_, ?_, ?_⟩
  · unfold importRows
    rw [h1, h2, List.length_replicate]
  · unfold importRows
    rw [h2, List.length_replicate]
    exact List.length_filter_le _ _
  · intro i r h
    rw [rowDelta_sleeps, h]
    rfl
  · intro i r h
    obtain ⟨msg, hd⟩ := rowDelta_nocommit buses env i r h
    rw [hd]
    exact ⟨rfl, rfl, rfl⟩

theorem validation_failure_skips_delay :
    (importRows sampleBuses sampleEnv [sampleRowParent, sampleRowZZParentName]).failed = 2 ∧
    (importRows sampleBuses sampleEnv [sampleRowParent, sampleRowZZParentName]).sleeps = [] ∧
    [sampleRowParent, sampleRowZZParentName].length = 2 := by
  refine ⟨by decide, by decide, rfl⟩

theorem throttle_delay_witness :
    (rowDelta sampleBuses sampleEnv 0 sampleRowParentName).sleeps = [120] ∧
    (rowDelta sampleBuses sampleEnv 0 sampleRowZZParentName).sleeps = [] :=
  ⟨(throttle_delay sampleBuses sampleEnv []).2.2.2.1 0 sampleRowParentName (by decide),
   ((throttle_delay sampleBuses sampleEnv []).2.2.2.2 0 sampleRowZZParentName (by decide)).1⟩

/-- C26: identity provisioning is attempted exactly once for each row that
passed validation, vehicle resolution and stop resolution and never for any
other row; a Guardian write happens only after a successful identity creation
of the same row, for the uid it returned; and a row counts as a success only
if both calls of that row succeeded. -/
theorem identity_attempts (buses : List Bus) (env : Env) (rows : List Row) :
    (importRows buses env rows).authCalls.length = (rows.filter (reachesCommit buses)).length ∧
    (importRows buses env rows).setDocCalls.length ≤
      (importRows buses env rows).authCalls.length ∧
    (∀ (i : Nat) (r : Row),
      (rowDelta buses env i r).authCalls =
        if reachesCommit buses r = true then
          [(cleanPhone (normalise r).phoneRaw ++ "@" ++ SYNTH_DOMAIN, "Traqer@321")]
        else []) ∧
    (∀ (i : Nat) (r : Row), (rowDelta buses env i r).setDocCalls ≠ [] →
      reachesCommit buses r = true ∧
      ∃ u doc,
        env.createUser i (cleanPhone (normalise r).phoneRaw ++ "@" ++ SYNTH_DOMAIN)
          "Traqer@321" = .ok u ∧
        (rowDelta buses env i r).setDocCalls = [(u, doc)]) ∧
    (∀ (i : Nat) (r : Row), (rowDelta buses env i r).success = 1 →
      reachesCommit buses r = true ∧
      ∃ u doc,
        env.createUser i (cleanPhone (normalise r).phoneRaw ++ "@" ++ SYNTH_DOMAIN)
          "Traqer@321" = .ok u ∧
        env.setDoc i u doc = .ok () ∧
        (rowDelta buses env i r).setDocCalls = [(u, doc)]) := by
  refine ⟨(processRows_calls buses env 0 rows).1, processRows_setDocCalls_le buses env 0 rows,
    rowDelta_authCalls buses env, ?_, ?_⟩
  · intro i r h
    cases hc : reachesCommit buses r with
    | false =>
      obtain ⟨msg, hd⟩ := rowDelta_nocommit buses env i r hc
      rw [hd] at h
      exact absurd rfl h
    | true =>
      obtain ⟨bus, stop, hd⟩ := rowDelta_commit buses env i r hc
      rw [hd] at h ⊢
      obtain ⟨u, hu, hset⟩ := commitRow_setDoc env i r _ _ bus stop h
      exact ⟨rfl, u, _, hu, hset⟩
  · intro i r h
    cases hc : reachesCommit buses r with
    | false =>
      obtain ⟨msg, hd⟩ := rowDelta_nocommit buses env i r hc
      rw [hd] at h
      simp [fail, ImportState.start] at h
    | true =>
      obtain ⟨bus, stop, hd⟩ := rowDelta_commit buses env i r hc
      rw [hd] at h ⊢
      obtain ⟨u, hu, hset⟩ := commitRow_success env i r _ _ bus stop h
      refine ⟨rfl, u, _, hu, hset, ?_⟩
      simp only [commitRow, hu, hset]
      rfl

theorem identity_attempts_witness :
    (rowDelta sampleBuses sampleEnv 0 sampleRowParentName).success = 1 ∧
    reachesCommit sampleBuses sampleRowParentName = true ∧
    ∃ u doc,
      sampleEnv.createUser 0
        (cleanPhone (normalise sampleRowParentName).phoneRaw ++ "@" ++ SYNTH_DOMAIN)
        "Traqer@321" = .ok u ∧
      sampleEnv.setDoc 0 u doc = .ok () ∧
      (rowDelta sampleBuses sampleEnv 0 sampleRowParentName).setDocCalls = [(u, doc)] :=
  ⟨by decide,
   (identity_attempts sampleBuses sampleEnv []).2.2.2.2 0 sampleRowParentName (by decide)⟩

/-! ## Reference table -/

theorem referenceRows_append (pre post : List Bus) :
    referenceRows (pre ++ post) = referenceRows pre ++ referenceRows post := by
  induction pre with
  | nil => rfl
  | cons b bs ih =>
    show busRows b ++ referenceRows (bs ++ post) = (busRows b ++ referenceRows bs) ++ _
    rw [ih, List.append_assoc]

theorem busRows_length (b : Bus) : (busRows b).length = max 1 (b.stops.getD []).length := by
  unfold busRows
  simp only
  split
  · rename_i h
    rw [List.length_map]
    omega
  · rename_i h
    simp only [List.length_singleton]
    omega

theorem busRows_ne_nil (b : Bus) : busRows b ≠ [] := by
  intro h
  have := busRows_length b
  rw [h] at this
  simp only [List.length_nil] at this
  omega

theorem busRows_busDocId (b : Bus) (row : RefRow) (h : row ∈ busRows b) :
    row.BusDocId = b.id ∧ row.BusNumber = b.busNumber ∧ row.RouteName = b.routeName := by
  unfold busRows at h
  simp only at h
  split at h
  · rw [List.mem_map] at h
    obtain ⟨s, _, hs⟩ := h
    subst hs
    exact ⟨rfl, rfl, rfl⟩
  · rw [List.mem_singleton] at h
    subst h
    exact ⟨rfl, rfl, rfl⟩

theorem mem_referenceRows (buses : List Bus) (row : RefRow) :
    row ∈ referenceRows buses ↔ ∃ b ∈ buses, row ∈ busRows b := by
  induction buses with
  | nil => simp [referenceRows]
  | cons b bs ih => simp [referenceRows, ih]

theorem referenceRows_length (buses : List Bus) :
    (referenceRows buses).length =
      (buses.map (fun b => max 1 (b.stops.getD []).length)).sum := by
  induction buses with
  | nil => rfl
  | cons b bs ih =>
    simp only [referenceRows, List.length_append, busRows_length, ih, List.map_cons,
      List.sum_cons]

/-- C22: the reference table is the concatenation, vehicle by vehicle in
cache order, of one row (vehicle id, vehicle number, route, stop id, stop
name) per stop in stored order, or of a single row with empty stop fields for
a vehicle without stops; its length is the sum over vehicles of
`max 1 (number of stops)` and every cached vehicle occurs in some row. -/
theorem reference_table (buses : List Bus) :
    (∀ (pre post : List Bus) (b : Bus), buses = pre ++ b :: post →
      referenceRows buses = referenceRows pre ++ busRows b ++ referenceRows post) ∧
    (∀ b : Bus, (b.stops.getD []) ≠ [] →
      busRows b = (b.stops.getD []).map
        (fun s => (⟨b.id, b.busNumber, b.routeName, s.id, s.name⟩ : RefRow))) ∧
    (∀ b : Bus, (b.stops.getD []) = [] →
      busRows b = [⟨b.id, b.busNumber, b.routeName, "", ""⟩]) ∧
    (referenceRows buses).length =
      (buses.map (fun b => max 1 (b.stops.getD []).length)).sum ∧
    (∀ b ∈ buses, ∃ row ∈ referenceRows buses, row.BusDocId = b.id) := by
  refine ⟨?_, ?_, ?_, referenceRows_length buses, ?_⟩
  · intro pre post b h
    rw [h, referenceRows_append, referenceRows, List.append_assoc]
  · intro b h
    have hl : (b.stops.getD []).length ≠ 0 := by
      intro h0
      exact h (List.length_eq_zero.1 h0)
    simp only [busRows, hl, ne_eq, not_false_eq_true, if_true]
  · intro b h
    simp only [busRows, h, List.length_nil, ne_eq, not_true_eq_false, if_false]
  · intro b hb
    cases hr : busRows b with
    | nil => exact absurd hr (busRows_ne_nil b)
    | cons row rest =>
      have hmem : row ∈ busRows b := by rw [hr]; exact List.mem_cons_self _ _
      exact ⟨row, (mem_referenceRows buses row).2 ⟨b, hb, hmem⟩, (busRows_busDocId b row hmem).1⟩

theorem reference_table_witness :
    referenceRows (sampleBuses ++ [⟨"bus2", "B2", "", "South", none⟩]) =
      [⟨"bus1", "B1", "North", "s1", "Gate"⟩, ⟨"bus2", "B2", "South", "", ""⟩] ∧
    busRows ⟨"bus2", "B2", "", "South", some []⟩ = [⟨"bus2", "B2", "South", "", ""⟩] ∧
    ∃ row ∈ referenceRows sampleBuses, row.BusDocId = "bus1" :=
  ⟨by decide,
   (reference_table []).2.2.1 ⟨"bus2", "B2", "", "South", some []⟩ rfl,
   (reference_table sampleBuses).2.2.2.2 ⟨"bus1", "B1", "", "North",
      some [⟨"s1", "Gate", ⟨0, 0⟩, 1⟩]⟩ (by decide)⟩

theorem matchKey_jsTrim (s : String) : matchKey (jsTrim s) = matchKey s := by
  unfold matchKey
  rw [jsTrim_idem]

theorem jsTrim_empty : jsTrim "" = "" := by decide

theorem ne_empty_of_jsTrim_ne (s : String) (h : jsTrim s ≠ "") : s ≠ "" := by
  intro h0
  rw [h0] at h
  exact h jsTrim_empty

theorem busRows_stop (b : Bus) (row : RefRow) (h : row ∈ busRows b) (hn : row.StopName ≠ "") :
    ∃ stops s, b.stops = some stops ∧ s ∈ stops ∧ row.StopId = s.id ∧ row.StopName = s.name := by
  unfold busRows at h
  simp only at h
  split at h
  · rw [List.mem_map] at h
    obtain ⟨s, hs, hrow⟩ := h
    subst hrow
    cases hst : b.stops with
    | none => rw [hst] at hs; simp at hs
    | some stops =>
      rw [hst] at hs
      exact ⟨stops, s, rfl, hs, rfl, rfl⟩
  · rw [List.mem_singleton] at h
    subst h
    exact absurd rfl hn

/-- C30: reference table round trip. When display numbers are pairwise
distinct up to case and surrounding whitespace, and stop names likewise within
each vehicle, a reference row with non-blank `BusNumber` and `StopName`
resolves, through `findBus` and `findStop` of the bulk import, to the vehicle
whose id is the row's `BusDocId` and to the stop whose id is its `StopId`;
this holds for every import record that carries these two cells. -/
theorem reference_round_trip (buses : List Bus) (row : RefRow)
    (hb : buses.Pairwise (fun a b => matchKey a.displayNumber ≠ matchKey b.displayNumber))
    (hs : ∀ b ∈ buses, ∀ stops, b.stops = some stops →
      stops.Pairwise (fun s t => matchKey s.name ≠ matchKey t.name))
    (hrow : row ∈ referenceRows buses)
    (hnum : jsTrim row.BusNumber ≠ "") (hname : jsTrim row.StopName ≠ "") :
    ∃ (b : Bus) (s : Stop), b ∈ buses ∧ b.id = row.BusDocId ∧ s.id = row.StopId ∧
      findBus buses (jsTrim row.BusNumber) = some b ∧
      findStop b (jsTrim row.StopName) = some s ∧
      ∀ r : Row, JsObj.get? r "BusNumber" = some (Cell.str row.BusNumber) →
        JsObj.get? r "BusStop" = some (Cell.str row.StopName) →
        findBus buses (normalise r).busNumRaw = some b ∧
        findStop b (normalise r).stopNameRaw = some s := by
  obtain ⟨b, hbmem, hrb⟩ := (mem_referenceRows buses row).1 hrow
  obtain ⟨hid, hnumeq, _⟩ := busRows_busDocId b row hrb
  have hnum0 := ne_empty_of_jsTrim_ne _ hnum
  have hname0 := ne_empty_of_jsTrim_ne _ hname
  obtain ⟨stops, s, hst, hsmem, hsid, hsname⟩ := busRows_stop b row hrb hname0
  obtain ⟨pre, post, hsplit⟩ := List.append_of_mem hbmem
  have hdisp : b.displayNumber = row.BusNumber := by
    unfold Bus.displayNumber
    rw [hnumeq] at hnum0
    simp only [hnum0, ne_eq, not_false_eq_true, if_true]
    exact hnumeq.symm
  have hpw := hb
  rw [hsplit, List.pairwise_append] at hpw
  have hfb : findBus buses (jsTrim row.BusNumber) = some b := by
    apply findBus_display buses pre post b _ hsplit hnum
    · rw [matchKey_jsTrim, hdisp]
    · intro x hx
      rw [matchKey_jsTrim, ← hdisp]
      exact hpw.2.2 x hx b (List.mem_cons_self _ _)
  obtain ⟨spre, spost, hssplit⟩ := List.append_of_mem hsmem
  have hspw := hs b hbmem stops hst
  rw [hssplit, List.pairwise_append] at hspw
  have hfs : findStop b (jsTrim row.StopName) = some s := by
    apply findStop_first b stops spre spost s _ hst hssplit hname
    · rw [matchKey_jsTrim, hsname]
    · intro x hx
      rw [matchKey_jsTrim, hsname]
      exact hspw.2.2 x hx s (List.mem_cons_self _ _)
  refine ⟨b, s, hbmem, hid.symm, hsid.symm, hfb, hfs, ?_⟩
  intro r h1 h2
  have hn1 : (normalise r).busNumRaw = jsTrim row.BusNumber := by
    simp only [normalise, firstTruthy_hit r _ _ _ h1 hnum0]
  have hn2 : (normalise r).stopNameRaw = jsTrim row.StopName := by
    simp only [normalise, firstTruthy_hit r _ _ _ h2 hname0]
  rw [hn1, hn2]
  exact ⟨hfb, hfs⟩

theorem reference_round_trip_witness :
    ∃ (b : Bus) (s : Stop), b ∈ sampleBuses ∧ b.id = "bus1" ∧ s.id = "s1" ∧
      findBus sampleBuses (jsTrim "B1") = some b ∧
      findStop b (jsTrim "Gate") = some s ∧
      ∀ r : Row, JsObj.get? r "BusNumber" = some (Cell.str "B1") →
        JsObj.get? r "BusStop" = some (Cell.str "Gate") →
        findBus sampleBuses (normalise r).busNumRaw = some b ∧
        findStop b (normalise r).stopNameRaw = some s :=
  reference_round_trip sampleBuses ⟨"bus1", "B1", "North", "s1", "Gate"⟩
    (by simp [sampleBuses]) (by
      intro b hb stops hst
      simp only [sampleBuses, List.mem_singleton] at hb
      subst hb
      simp only [Option.some.injEq] at hst
      subst hst
      simp) (by decide) (by decide) (by decide)

/-! ## Driver assignment -/

theorem enforceOne_cases (selected busId name phone : String) (b : BusRec) :
    (b.id = busId ∧ (enforceOne selected busId name phone b).driverId = selected ∧
      (enforceOne selected busId name phone b).id = b.id) ∨
    (b.id ≠ busId ∧ b.driverId = selected ∧
      (enforceOne selected busId name phone b).driverId = "" ∧
      (enforceOne selected busId name phone b).id = b.id) ∨
    (b.id ≠ busId ∧ b.driverId ≠ selected ∧ enforceOne selected busId name phone b = b) := by
  unfold enforceOne
  by_cases h1 : b.id = busId
  · left
    simp [h1]
  · by_cases h2 : b.driverId = selected
    · right; left
      simp [h1, h2]
    · right; right
      simp [h1, h2]

theorem updateDriver_ok (f f' : Fleet) (selected name phone busId : String)
    (h : updateDriver f selected name phone busId = .ok f') :
    f'.buses = enforceBatch f.buses selected busId name phone ∧
    f'.drivers = f.drivers.map (fun d =>
      if d.id = selected then { d with name := name, phone := phone, assignedBus := busId }
      else d) := by
  unfold updateDriver at h
  split at h
  · simp only [Except.ok.injEq] at h
    subst h
    exact ⟨rfl, rfl⟩
  · simp at h

theorem enforceBatch_getElem? (buses : List BusRec) (selected busId name phone : String)
    (j : Nat) :
    (enforceBatch buses selected busId name phone)[j]? =
      buses[j]?.map (enforceOne selected busId name phone) := by
  simp [enforceBatch]

/-- C23: after the driver-update mutation for operator `selected` and vehicle
`busId` commits, every vehicle with id `busId` references `selected`, no
other vehicle references `selected` (none at all when no vehicle is
selected), the set of vehicles is unchanged, and a vehicle that neither is
`busId` nor referenced `selected` is left exactly as it was. -/
theorem reassignment_clears_stale (f f' : Fleet) (selected name phone busId : String)
    (hsel : selected ≠ "")
    (h : updateDriver f selected name phone busId = .ok f') :
    (∀ b ∈ f'.buses, b.id = busId → b.driverId = selected) ∧
    (∀ b ∈ f'.buses, b.id ≠ busId → b.driverId ≠ selected) ∧
    (busId = "" → (∀ b ∈ f.buses, b.id ≠ "") → ∀ b ∈ f'.buses, b.driverId ≠ selected) ∧
    f'.buses.map (fun b => b.id) = f.buses.map (fun b => b.id) ∧
    ((∃ b ∈ f.buses, b.id = busId) → ∃ b ∈ f'.buses, b.id = busId ∧ b.driverId = selected) ∧
    (∀ (j : Nat) (b : BusRec), f.buses[j]? = some b → b.id ≠ busId → b.driverId ≠ selected →
      f'.buses[j]? = some b) := by
  obtain ⟨hb, _⟩ := updateDriver_ok f f' selected name phone busId h
  have hmem : ∀ b' ∈ f'.buses, ∃ b ∈ f.buses, enforceOne selected busId name phone b = b' := by
    intro b' hb'
    rw [hb] at hb'
    exact List.mem_map.1 hb'
  have h2 : ∀ b ∈ f'.buses, b.id ≠ busId → b.driverId ≠ selected := by
    intro b' hb' hid
    obtain ⟨b, _, hg⟩ := hmem b' hb'
    subst hg
    rcases enforceOne_cases selected busId name phone b with ⟨a1, _, a3⟩ | ⟨_, _, a3, _⟩ | ⟨_, a2, a3⟩
    · rw [a3] at hid; exact absurd a1 hid
    · rw [a3]; exact fun h0 => hsel h0.symm
    · rw [a3]; exact a2
  refine ⟨?_, h2, ?_, ?_, ?_, ?_⟩
  · intro b' hb' hid
    obtain ⟨b, _, hg⟩ := hmem b' hb'
    subst hg
    rcases enforceOne_cases selected busId name phone b with ⟨_, a2, _⟩ | ⟨a1, _, _, a4⟩ | ⟨a1, _, a3⟩
    · exact a2
    · rw [a4] at hid; exact absurd hid a1
    · rw [a3] at hid; exact absurd hid a1
  · intro h0 hids b' hb'
    apply h2 b' hb'
    obtain ⟨b, hbm, hg⟩ := hmem b' hb'
    subst hg
    have hidb : (enforceOne selected busId name phone b).id = b.id := by
      rcases enforceOne_cases selected busId name phone b with ⟨_, _, a⟩ | ⟨_, _, _, a⟩ | ⟨_, _, a⟩
      · exact a
      · exact a
      · rw [a]
    rw [hidb, h0]
    exact hids b hbm
  · rw [hb]
    simp only [enforceBatch, List.map_map]
    apply List.map_congr_left
    intro b _
    rcases enforceOne_cases selected busId name phone b with ⟨_, _, a⟩ | ⟨_, _, _, a⟩ | ⟨_, _, a⟩
    · exact a
    · exact a
    · simp [a]
  · rintro ⟨b, hbm, hid⟩
    refine ⟨enforceOne selected busId name phone b, ?_, ?_, ?_⟩
    · rw [hb]; exact List.mem_map.2 ⟨b, hbm, rfl⟩
    · rcases enforceOne_cases selected busId name phone b with ⟨_, _, a⟩ | ⟨a1, _⟩ | ⟨a1, _⟩
      · rw [a]; exact hid
      · exact absurd hid a1
      · exact absurd hid a1
    · rcases enforceOne_cases selected busId name phone b with ⟨_, a, _⟩ | ⟨a1, _⟩ | ⟨a1, _⟩
      · exact a
      · exact absurd hid a1
      · exact absurd hid a1
  · intro j b hj hid hdr
    rw [hb, enforceBatch_getElem?, hj]
    rcases enforceOne_cases selected busId name phone b with ⟨a1, _⟩ | ⟨_, a2, _⟩ | ⟨_, _, a3⟩
    · exact absurd a1 hid
    · exact absurd a2 hdr
    · simp [a3]

theorem reassignment_clears_stale_witness :
    (∀ b ∈ [(⟨"V", "X", "Xi", "9000000002"⟩ : BusRec), ⟨"W", "", "", ""⟩],
      b.id = "V" → b.driverId = "X") ∧
    (∀ b ∈ [(⟨"V", "X", "Xi", "9000000002"⟩ : BusRec), ⟨"W", "", "", ""⟩],
      b.id ≠ "V" → b.driverId ≠ "X") :=
  ⟨(reassignment_clears_stale sampleFleet
      ⟨[⟨"V", "X", "Xi", "9000000002"⟩, ⟨"W", "", "", ""⟩],
        [⟨"Y", "Yan", "9000000001", "V"⟩, ⟨"X", "Xi", "9000000002", "V"⟩]⟩
      "X" "Xi" "9000000002" "V" (by decide) rfl).1,
   (reassignment_clears_stale sampleFleet
      ⟨[⟨"V", "X", "Xi", "9000000002"⟩, ⟨"W", "", "", ""⟩],
        [⟨"Y", "Yan", "9000000001", "V"⟩, ⟨"X", "Xi", "9000000002", "V"⟩]⟩
      "X" "Xi" "9000000002" "V" (by decide) rfl).2.1⟩

theorem enforceBatch_preserves (buses : List BusRec) (selected busId name phone : String)
    (hsel : selected ≠ "") (hinv : OneVehiclePerOperator buses) :
    OneVehiclePerOperator (enforceBatch buses selected busId name phone) := by
  intro a' ha' b' hb' hne heq
  obtain ⟨a, ha, hga⟩ := List.mem_map.1 ha'
  obtain ⟨b, hb, hgb⟩ := List.mem_map.1 hb'
  subst hga
  subst hgb
  rcases enforceOne_cases selected busId name phone a with
    ⟨a1, a2, a3⟩ | ⟨_, _, a3, _⟩ | ⟨a1, a2, a3⟩
  · rcases enforceOne_cases selected busId name phone b with
      ⟨b1, _, b3⟩ | ⟨_, _, b3, _⟩ | ⟨_, b2, b3⟩
    · rw [a3, b3, a1, b1]
    · rw [a2, b3] at heq; exact absurd heq hsel
    · rw [a2, b3] at heq; exact absurd heq.symm b2
  · exact absurd a3 hne
  · rw [a3] at hne heq ⊢
    rcases enforceOne_cases selected busId name phone b with
      ⟨_, b2, _⟩ | ⟨_, _, b3, _⟩ | ⟨_, _, b3⟩
    · rw [b2] at heq; exact absurd heq a2
    · rw [b3] at heq; exact absurd heq hne
    · rw [b3] at heq ⊢
      exact hinv a ha b hb hne heq

theorem createDriver_buses_preserves (f : Fleet) (uid name phone busId : String)
    (hfresh : ∀ b ∈ f.buses, b.driverId ≠ uid) (hinv : OneVehiclePerOperator f.buses) :
    OneVehiclePerOperator (createDriver f uid name phone busId).buses := by
  unfold createDriver
  simp only
  split
  · intro a' ha' b' hb' hne heq
    obtain ⟨a, ha, hga⟩ := List.mem_map.1 ha'
    obtain ⟨b, hb, hgb⟩ := List.mem_map.1 hb'
    subst hga
    subst hgb
    by_cases h1 : a.id = busId
    · by_cases h2 : b.id = busId
      · simp [h1, h2]
      · simp only [h1, h2, if_true, if_false] at heq
        exact absurd heq.symm (hfresh b hb)
    · by_cases h2 : b.id = busId
      · simp only [h1, h2, if_true, if_false] at heq
        exact absurd heq (hfresh a ha)
      · simp only [h1, h2, if_false] at hne heq ⊢
        exact hinv a ha b hb hne heq
  · exact hinv

theorem addBus_no_driver_preserves (f : Fleet) (newId : String)
    (hinv : OneVehiclePerOperator f.buses) :
    OneVehiclePerOperator (addBus f newId "").buses := by
  unfold addBus
  simp only [ne_eq, not_true_eq_false, if_false]
  intro a ha b hb hne heq
  rw [List.mem_append, List.mem_singleton] at ha hb
  rcases ha with ha | ha
  · rcases hb with hb | hb
    · exact hinv a ha b hb hne heq
    · subst hb
      exact absurd heq hne
  · subst ha
    exact absurd rfl hne

/-- C25: the Add Bus form breaks "at most one vehicle per operator": from a
state satisfying it, creating vehicle `Z` with operator `Y` (who drives `V`)
leaves both `V` and `Z` referencing `Y`. The other assigning mutations
preserve the invariant: updating a driver, creating a driver (whose fresh uid
no vehicle references yet), and adding a vehicle without an operator. -/
theorem add_bus_breaks_one_vehicle_per_operator :
    OneVehiclePerOperator sampleFleet.buses ∧
    addBusFormSubmit sampleFleet "TN-09" "Y" "Z" = .ok (addBus sampleFleet "Z" "Y") ∧
    (addBus sampleFleet "Z" "Y").buses =
      [⟨"V", "Y", "Yan", "9000000001"⟩, ⟨"W", "", "", ""⟩, ⟨"Z", "Y", "", ""⟩] ∧
    ¬OneVehiclePerOperator (addBus sampleFleet "Z" "Y").buses ∧
    (∀ (f f' : Fleet) (selected name phone busId : String), selected ≠ "" →
      OneVehiclePerOperator f.buses →
      updateDriver f selected name phone busId = .ok f' → OneVehiclePerOperator f'.buses) ∧
    (∀ (f : Fleet) (uid name phone busId : String), (∀ b ∈ f.buses, b.driverId ≠ uid) →
      OneVehiclePerOperator f.buses →
      OneVehiclePerOperator (createDriver f uid name phone busId).buses) ∧
    (∀ (f : Fleet) (newId : String), OneVehiclePerOperator f.buses →
      OneVehiclePerOperator (addBus f newId "").buses) := by
  refine ⟨by decide, rfl, by decide, by decide, ?_, createDriver_buses_preserves,
    addBus_no_driver_preserves⟩
  intro f f' selected name phone busId hsel hinv h
  rw [(updateDriver_ok f f' selected name phone busId h).1]
  exact enforceBatch_preserves f.buses selected busId name phone hsel hinv

theorem add_bus_breaks_one_vehicle_per_operator_witness :
    OneVehiclePerOperator
      [(⟨"V", "X", "Xi", "9000000002"⟩ : BusRec), ⟨"W", "", "", ""⟩] ∧
    OneVehiclePerOperator (createDriver sampleFleet "N" "New" "9000000003" "W").buses ∧
    OneVehiclePerOperator (addBus sampleFleet "Z" "").buses :=
  ⟨add_bus_breaks_one_vehicle_per_operator.2.2.2.2.1 sampleFleet
      ⟨[⟨"V", "X", "Xi", "9000000002"⟩, ⟨"W", "", "", ""⟩],
        [⟨"Y", "Yan", "9000000001", "V"⟩, ⟨"X", "Xi", "9000000002", "V"⟩]⟩
      "X" "Xi" "9000000002" "V" (by decide) (by decide) rfl,
   add_bus_breaks_one_vehicle_per_operator.2.2.2.2.2.1 sampleFleet "N" "New" "9000000003" "W"
      (by decide) (by decide),
   add_bus_breaks_one_vehicle_per_operator.2.2.2.2.2.2 sampleFleet "Z" (by decide)⟩

/-- C24: assigning a different operator to vehicle `V` leaves the previous
operator's record naming `V`: from a state where only `Y` is assigned to `V`,
updating `X` onto `V`, or creating `N` with `V` selected, yields two operator
records assigned to `V`. In general both mutations leave every other
operator's record untouched. -/
theorem previous_operator_keeps_vehicle :
    OneOperatorPerVehicle sampleFleet.drivers ∧
    updateDriver sampleFleet "X" "Xi" "9000000002" "V" =
      .ok ⟨[⟨"V", "X", "Xi", "9000000002"⟩, ⟨"W", "", "", ""⟩],
        [⟨"Y", "Yan", "9000000001", "V"⟩, ⟨"X", "Xi", "9000000002", "V"⟩]⟩ ∧
    ¬OneOperatorPerVehicle
      [(⟨"Y", "Yan", "9000000001", "V"⟩ : DriverRec), ⟨"X", "Xi", "9000000002", "V"⟩] ∧
    (createDriver sampleFleet "N" "New" "9000000003" "V").drivers =
      [⟨"Y", "Yan", "9000000001", "V"⟩, ⟨"X", "Xi", "9000000002", ""⟩,
        ⟨"N", "New", "9000000003", "V"⟩] ∧
    ¬OneOperatorPerVehicle (createDriver sampleFleet "N" "New" "9000000003" "V").drivers ∧
    (∀ (f f' : Fleet) (selected name phone busId : String),
      updateDriver f selected name phone busId = .ok f' →
      ∀ d ∈ f.drivers, d.id ≠ selected → d ∈ f'.drivers) ∧
    (∀ (f : Fleet) (uid name phone busId : String),
      ∀ d ∈ f.drivers, d.id ≠ uid → d ∈ (createDriver f uid name phone busId).drivers) := by
  refine ⟨by decide, rfl, by decide, by decide, by decide, ?_, ?_⟩
  · intro f f' selected name phone busId h d hd hne
    rw [(updateDriver_ok f f' selected name phone busId h).2]
    refine List.mem_map.2 ⟨d, hd, ?_⟩
    simp [hne]
  · intro f uid name phone busId d hd hne
    unfold createDriver
    simp only [List.mem_append, List.mem_filter]
    left
    exact ⟨hd, by simpa using hne⟩

theorem previous_operator_keeps_vehicle_witness :
    (⟨"Y", "Yan", "9000000001", "V"⟩ : DriverRec) ∈
      [(⟨"Y", "Yan", "9000000001", "V"⟩ : DriverRec), ⟨"X", "Xi", "9000000002", "V"⟩] ∧
    (⟨"Y", "Yan", "9000000001", "V"⟩ : DriverRec) ∈
      (createDriver sampleFleet "N" "New" "9000000003" "V").drivers :=
  ⟨previous_operator_keeps_vehicle.2.2.2.2.2.1 sampleFleet
      ⟨[⟨"V", "X", "Xi", "9000000002"⟩, ⟨"W", "", "", ""⟩],
        [⟨"Y", "Yan", "9000000001", "V"⟩, ⟨"X", "Xi", "9000000002", "V"⟩]⟩
      "X" "Xi" "9000000002" "V" rfl ⟨"Y", "Yan", "9000000001", "V"⟩ (by decide) (by decide),
   previous_operator_keeps_vehicle.2.2.2.2.2.2 sampleFleet "N" "New" "9000000003" "V"
      ⟨"Y", "Yan", "9000000001", "V"⟩ (by decide) (by decide)⟩

/-! ## Phone cleaning, cached entities, remove by order -/

theorem digit_not_space (c : Char) (h : isDigitChar c = true) : isJsSpace c = false := by
  unfold isDigitChar at h
  unfold isJsSpace
  simp only [Bool.and_eq_true, decide_eq_true_eq] at h
  simp only [Bool.or_eq_false_iff, Bool.and_eq_false_imp, decide_eq_true_eq,
    decide_eq_false_iff_not]
  omega

theorem dropWhile_space_digits (l : List Char) (h : l.all isDigitChar = true) :
    l.dropWhile isJsSpace = l := by
  cases l with
  | nil => rfl
  | cons c cs =>
    simp only [List.all_cons, Bool.and_eq_true] at h
    simp [List.dropWhile_cons, digit_not_space c h.1]

theorem jsTrim_digits (s : String) (h : s.data.all isDigitChar = true) : jsTrim s = s := by
  unfold jsTrim
  rw [dropWhile_space_digits s.data h,
    dropWhile_space_digits s.data.reverse (by simpa using h), List.reverse_reverse]

theorem cleanPhone_fixed (q : String) (h : q.data.all isDigitChar = true)
    (hp : stripPrefix0or91 q.data = q.data) : cleanPhone q = q := by
  unfold cleanPhone
  have hf : q.data.filter isDigitChar = q.data := by
    rw [List.filter_eq_self]
    intro c hc
    exact List.all_eq_true.1 h c hc
  rw [hf, hp]

theorem filter_digit_dropWhile (l : List Char) :
    (l.dropWhile isJsSpace).filter isDigitChar = l.filter isDigitChar := by
  induction l with
  | nil => rfl
  | cons c cs ih =>
    by_cases hc : isJsSpace c = true
    · have hd : isDigitChar c = false := by
        cases hdc : isDigitChar c with
        | false => rfl
        | true => rw [digit_not_space c hdc] at hc; exact absurd hc (by simp)
      simp [List.dropWhile_cons, hc, List.filter_cons, hd, ih]
    · simp [List.dropWhile_cons, hc]

theorem cleanPhone_jsTrim (p : String) : cleanPhone (jsTrim p) = cleanPhone p := by
  unfold cleanPhone jsTrim
  simp only
  rw [List.filter_reverse, filter_digit_dropWhile, List.filter_reverse, List.reverse_reverse,
    filter_digit_dropWhile]

/-- C27: the function `cleanPhone` is not idempotent. The input
`+91 9123456789` cleans to the ten digits `9123456789`, which pass the length
check; cleaning that stored value again, as the parent form does on submit,
strips the leading `91` once more and leaves eight digits, which fail the
check. Cleaning again is the identity exactly on cleaned numbers that do not
themselves begin with `0` or `91`. -/
theorem cleanPhone_strips_again :
    cleanPhone "+91 9123456789" = "9123456789" ∧
    parentFormPhoneOk "+91 9123456789" = true ∧
    cleanPhone (cleanPhone "+91 9123456789") = "23456789" ∧
    cleanPhone (cleanPhone "+91 9123456789") ≠ cleanPhone "+91 9123456789" ∧
    parentFormPhone (cleanPhone "+91 9123456789") = "23456789" ∧
    parentFormPhoneOk (cleanPhone "+91 9123456789") = false ∧
    (∀ p : String, stripPrefix0or91 (cleanPhone p).data = (cleanPhone p).data →
      cleanPhone (cleanPhone p) = cleanPhone p ∧
      parentFormPhone (cleanPhone p) = cleanPhone p ∧
      parentFormPhoneOk (cleanPhone p) = parentFormPhoneOk p) := by
  refine ⟨by decide, by decide, by decide, by decide, by decide, by decide, ?_⟩
  intro p hp
  have h1 : cleanPhone (cleanPhone p) = cleanPhone p :=
    cleanPhone_fixed _ (cleanPhone_digits p) hp
  have h2 : parentFormPhone (cleanPhone p) = cleanPhone p := by
    unfold parentFormPhone
    rw [jsTrim_digits _ (cleanPhone_digits p), h1]
  refine ⟨h1, h2, ?_⟩
  unfold parentFormPhoneOk
  rw [h2]
  unfold parentFormPhone
  rw [cleanPhone_jsTrim]


theorem cleanPhone_strips_again_witness :
    cleanPhone (cleanPhone "98765 43210") = cleanPhone "98765 43210" ∧
    parentFormPhone (cleanPhone "98765 43210") = cleanPhone "98765 43210" ∧
    parentFormPhoneOk (cleanPhone "98765 43210") = parentFormPhoneOk "98765 43210" :=
  cleanPhone_strips_again.2.2.2.2.2.2 "98765 43210" (by decide)

theorem get?_none_of_not_mem {V : Type} (o : JsObj V) (k : String)
    (h : k ∉ o.map Prod.fst) : JsObj.get? o k = none := by
  induction o with
  | nil => rfl
  | cons p r ih =>
    obtain ⟨k', v'⟩ := p
    simp only [List.map_cons, List.mem_cons, not_or] at h
    simp only [JsObj.get?, Ne.symm h.1, if_false]
    exact ih h.2

theorem not_mem_of_get?_none {V : Type} (o : JsObj V) (k : String)
    (h : JsObj.get? o k = none) : k ∉ o.map Prod.fst := by
  induction o with
  | nil => simp
  | cons p r ih =>
    obtain ⟨k', v'⟩ := p
    by_cases hk : k' = k
    · simp [JsObj.get?, hk] at h
    · simp only [JsObj.get?, hk, if_false] at h
      simp only [List.map_cons, List.mem_cons, not_or]
      exact ⟨Ne.symm hk, ih h⟩

theorem get?_assign_of_not_mem {V : Type} (o src : JsObj V) (k : String)
    (h : k ∉ src.map Prod.fst) : JsObj.get? (JsObj.assign o src) k = JsObj.get? o k := by
  induction src generalizing o with
  | nil => rfl
  | cons p r ih =>
    obtain ⟨k', v'⟩ := p
    simp only [List.map_cons, List.mem_cons, not_or] at h
    show JsObj.get? (JsObj.assign (JsObj.set o k' v') r) k = _
    rw [ih _ h.2, get?_set_ne o k' k v' h.1]

theorem get?_assign_of_mem {V : Type} (o src : JsObj V) (k : String) (v : V)
    (hnd : (src.map Prod.fst).Nodup) (h : (k, v) ∈ src) :
    JsObj.get? (JsObj.assign o src) k = some v := by
  induction src generalizing o with
  | nil => simp at h
  | cons p r ih =>
    obtain ⟨k', v'⟩ := p
    simp only [List.map_cons, List.nodup_cons] at hnd
    show JsObj.get? (JsObj.assign (JsObj.set o k' v') r) k = _
    rw [List.mem_cons] at h
    rcases h with h | h
    · simp only [Prod.mk.injEq] at h
      obtain ⟨hk, hv⟩ := h
      subst hk
      subst hv
      rw [get?_assign_of_not_mem _ r k hnd.1, get?_set_same]
    · exact ih _ hnd.2 h

theorem entityOf_id {V : Type} (str : String → V) (d : Doc V)
    (h : JsObj.get? d.data "id" = none) :
    JsObj.get? (entityOf str d) "id" = some (str d.id) := by
  unfold entityOf
  rw [get?_assign_of_not_mem _ _ _ (not_mem_of_get?_none _ _ h)]
  simp [JsObj.get?]

theorem findById_map {V : Type} [DecidableEq V] (str : String → V)
    (hinj : Function.Injective str) (docs : List (Doc V)) (id : String)
    (hno : ∀ x ∈ docs, JsObj.get? x.data "id" = none) :
    findById str (docs.map (entityOf str)) id =
      (docs.find? (fun x => x.id == id)).map (entityOf str) := by
  induction docs with
  | nil => rfl
  | cons d ds ih =>
    have hd := entityOf_id str d (hno d (List.mem_cons_self _ _))
    have ih' := ih (fun x hx => hno x (List.mem_cons_of_mem _ hx))
    unfold findById at ih' ⊢
    simp only [List.map_cons, List.find?_cons, hd]
    by_cases hid : d.id = id
    · simp [hid]
    · have hne : str d.id ≠ str id := fun h => hid (hinj h)
      have hb : (d.id == id) = false := by simp [hid]
      simp only [List.find?_map] at ih'
      simp only [hb]
      simpa [hne] using ih'

/-- C28: a data field named `id` replaces the document id in the cached
entity. The document `d1` with data `{id: "zz", name: "N"}` is cached with id
`zz`, and the lookup `find(x => x.id === "d1")` over the snapshot finds nothing.
For a document whose data has no field named `id` the entity's `id` is the
document id; every data field (keys being distinct) appears in the entity with
its value; and over a snapshot of such documents the lookup selects the entity
of the first document with that id. -/
theorem data_id_field_shadows_document_id {V : Type} [DecidableEq V] (str : String → V)
    (d : Doc V) :
    (JsObj.get? (entityOf id (⟨"d1", [("id", "zz"), ("name", "N")]⟩ : Doc String)) "id" =
        some "zz" ∧
      findById id ([(⟨"d1", [("id", "zz"), ("name", "N")]⟩ : Doc String)].map (entityOf id))
        "d1" = none ∧
      findById id ([(⟨"d1", [("id", "zz"), ("name", "N")]⟩ : Doc String)].map (entityOf id))
        "zz" = some [("id", "zz"), ("name", "N")]) ∧
    (JsObj.get? d.data "id" = none → JsObj.get? (entityOf str d) "id" = some (str d.id)) ∧
    ((d.data.map Prod.fst).Nodup → ∀ (k : String) (v : V), (k, v) ∈ d.data →
      JsObj.get? (entityOf str d) k = some v) ∧
    (∀ (docs : List (Doc V)) (id : String), Function.Injective str →
      (∀ x ∈ docs, JsObj.get? x.data "id" = none) →
      findById str (docs.map (entityOf str)) id =
        (docs.find? (fun x => x.id == id)).map (entityOf str)) := by
  refine ⟨⟨by decide, by decide, by decide⟩, entityOf_id str d, ?_, ?_⟩
  · intro hnd k v h
    exact get?_assign_of_mem _ _ k v hnd h
  · intro docs id hinj hno
    exact findById_map str hinj docs id hno

theorem data_id_field_shadows_document_id_witness :
    JsObj.get? (entityOf id (⟨"d1", [("uid", "u1"), ("name", "N")]⟩ : Doc String)) "id" =
      some "d1" ∧
    JsObj.get? (entityOf id (⟨"d1", [("uid", "u1"), ("name", "N")]⟩ : Doc String)) "name" =
      some "N" ∧
    findById id ([(⟨"d1", [("uid", "u1")]⟩ : Doc String), ⟨"d2", []⟩].map (entityOf id)) "d2" =
      ([(⟨"d1", [("uid", "u1")]⟩ : Doc String), ⟨"d2", []⟩].find?
        (fun x => x.id == "d2")).map (entityOf id) :=
  ⟨(data_id_field_shadows_document_id id ⟨"d1", [("uid", "u1"), ("name", "N")]⟩).2.1
      (by decide),
   (data_id_field_shadows_document_id id ⟨"d1", [("uid", "u1"), ("name", "N")]⟩).2.2.1
      (by decide) "name" "N" (by decide),
   (data_id_field_shadows_document_id id ⟨"d1", []⟩).2.2.2 [⟨"d1", [("uid", "u1")]⟩, ⟨"d2", []⟩]
      "d2" (fun _ _ h => h) (by decide)⟩

theorem removeChoiceIndex_ok (len : Nat) (choice : String) (k : Int)
    (hc : choice ≠ "") (hp : parseInt choice = some k) (h1 : 1 ≤ k) (h2 : k ≤ len) :
    removeChoiceIndex len choice = .ok (some (k - 1).toNat) := by
  unfold removeChoiceIndex
  have hlen : len ≠ 0 := by omega
  have hcond : ¬(k - 1 < 0 ∨ k - 1 ≥ (len : Int)) := by omega
  simp only [hlen, if_false, hc, hp, hcond]

/-- C29: the Remove Stop button removes by position, not by identity. With
`P = [a, b, c]` read before the prompt and choice `1`, a transaction that
finds `T = [x, a, b, c]` commits `[a, b, c]` (it removed `x`, not `a`), and
with choice `3` and `T = [a, b]` it commits `T` unchanged, whereas
`deleteStop` removes `a` by id. In general the committed list is `T` without
its element at position `k - 1`, renumbered; when `T` is `P` this is `P`
without the chosen stop, one shorter and numbered contiguously. -/
theorem remove_by_order_uses_stale_index :
    removeStopByOrder sampleStops "1"
        (some ⟨"TN-01", "North", "", some (sampleStop "x" 1 :: sampleStops)⟩) =
      .ok (some [sampleStop "a" 1, sampleStop "b" 2, sampleStop "c" 3]) ∧
    removeStopByOrder sampleStops "3"
        (some ⟨"TN-01", "North", "", some [sampleStop "a" 1, sampleStop "b" 2]⟩) =
      .ok (some [sampleStop "a" 1, sampleStop "b" 2]) ∧
    deleteStopTx "a" (some ⟨"TN-01", "North", "", some (sampleStop "x" 1 :: sampleStops)⟩) =
      .ok [sampleStop "x" 1, sampleStop "b" 2, sampleStop "c" 3] ∧
    (∀ (before : List Stop) (choice : String) (k : Int) (d : BusDoc),
      choice ≠ "" → parseInt choice = some k → 1 ≤ k → k ≤ before.length →
      removeStopByOrder before choice (some d) =
        .ok (some (renumber (d.stopsOrEmpty.eraseIdx (k - 1).toNat)))) ∧
    (∀ (before : List Stop) (choice : String) (k : Int) (d : BusDoc),
      choice ≠ "" → parseInt choice = some k → 1 ≤ k → k ≤ before.length →
      d.stopsOrEmpty = before →
      ∃ out, removeStopByOrder before choice (some d) = .ok (some out) ∧
        out.length = before.length - 1 ∧
        out.map Stop.core = (before.eraseIdx (k - 1).toNat).map Stop.core ∧
        Contiguous out) := by
  have hgen : ∀ (before : List Stop) (choice : String) (k : Int) (d : BusDoc),
      choice ≠ "" → parseInt choice = some k → 1 ≤ k → k ≤ before.length →
      removeStopByOrder before choice (some d) =
        .ok (some (renumber (d.stopsOrEmpty.eraseIdx (k - 1).toNat))) := by
    intro before choice k d hc hp h1 h2
    unfold removeStopByOrder
    rw [removeChoiceIndex_ok before.length choice k hc hp h1 h2]
    simp only [removeStopAtTx, splice_remove]
  refine ⟨rfl, rfl, rfl, hgen, ?_⟩
  intro before choice k d hc hp h1 h2 hsame
  refine ⟨_, hgen before choice k d hc hp h1 h2, ?_, ?_, renumber_contiguous _⟩
  · rw [hsame]
    simp only [renumber, renumberFrom_length, List.length_eraseIdx]
    have : (k - 1).toNat < before.length := by omega
    simp only [this, if_true]
  · rw [hsame]
    exact renumberFrom_core 0 _

theorem remove_by_order_uses_stale_index_witness :
    ∃ out, removeStopByOrder sampleStops "2"
        (some ⟨"TN-01", "North", "", some sampleStops⟩) = .ok (some out) ∧
      out.length = sampleStops.length - 1 ∧
      out.map Stop.core = (sampleStops.eraseIdx (2 - 1 : Int).toNat).map Stop.core ∧
      Contiguous out :=
  remove_by_order_uses_stale_index.2.2.2.2 sampleStops "2" 2
    ⟨"TN-01", "North", "", some sampleStops⟩ (by decide) (by decide) (by decide) (by decide) rfl

end Traqer
